import Mathlib

/-!
# Hatchery: naming, pod status and workspace lifecycle

A shallow embedding of `hatchery/pods.go` (naming helpers, the pod status
engine, the pod builder and the create and delete operations) together with
the properties proved about it.

Conventions of the embedding:

* A Go `string` is a sequence of bytes, read by `for _, v := range s` as a
  sequence of code points. For a string that is valid UTF-8 the embedding takes
  that sequence as the value of the string (a Lean `String`), and lengths and
  indices are counted in characters. Where invalid bytes matter the username is
  the list of its bytes and `rangeRunes` gives the code points read
  (`escapismOfBytes`); `rangeRunes_utf8Bytes` relates the two.
* `fmt.Sprintf` calls whose verbs are all `%s` are string concatenations.
* For the status engine the Kubernetes client is a value of type `Cluster`:
  the objects stored per namespace and name, plus an optional failure of the
  API call itself. For the create and delete operations it is a `Backend`,
  the error returned by each call, and every operation returns the list of
  calls it issued, in order, next to its result.
* A panic (`resource.MustParse` on a text that is not a quantity) is the
  result `Outcome.panicked`.
* Log output (`fmt.Printf`, `Logger.Printf`) is not part of the model.
-/

namespace Hatchery

/-! ## Naming (`escapism`, `userToResourceName`) -/

/-- Go's `fmt.Sprintf("%2x", v)` for a non-negative `v`: lower-case hexadecimal,
padded on the left with blanks to a minimum width of two. -/
def sprintf2x (v : Nat) : String :=
  let digits := Nat.toDigits 16 v
  ⟨List.replicate (2 - digits.length) ' ' ++ digits⟩

/-- Function `characterInString(a, list)`: whether rune `a` occurs in `list`. -/
def characterInString (a : Char) (list : String) : Bool :=
  list.data.any (fun b => b == a)

/-- The constant `safeBytes` of `escapism`. -/
def safeBytes : String := "abcdefghijklmnopqrstuvwxyz0123456789"

/-- Function `escapism(input)` on an input given by the runes that `range`
visits, which for a username that is valid UTF-8 are its characters: the loop
appends, rune by rune, either the rune itself or `"-"` followed by `%2x` of its
code point. For an input given by its bytes see `escapismOfBytes`. -/
def escapism (input : String) : String :=
  input.data.foldl
    (fun escaped v =>
      if !characterInString v safeBytes then
        escaped ++ ("-" ++ sprintf2x v.toNat)
      else
        escaped ++ String.singleton v)
    ""

/-- Function `userToResourceName(userName, resourceType)`. -/
def userToResourceName (userName : String) (resourceType : String) : String :=
  let safeUserName := escapism userName
  if resourceType = "pod" then "hatchery-" ++ safeUserName
  else if resourceType = "service" then "h-" ++ safeUserName ++ "-s"
  else if resourceType = "mapping" then safeUserName ++ "-mapping"
  else resourceType ++ "-" ++ safeUserName

/-- The characters of the class `[a-z0-9]`. -/
def inAZ09 (c : Char) : Bool := c.isLower || c.isDigit

/-- What one rune contributes to the output of `escapism`. -/
def escapeRune (v : Char) : List Char :=
  if characterInString v safeBytes then [v] else '-' :: (sprintf2x v.toNat).data

/-- Value of one character read as a hexadecimal digit; the padding blank
counts as zero. -/
def hexVal (c : Char) : Nat :=
  if c.isDigit then c.toNat - 48 else if c = ' ' then 0 else c.toNat - 87

/-- Value of a character list read as a big-endian hexadecimal numeral. -/
def ofHex (l : List Char) : Nat := l.foldl (fun a c => 16 * a + hexVal c) 0

/-- Library call `utf8.DecodeRuneInString(s)` on the bytes of a Go string (a
byte is a number below 256): the code point of the first rune and its width
in bytes. A byte that starts no valid encoding gives `U+FFFD` and width 1. -/
def decodeRuneInString : List Nat → Nat × Nat
  | [] => (0xFFFD, 0)
  | b0 :: rest =>
    if b0 < 0x80 then (b0, 1)
    else if b0 < 0xC2 then (0xFFFD, 1)
    else if b0 < 0xE0 then
      match rest with
      | b1 :: _ =>
        if 0x80 ≤ b1 ∧ b1 ≤ 0xBF then (b0 % 32 * 64 + b1 % 64, 2) else (0xFFFD, 1)
      | _ => (0xFFFD, 1)
    else if b0 < 0xF0 then
      match rest with
      | b1 :: b2 :: _ =>
        if (if b0 = 0xE0 then 0xA0 else 0x80) ≤ b1 ∧ b1 ≤ (if b0 = 0xED then 0x9F else 0xBF)
            ∧ 0x80 ≤ b2 ∧ b2 ≤ 0xBF then
          (b0 % 16 * 4096 + b1 % 64 * 64 + b2 % 64, 3)
        else (0xFFFD, 1)
      | _ => (0xFFFD, 1)
    else if b0 < 0xF5 then
      match rest with
      | b1 :: b2 :: b3 :: _ =>
        if (if b0 = 0xF0 then 0x90 else 0x80) ≤ b1 ∧ b1 ≤ (if b0 = 0xF4 then 0x8F else 0xBF)
            ∧ 0x80 ≤ b2 ∧ b2 ≤ 0xBF ∧ 0x80 ≤ b3 ∧ b3 ≤ 0xBF then
          (b0 % 8 * 262144 + b1 % 64 * 4096 + b2 % 64 * 64 + b3 % 64, 4)
        else (0xFFFD, 1)
      | _ => (0xFFFD, 1)
    else (0xFFFD, 1)

/-- The runes that `for _, v := range input` visits, with `skip` the number of
bytes still to pass over as part of the rune just read. -/
def rangeRunesFrom : Nat → List Nat → List Char
  | _, [] => []
  | skip + 1, _ :: rest => rangeRunesFrom skip rest
  | 0, b :: rest =>
    Char.ofNat (decodeRuneInString (b :: rest)).1
      :: rangeRunesFrom ((decodeRuneInString (b :: rest)).2 - 1) rest

/-- The runes that `for _, v := range input` visits on the bytes of a Go
string: each rune that is validly encoded, and `U+FFFD` for each other byte. -/
def rangeRunes (input : List Nat) : List Char :=
  rangeRunesFrom 0 input

/-- Function `escapism(input)` on a Go string given by its bytes: the loop of
`escapism` over the runes that `range` visits. -/
def escapismOfBytes (input : List Nat) : String :=
  escapism ⟨rangeRunes input⟩

/-- The UTF-8 encoding of one rune, the bytes that a Go string holds for it. -/
def utf8EncodeRune (c : Char) : List Nat :=
  if c.toNat < 0x80 then [c.toNat]
  else if c.toNat < 0x800 then [0xC0 + c.toNat / 64, 0x80 + c.toNat % 64]
  else if c.toNat < 0x10000 then
    [0xE0 + c.toNat / 4096, 0x80 + c.toNat / 64 % 64, 0x80 + c.toNat % 64]
  else
    [0xF0 + c.toNat / 262144, 0x80 + c.toNat / 4096 % 64, 0x80 + c.toNat / 64 % 64,
     0x80 + c.toNat % 64]

/-- The bytes of the Go string that holds the given runes: a username that is
valid UTF-8. -/
def utf8Bytes (s : String) : List Nat :=
  s.data.flatMap utf8EncodeRune

/-! ## Pod status (`checkPodReadiness`, `statusK8sPod`) -/

/-- One entry of `pod.Status.Conditions` (`k8sv1.PodCondition`): its type and
status, both string-typed in the Kubernetes API. -/
structure PodCondition where
  Type_ : String
  Status : String
  deriving DecidableEq, Repr

/-- One entry of `pod.Status.ContainerStatuses`; `σ` stands for
`k8sv1.ContainerState`, which the code only copies. -/
structure ContainerStatus (σ : Type) where
  Name : String
  State : σ
  Ready : Bool
  deriving DecidableEq, Repr

/-- The fields of `k8sv1.PodStatus` that the code reads. `Phase` is
string-typed in the Kubernetes API. -/
structure PodStatus (σ : Type) where
  Phase : String
  Conditions : List PodCondition
  ContainerStatuses : List (ContainerStatus σ)
  deriving DecidableEq, Repr

/-- The fields of `k8sv1.Pod` that the code reads; `DeletionTimestamp` is a
nullable pointer to a time. -/
structure Pod (σ : Type) where
  DeletionTimestamp : Option Nat
  Status : PodStatus σ
  deriving DecidableEq, Repr

/-- Struct `PodConditions`. -/
structure PodConditions where
  Type_ : String
  Status : String
  deriving DecidableEq, Repr

/-- Struct `ContainerStates`. -/
structure ContainerStates (σ : Type) where
  Name : String
  State : σ
  Ready : Bool
  deriving DecidableEq, Repr

/-- Struct `WorkspaceStatus`; a nil slice is the empty list. -/
structure WorkspaceStatus (σ : Type) where
  Status : String
  Conditions : List PodConditions
  ContainerStates : List (ContainerStates σ)
  deriving DecidableEq, Repr

/-- The backend behind `getPodClient()`: the pods stored by namespace and name,
and `apiFailure`, set when the API call itself fails (transport, authorisation,
timeout) whatever is stored. -/
structure Cluster (σ : Type) where
  pods : String → String → Option (Pod σ)
  apiFailure : Option String

/-- Call `podClient.Pods(namespace).Get(ctx, name, opts)`: the stored pod, or an
error when the call fails or no pod has that name. -/
def Cluster.getPod {σ : Type} (cluster : Cluster σ) (namespace_ name : String) :
    Except String (Pod σ) :=
  match cluster.apiFailure with
  | some e => .error e
  | none =>
    match cluster.pods namespace_ name with
    | some pod => .ok pod
    | none => .error ("pods \"" ++ name ++ "\" not found")

/-- The loop of `checkPodReadiness` over `pod.Status.Conditions`. -/
def conditionsReady : List PodCondition → Bool
  | [] => true
  | v :: rest =>
    if (v.Type_ = "Ready" ∨ v.Type_ = "PodScheduled") ∧ v.Status ≠ "True" then false
    else conditionsReady rest

/-- Function `checkPodReadiness(pod)`. -/
def checkPodReadiness {σ : Type} (pod : Pod σ) : Bool :=
  if pod.Status.Phase = "Pending" then false
  else conditionsReady pod.Status.Conditions

/-- Function `statusK8sPod(userName)`, with the client and `Config.Config.UserNamespace`
as arguments. The second component is the returned `error` (`none` is nil). -/
def statusK8sPod {σ : Type} (cluster : Cluster σ) (userNamespace : String)
    (userName : String) : WorkspaceStatus σ × Option String :=
  let safeUserName := escapism userName
  let status : WorkspaceStatus σ := { Status := "", Conditions := [], ContainerStates := [] }
  let podName := "hatchery-" ++ safeUserName
  match cluster.getPod userNamespace podName with
  | .error _ => ({ status with Status := "Not Found" }, none)
  | .ok pod =>
    if pod.DeletionTimestamp.isSome then
      ({ status with Status := "Terminating" }, none)
    else if pod.Status.Phase = "Failed" ∨ pod.Status.Phase = "Succeeded"
        ∨ pod.Status.Phase = "Unknown" then
      ({ status with Status := "Stopped" }, none)
    else if pod.Status.Phase = "Pending" ∨ pod.Status.Phase = "Running" then
      let allReady := checkPodReadiness pod
      if allReady = true then
        ({ status with Status := "Running" }, none)
      else
        let conditions : List PodConditions :=
          pod.Status.Conditions.map
            (fun cond => { Type_ := cond.Type_, Status := cond.Status })
        let containerStates : List (ContainerStates σ) :=
          pod.Status.ContainerStatuses.map
            (fun cs => { Name := cs.Name, State := cs.State, Ready := cs.Ready })
        ({ Status := "Launching", Conditions := conditions,
           ContainerStates := containerStates }, none)
    else
      (status, none)

/-- Two runes are equal or both outside `safeBytes`. -/
def sameOrBothEscaped (a b : Char) : Prop :=
  a = b ∨ (characterInString a safeBytes = false ∧ characterInString b safeBytes = false)

/-- Whether a pod condition is one of the two types that readiness looks at. -/
def isReadinessCondition (c : PodCondition) : Prop :=
  c.Type_ = "Ready" ∨ c.Type_ = "PodScheduled"

instance (c : PodCondition) : Decidable (isReadinessCondition c) := by
  unfold isReadinessCondition; infer_instance

/-- The copy of one pod condition made in the `Launching` branch. -/
def toPodConditions (cond : PodCondition) : PodConditions :=
  { Type_ := cond.Type_, Status := cond.Status }

/-- The copy of one container status made in the `Launching` branch. -/
def toContainerStates {σ : Type} (cs : ContainerStatus σ) : ContainerStates σ :=
  { Name := cs.Name, State := cs.State, Ready := cs.Ready }

/-- A cluster that stores at most one pod, under `jupyter-pods/hatchery-alice`,
used to evaluate the status engine on concrete inputs. -/
def aliceCluster (pod : Option (Pod String)) (failure : Option String) : Cluster String :=
  { pods := fun namespace_ name =>
      if namespace_ = "jupyter-pods" ∧ name = "hatchery-alice" then pod else none,
    apiFailure := failure }

/-- A pod with the given deletion timestamp, phase and conditions, and one
container that is still being created. -/
def mkPod (deletion : Option Nat) (phase : String) (conditions : List PodCondition) :
    Pod String :=
  { DeletionTimestamp := deletion,
    Status := { Phase := phase, Conditions := conditions,
                ContainerStatuses := [{ Name := "hatchery-container",
                                        State := "waiting: ContainerCreating",
                                        Ready := false }] } }

/-! ## Kubernetes objects built by `buildPod` and `createK8sPod`

The structures below carry the fields of the `k8s.io/api/core/v1` types that
this repository sets or reads. A Go map is the list of its entries in the
order in which the code visits or writes them, a nil pointer is `none`, a nil
slice is the empty list. -/

namespace k8sv1

/-- A parsed `resource.Quantity`, kept as the text it was parsed from. -/
structure Quantity where
  text : String
  deriving DecidableEq, Repr

/-- Type `k8sv1.EnvVar`. -/
structure EnvVar where
  Name : String
  Value : String
  deriving DecidableEq, Repr

/-- Type `k8sv1.VolumeMount`. -/
structure VolumeMount where
  Name : String
  MountPath : String
  SubPath : String
  ReadOnly : Bool
  MountPropagation : Option String
  deriving DecidableEq, Repr

/-- Type `k8sv1.SecurityContext` (container level). -/
structure SecurityContext where
  Privileged : Option Bool
  RunAsUser : Option Int
  RunAsGroup : Option Int
  deriving DecidableEq, Repr

/-- Type `k8sv1.ResourceRequirements`; a `ResourceList` is the list of its
entries. -/
structure ResourceRequirements where
  Limits : List (String × Quantity)
  Requests : List (String × Quantity)
  deriving DecidableEq, Repr

/-- Type `k8sv1.HTTPGetAction`. -/
structure HTTPGetAction where
  Path : String
  Port : Int
  deriving DecidableEq, Repr

/-- Type `k8sv1.Handler`; `Exec` holds the command of the `ExecAction`. -/
structure Handler where
  Exec : Option (List String)
  HTTPGet : Option HTTPGetAction
  deriving DecidableEq, Repr

/-- Type `k8sv1.Lifecycle`. -/
structure Lifecycle where
  PostStart : Option Handler
  PreStop : Option Handler
  deriving DecidableEq, Repr

/-- Type `k8sv1.Probe`. -/
structure Probe where
  Handler : Handler
  InitialDelaySeconds : Int
  PeriodSeconds : Int
  TimeoutSeconds : Int
  deriving DecidableEq, Repr

/-- Type `k8sv1.Container`. -/
structure Container where
  Name : String
  Image : String
  Command : List String
  Args : List String
  Env : List EnvVar
  Resources : ResourceRequirements
  VolumeMounts : List VolumeMount
  LivenessProbe : Option Probe
  ReadinessProbe : Option Probe
  Lifecycle : Option Lifecycle
  ImagePullPolicy : String
  SecurityContext : Option SecurityContext
  deriving DecidableEq, Repr

/-- Type `k8sv1.Volume` with the two volume sources the code uses: `EmptyDir`
holds the medium, `PersistentVolumeClaim` the claim name. -/
structure Volume where
  Name : String
  EmptyDir : Option String
  PersistentVolumeClaim : Option String
  deriving DecidableEq, Repr

/-- Type `k8sv1.PodSecurityContext`. -/
structure PodSecurityContext where
  RunAsUser : Option Int
  RunAsGroup : Option Int
  FSGroup : Option Int
  deriving DecidableEq, Repr

/-- Type `k8sv1.Toleration`. -/
structure Toleration where
  Key : String
  Operator : String
  Value : String
  Effect : String
  TolerationSeconds : Option Int
  deriving DecidableEq, Repr

/-- Type `metav1.ObjectMeta`. -/
structure ObjectMeta where
  Name : String
  Namespace : String
  Labels : List (String × String)
  Annotations : List (String × String)
  deriving DecidableEq, Repr

/-- Type `k8sv1.PodSpec`. -/
structure PodSpec where
  SecurityContext : Option PodSecurityContext
  InitContainers : List Container
  Containers : List Container
  RestartPolicy : String
  ImagePullSecrets : List String
  NodeSelector : List (String × String)
  Tolerations : List Toleration
  Volumes : List Volume
  deriving DecidableEq, Repr

/-- Type `k8sv1.Pod` as `buildPod` fills it: metadata and spec. -/
structure Pod where
  ObjectMeta : ObjectMeta
  Spec : PodSpec
  deriving DecidableEq, Repr

/-- Type `k8sv1.ServicePort`; `TargetPort` is the `IntVal` of an
`intstr.IntOrString` of type `Int`. -/
structure ServicePort where
  Name : String
  Protocol : String
  Port : Int
  TargetPort : Int
  deriving DecidableEq, Repr

/-- Type `k8sv1.ServiceSpec`. -/
structure ServiceSpec where
  Type_ : String
  Selector : List (String × String)
  Ports : List ServicePort
  deriving DecidableEq, Repr

/-- Type `k8sv1.Service`. -/
structure Service where
  ObjectMeta : ObjectMeta
  Spec : ServiceSpec
  deriving DecidableEq, Repr

/-- Type `k8sv1.PersistentVolumeClaimSpec`. -/
structure PersistentVolumeClaimSpec where
  AccessModes : List String
  Resources : ResourceRequirements
  deriving DecidableEq, Repr

/-- Type `k8sv1.PersistentVolumeClaim`. -/
structure PersistentVolumeClaim where
  ObjectMeta : ObjectMeta
  Spec : PersistentVolumeClaimSpec
  deriving DecidableEq, Repr

/-- Type `metav1.DeleteOptions`. -/
structure DeleteOptions where
  PropagationPolicy : Option String
  GracePeriodSeconds : Option Int
  deriving DecidableEq, Repr

end k8sv1

/-! ## Configuration -/

/-- Modelled from the spec: the struct `Container` of the configuration (its
declaration is not among the sources), the application descriptor of spec
section 3, with the fields that `pods.go` and `dockstore.go` read and write.
`Env` is the map in the order in which `range` visits it. -/
structure Container where
  Name : String
  CPULimit : String
  MemoryLimit : String
  Image : String
  PullPolicy : String
  Env : List (String × String)
  TargetPort : Int
  Args : List String
  Command : List String
  PathRewrite : String
  ReadyProbe : String
  UseTLS : String
  LifecyclePreStop : List String
  LifecyclePostStart : List String
  UserUID : Int
  GroupUID : Int
  FSGID : Int
  UseSharedMemory : String
  Friends : List k8sv1.Container
  UserVolumeLocation : String
  deriving DecidableEq, Repr

/-- Modelled from the spec: the sidecar part of the configuration
(`Config.Config.Sidecar`, declaration not among the sources), with the fields
that `buildPod` reads. -/
structure SidecarContainer where
  CPULimit : String
  MemoryLimit : String
  Image : String
  Env : List (String × String)
  Args : List String
  Command : List String
  LifecyclePreStop : List String
  deriving DecidableEq, Repr

/-- Modelled from the spec: `Config.Config.ServiceMapper` (declaration not
among the sources); each field says whether that mapper pointer is non-nil. -/
structure ServiceMapper where
  AmbassadorV1Mapper : Bool
  AmbassadorV2Mapper : Bool
  deriving DecidableEq, Repr

/-- Modelled from the spec: the struct behind `Config.Config` (declaration not
among the sources), with the fields that `pods.go` reads. -/
structure HatcheryConfig where
  UserNamespace : String
  Sidecar : SidecarContainer
  UserVolumeSize : String
  ServiceMapper : ServiceMapper
  deriving DecidableEq, Repr

/-- Modelled from the spec: the struct `FullHatcheryConfig` behind the global
`Config` (declaration not among the sources); `ContainersMap` is the lookup
`Config.ContainersMap[hash]`, `none` for a key that is absent. -/
structure FullHatcheryConfig where
  Config : HatcheryConfig
  ContainersMap : String → Option Container

/-! ## Backend calls -/

/-- The calls that the lifecycle code can issue: get, create and delete on
pods, services and volume claims through the Kubernetes client, and `Start` on
the configured service mapper (`version` is 1 or 2). -/
inductive Call where
  | getPod (namespace_ name : String)
  | createPod (namespace_ : String) (pod : k8sv1.Pod)
  | deletePod (namespace_ name : String) (opts : k8sv1.DeleteOptions)
  | getService (namespace_ name : String)
  | createService (namespace_ : String) (service : k8sv1.Service)
  | deleteService (namespace_ name : String) (opts : k8sv1.DeleteOptions)
  | getPVC (namespace_ name : String)
  | createPVC (namespace_ : String) (pvc : k8sv1.PersistentVolumeClaim)
  | deletePVC (namespace_ name : String) (opts : k8sv1.DeleteOptions)
  | startMapping (version : Nat) (userName pathRewrite useTLS : String)
      (service : k8sv1.Service)
  deriving DecidableEq, Repr

/-- The operation of a call, without its arguments. -/
inductive CallKind where
  | getPod | createPod | deletePod
  | getService | createService | deleteService
  | getPVC | createPVC | deletePVC
  | startMapping
  deriving DecidableEq, Repr

/-- The operation of a call. -/
def Call.kind : Call → CallKind
  | .getPod _ _ => .getPod
  | .createPod _ _ => .createPod
  | .deletePod _ _ _ => .deletePod
  | .getService _ _ => .getService
  | .createService _ _ => .createService
  | .deleteService _ _ _ => .deleteService
  | .getPVC _ _ => .getPVC
  | .createPVC _ _ => .createPVC
  | .deletePVC _ _ _ => .deletePVC
  | .startMapping _ _ _ _ _ => .startMapping

/-- The backend as the lifecycle code sees it: the `error` each call returns
(`none` is nil). No function below issues the same call twice, so a backend
whose answers depend on earlier calls answers a run exactly as the backend
that maps each call of the run to the answer it got. -/
abbrev Backend := Call → Option String

/-- The result of running Go code that may panic. -/
inductive Outcome (α : Type) where
  | returned (value : α)
  | panicked (message : String)
  deriving DecidableEq, Repr

/-- Library call `resource.MustParse(str)`: the quantity, or a panic when the
text is not a quantity. Which texts are quantities is the parameter
`validQuantity`. -/
def mustParse (validQuantity : String → Bool) (str : String) : Outcome k8sv1.Quantity :=
  if validQuantity str then .returned { text := str }
  else .panicked ("cannot parse quantity: " ++ str)

/-! ## Building and submitting the workspace (`buildPod`, `createK8sPod`,
`deleteK8sPod`) -/

/-- The `VolumeMounts` of the fuse sidecar in `buildPod`. -/
def sidecarVolumeMounts (mountSharedMemory : Bool) : List k8sv1.VolumeMount :=
  [{ MountPath := "/data", Name := "shared-data", SubPath := "", ReadOnly := false,
     MountPropagation := some "Bidirectional" }]
  ++ (if mountSharedMemory then
        [{ MountPath := "/dev/shm", Name := "dshm", SubPath := "", ReadOnly := false,
           MountPropagation := none }]
      else [])

/-- The `Volumes` of the pod in `buildPod`. -/
def podVolumes (mountSharedMemory mountUserVolume : Bool) (userName : String) :
    List k8sv1.Volume :=
  [{ Name := "shared-data", EmptyDir := none, PersistentVolumeClaim := none }]
  ++ (if mountSharedMemory then
        [{ Name := "dshm", EmptyDir := some "Memory", PersistentVolumeClaim := none }]
      else [])
  ++ (if mountUserVolume then
        [{ Name := "user-data", EmptyDir := none,
           PersistentVolumeClaim := some (userToResourceName userName "claim") }]
      else [])

/-- The fuse sidecar container of `buildPod`, given its two parsed limits. -/
def fuseContainer (hatchConfig : FullHatcheryConfig) (mountSharedMemory : Bool)
    (cpu memory : k8sv1.Quantity) : k8sv1.Container :=
  { Name := "fuse-container",
    Image := hatchConfig.Config.Sidecar.Image,
    SecurityContext := some { Privileged := some true, RunAsUser := some 0,
                              RunAsGroup := some 0 },
    ImagePullPolicy := "Always",
    Env := hatchConfig.Config.Sidecar.Env.map (fun kv => { Name := kv.1, Value := kv.2 }),
    Command := hatchConfig.Config.Sidecar.Command,
    Args := hatchConfig.Config.Sidecar.Args,
    VolumeMounts := sidecarVolumeMounts mountSharedMemory,
    Resources := { Limits := [("cpu", cpu), ("memory", memory)],
                   Requests := [("cpu", cpu), ("memory", memory)] },
    Lifecycle := some { PostStart := none,
                        PreStop := some { Exec := some hatchConfig.Config.Sidecar.LifecyclePreStop,
                                          HTTPGet := none } },
    LivenessProbe := none,
    ReadinessProbe := none }

/-- The primary container that `buildPod` appends when `hatchApp.Image` is not
empty, given its two parsed limits. -/
def hatcheryContainer (hatchApp : Container) (cpu memory : k8sv1.Quantity) :
    k8sv1.Container :=
  { Name := "hatchery-container",
    Image := hatchApp.Image,
    SecurityContext := some { Privileged := some false, RunAsUser := none,
                              RunAsGroup := none },
    ImagePullPolicy :=
      (if hatchApp.PullPolicy = "IfNotPresent" then "IfNotPresent"
       else if hatchApp.PullPolicy = "Always" then "Always"
       else if hatchApp.PullPolicy = "Never" then "Never"
       else "IfNotPresent"),
    Env := hatchApp.Env.map (fun kv => { Name := kv.1, Value := kv.2 }),
    Command := hatchApp.Command,
    Args := hatchApp.Args,
    VolumeMounts :=
      [{ MountPath := "/data", Name := "shared-data", SubPath := "", ReadOnly := false,
         MountPropagation := some "HostToContainer" }]
      ++ (if hatchApp.UserVolumeLocation ≠ "" then
            [{ MountPath := hatchApp.UserVolumeLocation, Name := "user-data", SubPath := "",
               ReadOnly := false, MountPropagation := none }]
          else []),
    Resources := { Limits := [("cpu", cpu), ("memory", memory)],
                   Requests := [("cpu", cpu), ("memory", memory)] },
    Lifecycle := some
      { PreStop := (if hatchApp.LifecyclePreStop.length > 0 then
                      some { Exec := some hatchApp.LifecyclePreStop, HTTPGet := none }
                    else none),
        PostStart := (if hatchApp.LifecyclePostStart.length > 0 then
                        some { Exec := some hatchApp.LifecyclePostStart, HTTPGet := none }
                      else none) },
    LivenessProbe := none,
    ReadinessProbe := some
      { Handler := { Exec := none,
                     HTTPGet := some { Path := hatchApp.ReadyProbe,
                                       Port := hatchApp.TargetPort } },
        InitialDelaySeconds := 0, PeriodSeconds := 0, TimeoutSeconds := 0 } }

/-- Function `buildPod(hatchConfig, hatchApp, userName)`. The result is the pair
`(pod, err)` that the Go function returns, or a panic of `resource.MustParse`.
Each limit is parsed once here; the code parses it once for `Limits` and once
for `Requests`, with the same result. -/
def buildPod (validQuantity : String → Bool) (hatchConfig : FullHatcheryConfig)
    (hatchApp : Container) (userName : String) : Outcome (k8sv1.Pod × Option String) :=
  let podName := userToResourceName userName "pod"
  let labels := [("app", podName)]
  let annotations := [("gen3username", userName)]
  let mountUserVolume : Bool := hatchApp.UserVolumeLocation ≠ ""
  let securityContext : k8sv1.PodSecurityContext :=
    { RunAsUser := (if hatchApp.UserUID ≠ 0 then some hatchApp.UserUID else none),
      RunAsGroup := (if hatchApp.GroupUID ≠ 0 then some hatchApp.GroupUID else none),
      FSGroup := (if hatchApp.FSGID ≠ 0 then some hatchApp.FSGID else none) }
  let mountSharedMemory : Bool := hatchApp.UseSharedMemory = "true"
  let volumes := podVolumes mountSharedMemory mountUserVolume userName
  match mustParse validQuantity hatchConfig.Config.Sidecar.CPULimit with
  | .panicked m => .panicked m
  | .returned sidecarCPU =>
  match mustParse validQuantity hatchConfig.Config.Sidecar.MemoryLimit with
  | .panicked m => .panicked m
  | .returned sidecarMemory =>
    let pod : k8sv1.Pod :=
      { ObjectMeta := { Name := podName, Namespace := hatchConfig.Config.UserNamespace,
                        Labels := labels, Annotations := annotations },
        Spec := { SecurityContext := some securityContext,
                  InitContainers := [],
                  Containers := [fuseContainer hatchConfig mountSharedMemory
                                   sidecarCPU sidecarMemory],
                  RestartPolicy := "Never",
                  ImagePullSecrets := [],
                  NodeSelector := [],
                  Tolerations := [{ Key := "role", Operator := "Equal", Value := "jupyter",
                                    Effect := "NoSchedule", TolerationSeconds := none }],
                  Volumes := volumes } }
    if hatchApp.Image ≠ "" then
      match mustParse validQuantity hatchApp.CPULimit with
      | .panicked m => .panicked m
      | .returned cpu =>
      match mustParse validQuantity hatchApp.MemoryLimit with
      | .panicked m => .panicked m
      | .returned memory =>
        .returned
          ({ pod with Spec := { pod.Spec with
               Containers := (pod.Spec.Containers ++ [hatcheryContainer hatchApp cpu memory])
                 ++ hatchApp.Friends } }, none)
    else
      .returned
        ({ pod with Spec := { pod.Spec with
             Containers := pod.Spec.Containers ++ hatchApp.Friends } }, none)

/-- Modelled from the spec: the mappers' `Start(userName, pathRewrite, useTLS,
service)` (the mapper implementations are not among the sources) is the side
effect of spec section 4.2, a backend call that returns an error or nil and
leaves the service object as it is. The function itself is
`setupServiceMapping` of `pods.go`; it returns the error and the calls issued. -/
def setupServiceMapping (backend : Backend) (config : FullHatcheryConfig)
    (userName pathRewrite useTLS : String) (service : k8sv1.Service) :
    Option String × List Call :=
  if config.Config.ServiceMapper.AmbassadorV2Mapper then
    (backend (.startMapping 2 userName pathRewrite useTLS service),
     [.startMapping 2 userName pathRewrite useTLS service])
  else if config.Config.ServiceMapper.AmbassadorV1Mapper then
    (backend (.startMapping 1 userName pathRewrite useTLS service),
     [.startMapping 1 userName pathRewrite useTLS service])
  else
    (some "Service mapper not found", [])

/-- The service object that `createK8sPod` builds. -/
def buildService (config : FullHatcheryConfig) (hatchApp : Container) (userName : String) :
    k8sv1.Service :=
  let podName := userToResourceName userName "pod"
  let serviceName := userToResourceName userName "service"
  { ObjectMeta := { Name := serviceName, Namespace := config.Config.UserNamespace,
                    Labels := [("app", podName)], Annotations := [] },
    Spec := { Type_ := "ClusterIP",
              Selector := [("app", podName)],
              Ports := [{ Name := podName, Protocol := "TCP", Port := 80,
                          TargetPort := hatchApp.TargetPort }] } }

/-- The claim object that `createK8sPod` builds when the lookup fails, given
the parsed `Config.Config.UserVolumeSize`. -/
def buildClaim (pod : k8sv1.Pod) (userName : String) (size : k8sv1.Quantity) :
    k8sv1.PersistentVolumeClaim :=
  { ObjectMeta := { Name := userToResourceName userName "claim", Namespace := "",
                    Annotations := pod.ObjectMeta.Annotations,
                    Labels := pod.ObjectMeta.Labels },
    Spec := { AccessModes := ["ReadWriteOnce"],
              Resources := { Limits := [], Requests := [("storage", size)] } } }

/-- The volume-claim part of `createK8sPod` (from `mountUserVolume` to the pod
`Create`): the calls issued, and the early result when this part ends the
function (`none` when the function goes on). -/
def createK8sPodClaim (validQuantity : String → Bool) (backend : Backend)
    (config : FullHatcheryConfig) (hatchApp : Container) (pod : k8sv1.Pod)
    (userName : String) : List Call × Option (Outcome (Option String)) :=
  let mountUserVolume : Bool := hatchApp.UserVolumeLocation ≠ ""
  if mountUserVolume then
    let claimName := userToResourceName userName "claim"
    match backend (.getPVC config.Config.UserNamespace claimName) with
    | none => ([.getPVC config.Config.UserNamespace claimName], none)
    | some _ =>
      match mustParse validQuantity config.Config.UserVolumeSize with
      | .panicked m => ([.getPVC config.Config.UserNamespace claimName], some (.panicked m))
      | .returned size =>
        let pvc := buildClaim pod userName size
        match backend (.createPVC config.Config.UserNamespace pvc) with
        | some err =>
          ([.getPVC config.Config.UserNamespace claimName,
            .createPVC config.Config.UserNamespace pvc], some (.returned (some err)))
        | none =>
          ([.getPVC config.Config.UserNamespace claimName,
            .createPVC config.Config.UserNamespace pvc], none)
  else ([], none)

/-- The calls of the orphan cleanup in `createK8sPod`: the `Delete` of the user's
service when its lookup succeeded, nothing otherwise. -/
def orphanCleanup (backend : Backend) (config : FullHatcheryConfig) (userName : String) :
    List Call :=
  match backend (.getService config.Config.UserNamespace
      (userToResourceName userName "service")) with
  | none =>
    [.deleteService config.Config.UserNamespace (userToResourceName userName "service")
      { PropagationPolicy := some "Background", GracePeriodSeconds := none }]
  | some _ => []

/-- The end of `createK8sPod` after `setupServiceMapping` returned
`mappingError`: that error and no call, or the result of the service `Create`
and that call. -/
def serviceSubmit (backend : Backend) (config : FullHatcheryConfig) (hatchApp : Container)
    (userName : String) (mappingError : Option String) : Option String × List Call :=
  match mappingError with
  | some err => (some err, [])
  | none =>
    (backend (.createService config.Config.UserNamespace
      (buildService config hatchApp userName)),
     [.createService config.Config.UserNamespace (buildService config hatchApp userName)])

/-- The service part of `createK8sPod` (after the pod `Create` has succeeded):
the returned error and the calls issued. -/
def createK8sPodService (backend : Backend) (config : FullHatcheryConfig)
    (hatchApp : Container) (userName : String) : Option String × List Call :=
  let serviceName := userToResourceName userName "service"
  let lookup : List Call := [.getService config.Config.UserNamespace serviceName]
  let cleanup : List Call :=
    match backend (.getService config.Config.UserNamespace serviceName) with
    | none =>
      [.deleteService config.Config.UserNamespace serviceName
        { PropagationPolicy := some "Background", GracePeriodSeconds := none }]
    | some _ => []
  let service := buildService config hatchApp userName
  match setupServiceMapping backend config userName hatchApp.PathRewrite hatchApp.UseTLS
      service with
  | (some err, mapping) => (some err, lookup ++ cleanup ++ mapping)
  | (none, mapping) =>
    match backend (.createService config.Config.UserNamespace service) with
    | some err =>
      (some err, lookup ++ cleanup ++ mapping
        ++ [.createService config.Config.UserNamespace service])
    | none =>
      (none, lookup ++ cleanup ++ mapping
        ++ [.createService config.Config.UserNamespace service])

/-- Function `createK8sPod(hash, accessToken, userName)`, with the global
`Config` and the client as arguments: the result (returned error or panic) and
the calls issued, in order. -/
def createK8sPod (validQuantity : String → Bool) (backend : Backend)
    (config : FullHatcheryConfig) (hash accessToken userName : String) :
    Outcome (Option String) × List Call :=
  match config.ContainersMap hash with
  | none => (.returned (some ("Container " ++ hash ++ " not found")), [])
  | some hatchApp =>
    match buildPod validQuantity config hatchApp userName with
    | .panicked m => (.panicked m, [])
    | .returned (_, some err) => (.returned (some err), [])
    | .returned (pod, none) =>
      match createK8sPodClaim validQuantity backend config hatchApp pod userName with
      | (claimCalls, some early) => (early, claimCalls)
      | (claimCalls, none) =>
        match backend (.createPod config.Config.UserNamespace pod) with
        | some err =>
          (.returned (some err), claimCalls ++ [.createPod config.Config.UserNamespace pod])
        | none =>
          let (err, serviceCalls) := createK8sPodService backend config hatchApp userName
          (.returned err,
           claimCalls ++ [.createPod config.Config.UserNamespace pod] ++ serviceCalls)

/-- Function `deleteK8sPod(userName)`, with `Config.Config.UserNamespace` and the
client as arguments: the returned error and the calls issued, in order. The
results of the two `Delete` calls are discarded, as in the code. -/
def deleteK8sPod (backend : Backend) (userNamespace : String) (userName : String) :
    Option String × List Call :=
  let deleteOptions : k8sv1.DeleteOptions :=
    { PropagationPolicy := some "Background", GracePeriodSeconds := some 20 }
  let safeUserName := escapism userName
  let podName := "hatchery-" ++ safeUserName
  match backend (.getPod userNamespace podName) with
  | some err => (some ("A workspace pod was not found: " ++ err), [.getPod userNamespace podName])
  | none =>
    let serviceName := "h-" ++ safeUserName ++ "-s"
    match backend (.getService userNamespace serviceName) with
    | some err =>
      (some ("A workspace service was not found: " ++ err),
       [.getPod userNamespace podName, .deletePod userNamespace podName deleteOptions,
        .getService userNamespace serviceName])
    | none =>
      (none,
       [.getPod userNamespace podName, .deletePod userNamespace podName deleteOptions,
        .getService userNamespace serviceName,
        .deleteService userNamespace serviceName deleteOptions])

/-! ## Sample configuration and backends for concrete runs -/

/-- A quantity parser that accepts three texts; `resource.MustParse` accepts
them too, and like it this parser rejects the empty text. -/
def sampleQuantities (str : String) : Bool :=
  str = "1" || str = "256Mi" || str = "10Gi"

/-- An application with an image, one friend container and a user volume. -/
def notebookApp : Container :=
  { Name := "notebook", CPULimit := "1", MemoryLimit := "256Mi",
    Image := "quay.io/notebook:latest", PullPolicy := "Always",
    Env := [("MODE", "lab")], TargetPort := 8888, Args := [], Command := [],
    PathRewrite := "/", ReadyProbe := "/ready", UseTLS := "false",
    LifecyclePreStop := [], LifecyclePostStart := [],
    UserUID := 1000, GroupUID := 0, FSGID := 100, UseSharedMemory := "false",
    Friends := [{ Name := "helper", Image := "quay.io/helper:1", Command := [], Args := [],
                  Env := [], Resources := { Limits := [], Requests := [] },
                  VolumeMounts := [], LivenessProbe := none, ReadinessProbe := none,
                  Lifecycle := none, ImagePullPolicy := "Always", SecurityContext := none }],
    UserVolumeLocation := "/home/jovyan" }

/-- A configuration with the single application `notebook`, the given volume
size and a version 2 mapper when `mapper` is set. -/
def sampleConfig (userVolumeSize : String) (mapper : Bool) : FullHatcheryConfig :=
  { Config := { UserNamespace := "jupyter-pods",
                Sidecar := { CPULimit := "1", MemoryLimit := "256Mi",
                             Image := "quay.io/fuse:latest", Env := [], Args := [],
                             Command := ["/bin/sh"], LifecyclePreStop := ["umount"] },
                UserVolumeSize := userVolumeSize,
                ServiceMapper := { AmbassadorV1Mapper := false,
                                   AmbassadorV2Mapper := mapper } },
    ContainersMap := fun hash => if hash = "notebook" then some notebookApp else none }

/-- A backend in which exactly the calls of the listed kinds fail. -/
def failingOn (kinds : List CallKind) : Backend :=
  fun call => if call.kind ∈ kinds then some "backend failure" else none

/-- The container names of a built pod, each with the names of its volume
mounts; empty when `buildPod` panicked. -/
def mountNames (built : Outcome (k8sv1.Pod × Option String)) : List (String × List String) :=
  match built with
  | .returned (pod, _) =>
    pod.Spec.Containers.map (fun c => (c.Name, c.VolumeMounts.map (fun m => m.Name)))
  | .panicked _ => []

/-- The volume names of a built pod; empty when `buildPod` panicked. -/
def volumeNames (built : Outcome (k8sv1.Pod × Option String)) : List String :=
  match built with
  | .returned (pod, _) => pod.Spec.Volumes.map (fun v => v.Name)
  | .panicked _ => []

/-- An application without image and without user volume location whose only
friend container carries a `user-data` mount. -/
def friendsOnlyApp : Container :=
  { Name := "compose", CPULimit := "1", MemoryLimit := "256Mi",
    Image := "", PullPolicy := "", Env := [], TargetPort := 80, Args := [], Command := [],
    PathRewrite := "/", ReadyProbe := "", UseTLS := "false",
    LifecyclePreStop := [], LifecyclePostStart := [],
    UserUID := 0, GroupUID := 0, FSGID := 0, UseSharedMemory := "false",
    Friends := [{ Name := "web", Image := "quay.io/web:1", Command := [], Args := [],
                  Env := [], Resources := { Limits := [], Requests := [] },
                  VolumeMounts := [{ Name := "user-data", MountPath := "/work", SubPath := "",
                                     ReadOnly := false, MountPropagation := none }],
                  LivenessProbe := none, ReadinessProbe := none,
                  Lifecycle := none, ImagePullPolicy := "Always", SecurityContext := none }],
    UserVolumeLocation := "" }

/-! ## License ids (`getNextLicenseId`) -/

/-- Modelled from the spec: the struct `Gen3UserLicense` (its declaration is not
among the sources), with the fields that `createGen3UserLicense` sets. -/
structure Gen3UserLicense where
  ItemId : String
  Environment : String
  LicenseType : String
  IsActive : String
  UserId : String
  LicenseId : Int
  FirstUsedTimestamp : Int
  LastUsedTimestamp : Int
  deriving DecidableEq, Repr

/-- The inner loop of `getNextLicenseId`: whether `i` is the `LicenseId` of some
active license. -/
def idInUsedIds (activeGen3UserLicenses : List Gen3UserLicense) (i : Int) : Bool :=
  activeGen3UserLicenses.any (fun v => i == v.LicenseId)

/-- The outer loop of `getNextLicenseId`, `for i <= maxLicenseIds; i++`, with
`remaining` the number of iterations left (`maxLicenseIds - i + 1`): the first
id not in use, or 0 after the last iteration. -/
def nextLicenseLoop (activeGen3UserLicenses : List Gen3UserLicense) : Nat → Int → Int
  | 0, _ => 0
  | remaining + 1, i =>
    if !idInUsedIds activeGen3UserLicenses i then i
    else nextLicenseLoop activeGen3UserLicenses remaining (i + 1)

/-- Function `getNextLicenseId(activeGen3UserLicenses, maxLicenseIds)`. -/
def getNextLicenseId (activeGen3UserLicenses : List Gen3UserLicense) (maxLicenseIds : Int) :
    Int :=
  if activeGen3UserLicenses.length = 0 then 1
  else nextLicenseLoop activeGen3UserLicenses maxLicenseIds.toNat 1

/-- An active license with the given id. -/
def licenseWithId (licenseId : Int) : Gen3UserLicense :=
  { ItemId := "item", Environment := "test", LicenseType := "stata", IsActive := "True",
    UserId := "user", LicenseId := licenseId, FirstUsedTimestamp := 0,
    LastUsedTimestamp := 0 }

/-! ## Compose applications (`dockstore.go`)

A compose model's `Services` map is the list of its entries, in the order in
which `range` visits them; the keys of a map are distinct. String slicing is
by character: the two volume prefixes are ASCII, so the byte offsets that the
code computes from them are character offsets, and the slice `s[len(prefix)+1:]`
drops the prefix and one more character (for a character of several bytes the
code drops its first byte only; the bounds are the same). -/

/-- Struct `ComposeResourceSpec`. -/
structure ComposeResourceSpec where
  Memory : String
  CPU : String
  deriving DecidableEq, Repr

/-- Struct `ComposeResources`. -/
structure ComposeResources where
  Requests : ComposeResourceSpec
  Limits : ComposeResourceSpec
  deriving DecidableEq, Repr

/-- Struct `ComposeDeployDetails`. -/
structure ComposeDeployDetails where
  Resources : ComposeResources
  deriving DecidableEq, Repr

/-- Struct `ComposeHealthCheck`. -/
structure ComposeHealthCheck where
  Test : List String
  Interval : String
  Timeout : String
  Retries : Int
  deriving DecidableEq, Repr

/-- Struct `ComposeService`. -/
structure ComposeService where
  Image : String
  Name : String
  Environment : List String
  Entrypoint : List String
  Command : List String
  Volumes : List String
  Ports : List String
  Deploy : ComposeDeployDetails
  Healthcheck : ComposeHealthCheck
  deriving DecidableEq, Repr

/-- Struct `ComposeFull`. -/
structure ComposeFull where
  RootService : String
  Services : List (String × ComposeService)
  deriving DecidableEq, Repr

/-- The constant `userVolumePrefix`. -/
def userVolumePrefix : String := "$\x7bUSER_VOLUME\x7d"

/-- The constant `dataVolumePrefix`. -/
def dataVolumePrefix : String := "$\x7bDATA_VOLUME\x7d"

/-- The constant `magicPort`. -/
def magicPort : String := "$\x7bSERVICE_PORT\x7d"

/-- Library call `strings.HasPrefix(s, start)`. -/
def stringsHasPrefix (s start : String) : Bool :=
  start.data.isPrefixOf s.data

/-- The two parts of a character list around the first occurrence of `sep`,
when there is one. -/
def cutAtFirst (sep : Char) : List Char → Option (List Char × List Char)
  | [] => none
  | c :: rest =>
    if c = sep then some ([], rest)
    else
      match cutAtFirst sep rest with
      | some (before, after) => some (c :: before, after)
      | none => none

/-- Library call `strings.SplitN(s, sep, 2)` for a one-character separator:
the text before and the text after the first separator, or the text itself
when it holds no separator. -/
def stringsSplitN2 (s : String) (sep : Char) : List String :=
  match cutAtFirst sep s.data with
  | some (before, after) => [⟨before⟩, ⟨after⟩]
  | none => [s]

/-- The `sourceDrive` of a volume entry in `ToK8sContainer`: the first part of
`strings.SplitN(source, ":", 2)`. -/
def sourceDrive (source : String) : String :=
  (stringsSplitN2 source ':').headD ""

/-- The three `strings.ReplaceAll(name, badChar, "-")` of `Sanitize`, for the
bad characters `_`, `/` and blank. -/
def replaceBadChars (name : String) : String :=
  ⟨name.data.map (fun c => if c = '_' ∨ c = '/' ∨ c = ' ' then '-' else c)⟩

/-- The defaults that `Sanitize` writes into an empty resource spec; `i` is 0
for the requests and 1 for the limits. The CPU default is the text of
`float32(i+1)*0.8`, that is `0.8` and `1.6`. -/
def defaultResourceSpec (i : Nat) (rspec : ComposeResourceSpec) : ComposeResourceSpec :=
  { Memory := if rspec.Memory = "" then toString ((i + 1) * 256) ++ "Mi" else rspec.Memory,
    CPU := if rspec.CPU = "" then (if i = 0 then "0.8" else "1.6") else rspec.CPU }

/-- The first volume entry that `Sanitize` rejects, with its error. -/
def checkVolumes : List String → Option String
  | [] => none
  | mount :: rest =>
    if !stringsHasPrefix mount userVolumePrefix && !stringsHasPrefix mount dataVolumePrefix then
      some ("illegal volume mount - only support " ++ userVolumePrefix ++ " and "
        ++ dataVolumePrefix ++ " mounts: " ++ mount)
    else if (stringsSplitN2 mount ':').length ≠ 2 then
      some ("illegal volume mount: " ++ mount)
    else checkVolumes rest

/-- The first entry whose `strings.SplitN(entry, sep, 2)` has not two parts,
with the error built from `message`. -/
def checkSplits (sep : Char) (message : String) : List String → Option String
  | [] => none
  | entry :: rest =>
    if (stringsSplitN2 entry sep).length ≠ 2 then some (message ++ entry)
    else checkSplits sep message rest

/-- One iteration of the loop of `Sanitize`, up to the port check: the service
with its name and resource defaults set, or the error returned. `toLower` is
the library function `strings.ToLower`. -/
def sanitizeService (toLower : String → String) (key : String) (service : ComposeService) :
    Except String ComposeService :=
  let named := { service with Name := replaceBadChars (toLower key) }
  if named.Image.length = 0 then
    .error ("must specify an Image for service " ++ key)
  else
    match checkVolumes named.Volumes with
    | some err => .error err
    | none =>
      let decorated : ComposeService :=
        { named with Deploy := { Resources :=
            { Requests := defaultResourceSpec 0 named.Deploy.Resources.Requests,
              Limits := defaultResourceSpec 1 named.Deploy.Resources.Limits } } }
      match checkSplits '=' "Could not parse environment entry: " decorated.Environment with
      | some err => .error err
      | none =>
        match checkSplits ':' "Could not parse port entry: " decorated.Ports with
        | some err => .error err
        | none => .ok decorated

/-- The loop of `Sanitize` over the services: the value of `model.RootService`
when the loop ends, and the clean services or the error returned. -/
def sanitizeLoop (toLower : String → String) :
    List (String × ComposeService) → String → List (String × ComposeService) →
      String × Except String (List (String × ComposeService))
  | [], rootService, cleanServices => (rootService, .ok cleanServices)
  | (key, service) :: rest, rootService, cleanServices =>
    match sanitizeService toLower key service with
    | .error err => (rootService, .error err)
    | .ok clean =>
      let rootService :=
        if rootService = "" then
          (if clean.Ports.any (fun portMap => stringsHasPrefix portMap (magicPort ++ ":"))
            then key else rootService)
        else rootService
      sanitizeLoop toLower rest rootService (cleanServices ++ [(key, clean)])

/-- Method `ComposeFull.Sanitize`: the model as the method leaves it, and the
returned error. -/
def ComposeFull.Sanitize (toLower : String → String) (model : ComposeFull) :
    ComposeFull × Option String :=
  match sanitizeLoop toLower model.Services model.RootService [] with
  | (rootService, .error err) => ({ model with RootService := rootService }, some err)
  | (rootService, .ok cleanServices) =>
    if rootService.length = 0 then
      ({ RootService := rootService, Services := cleanServices },
       some ("must map exactly one service to port " ++ magicPort))
    else
      ({ RootService := rootService, Services := cleanServices }, none)

/-- Method `ComposeResourceSpec.BuildK8sResource`. -/
def ComposeResourceSpec.BuildK8sResource (validQuantity : String → Bool)
    (rspec : ComposeResourceSpec) : Outcome (List (String × k8sv1.Quantity)) :=
  match (if rspec.CPU ≠ "" then
      (match mustParse validQuantity rspec.CPU with
        | .returned q => Outcome.returned [("cpu", q)]
        | .panicked m => .panicked m)
    else .returned []) with
  | .panicked m => .panicked m
  | .returned cpu =>
    match (if rspec.Memory ≠ "" then
        (match mustParse validQuantity rspec.Memory with
          | .returned q => Outcome.returned [("memory", q)]
          | .panicked m => .panicked m)
      else .returned []) with
    | .panicked m => .panicked m
    | .returned memory => .returned (cpu ++ memory)

/-- Go's slice `s[from:]`: the characters from index `from` on, or a panic when
`from` is beyond the end. -/
def sliceFrom (s : String) (start : Nat) : Outcome String :=
  if start ≤ s.length then .returned ⟨s.data.drop start⟩
  else .panicked "slice bounds out of range"

/-- Go's index `parts[i]` on a slice of strings, or a panic. -/
def indexOf (parts : List String) (i : Nat) : Outcome String :=
  match parts.get? i with
  | some part => .returned part
  | none => .panicked "index out of range"

/-- The zero value of `k8sv1.VolumeMount`. -/
def zeroVolumeMount : k8sv1.VolumeMount :=
  { Name := "", MountPath := "", SubPath := "", ReadOnly := false, MountPropagation := none }

/-- The body of the volume loop of `ToK8sContainer` for one entry: the mount
it fills and whether it is a user-volume mount, or the error returned for an
unknown mount point, or a panic on an out-of-range access. -/
def volumeMountOf (source : String) : Outcome (Except String (k8sv1.VolumeMount × Bool)) :=
  let mountSplit := stringsSplitN2 source ':'
  match indexOf mountSplit 0 with
  | .panicked m => .panicked m
  | .returned sourceDrive =>
    if stringsHasPrefix sourceDrive userVolumePrefix then
      match indexOf mountSplit 1 with
      | .panicked m => .panicked m
      | .returned mountPath =>
        match (if sourceDrive ≠ userVolumePrefix then
            sliceFrom sourceDrive (userVolumePrefix.length + 1)
          else .returned "") with
        | .panicked m => .panicked m
        | .returned subPath =>
          .returned (.ok ({ Name := "user-data", MountPath := mountPath, SubPath := subPath,
                            ReadOnly := false, MountPropagation := none }, true))
    else if stringsHasPrefix sourceDrive dataVolumePrefix then
      match indexOf mountSplit 1 with
      | .panicked m => .panicked m
      | .returned mountPath =>
        match (if sourceDrive ≠ dataVolumePrefix then
            sliceFrom sourceDrive (dataVolumePrefix.length + 1)
          else .returned "") with
        | .panicked m => .panicked m
        | .returned subPath =>
          .returned (.ok ({ Name := "shared-data", MountPath := mountPath, SubPath := subPath,
                            ReadOnly := true, MountPropagation := some "HostToContainer" },
                          false))
    else .returned (.error ("Unknown mount point: " ++ source))

/-- The volume loop of `ToK8sContainer` over the entries not yet visited, given
the mounts filled so far and the flag so far: the mounts, the flag and the
error returned by the loop (`none` when it ran to its end). On an error the
entries not yet filled keep their zero value. -/
def volumeLoop : List String → List k8sv1.VolumeMount → Bool →
    Outcome (List k8sv1.VolumeMount × Bool × Option String)
  | [], filled, mountUserVolume => .returned (filled, mountUserVolume, none)
  | source :: rest, filled, mountUserVolume =>
    match volumeMountOf source with
    | .panicked m => .panicked m
    | .returned (.error err) =>
      .returned (filled ++ List.replicate (rest.length + 1) zeroVolumeMount,
                 mountUserVolume, some err)
    | .returned (.ok (mount, user)) =>
      volumeLoop rest (filled ++ [mount]) (mountUserVolume || user)

/-- The environment loop of `ToK8sContainer`: the variables filled and the
error returned by the loop. On an error the entries not yet filled keep their
zero value. -/
def envLoop : List String → List k8sv1.EnvVar → List k8sv1.EnvVar × Option String
  | [], filled => (filled, none)
  | envEntry :: rest, filled =>
    match stringsSplitN2 envEntry '=' with
    | [name, value] => envLoop rest (filled ++ [{ Name := name, Value := value }])
    | _ =>
      (filled ++ List.replicate (rest.length + 1) { Name := "", Value := "" },
       some ("Could not parse environment entry: " ++ envEntry))

/-- Method `ComposeService.ToK8sContainer(friend)`: the container as the method
leaves it, the flag `mountUserVolume` and the returned error, or a panic. An
empty `Environment` is the nil slice. -/
def ComposeService.ToK8sContainer (validQuantity : String → Bool) (service : ComposeService)
    (friend : k8sv1.Container) : Outcome (k8sv1.Container × Bool × Option String) :=
  let friend := { friend with Name := service.Name, Image := service.Image,
                              ImagePullPolicy := "Always" }
  match (if 0 < service.Volumes.length then volumeLoop service.Volumes [] false
         else .returned (friend.VolumeMounts, false, none)) with
  | .panicked m => .panicked m
  | .returned (mounts, mountUserVolume, some err) =>
    .returned ({ friend with VolumeMounts := mounts }, mountUserVolume, some err)
  | .returned (mounts, mountUserVolume, none) =>
    let friend := { friend with VolumeMounts := mounts }
    match (if service.Environment ≠ [] then envLoop service.Environment []
           else (friend.Env, none)) with
    | (env, some err) => .returned ({ friend with Env := env }, mountUserVolume, some err)
    | (env, none) =>
      let friend := { friend with Env := env }
      let friend :=
        if service.Entrypoint.length > 0 then { friend with Command := service.Entrypoint }
        else friend
      let friend :=
        if service.Command.length > 0 then { friend with Args := service.Command }
        else friend
      match service.Deploy.Resources.Limits.BuildK8sResource validQuantity with
      | .panicked m => .panicked m
      | .returned limits =>
        match service.Deploy.Resources.Requests.BuildK8sResource validQuantity with
        | .panicked m => .panicked m
        | .returned requests =>
          let friend := { friend with Resources := { Limits := limits, Requests := requests } }
          let friend :=
            if 1 < service.Healthcheck.Test.length ∧ service.Healthcheck.Test.head? = some "CMD"
            then
              { friend with
                ReadinessProbe := some
                  { Handler := { Exec := some service.Healthcheck.Test.tail, HTTPGet := none },
                    InitialDelaySeconds := 10, PeriodSeconds := 30, TimeoutSeconds := 10 },
                LivenessProbe := some
                  { Handler := { Exec := some service.Healthcheck.Test.tail, HTTPGet := none },
                    InitialDelaySeconds := 10, PeriodSeconds := 30, TimeoutSeconds := 10 } }
            else friend
          .returned (friend, mountUserVolume, none)

/-- The zero value of `k8sv1.Container`, an element of a slice fresh from
`make`. -/
def zeroContainer : k8sv1.Container :=
  { Name := "", Image := "", Command := [], Args := [], Env := [],
    Resources := { Limits := [], Requests := [] }, VolumeMounts := [],
    LivenessProbe := none, ReadinessProbe := none, Lifecycle := none,
    ImagePullPolicy := "", SecurityContext := none }

/-- The zero value of `ComposeService`, the result of a map lookup that finds
no entry. -/
def zeroComposeService : ComposeService :=
  { Image := "", Name := "", Environment := [], Entrypoint := [], Command := [],
    Volumes := [], Ports := [],
    Deploy := { Resources := { Requests := { Memory := "", CPU := "" },
                               Limits := { Memory := "", CPU := "" } } },
    Healthcheck := { Test := [], Interval := "", Timeout := "", Retries := 0 } }

/-- The map lookup `model.Services[key]`. -/
def ComposeFull.service (model : ComposeFull) (key : String) : ComposeService :=
  match model.Services.lookup key with
  | some service => service
  | none => zeroComposeService

/-- The port loop of `BuildHatchApp`: the target port it sets (`none` when it
sets none) or the error returned. `atoi` is the library function
`strconv.Atoi`. -/
def targetPortLoop (atoi : String → Option Int) : List String → Except String (Option Int)
  | [] => .ok none
  | portEntry :: rest =>
    match stringsSplitN2 portEntry ':' with
    | [host, target] =>
      if host = magicPort then
        match atoi target with
        | none => .error ("failed to parse port source as number: " ++ portEntry)
        | some portNum => .ok (some ((portNum + 2 ^ 31) % 2 ^ 32 - 2 ^ 31))
      else targetPortLoop atoi rest
    | _ => .error ("Could not parse port entry: " ++ portEntry)

/-- The friends loop of `BuildHatchApp`: a fresh container filled from each
service, in order, and whether one of them mounts the user volume; or the
first error; or a panic. -/
def friendsLoop (validQuantity : String → Bool) :
    List (String × ComposeService) → List k8sv1.Container → Bool →
      Outcome (Except String (List k8sv1.Container × Bool))
  | [], friends, mountUserVolume => .returned (.ok (friends, mountUserVolume))
  | (_, service) :: rest, friends, mountUserVolume =>
    match service.ToK8sContainer validQuantity zeroContainer with
    | .panicked m => .panicked m
    | .returned (_, _, some err) => .returned (.error err)
    | .returned (friend, usesUserVolume, none) =>
      friendsLoop validQuantity rest (friends ++ [friend]) (mountUserVolume || usesUserVolume)

/-- Method `ComposeFull.BuildHatchApp`: the application and a nil error, or nil
and the error, or a panic. -/
def ComposeFull.BuildHatchApp (validQuantity : String → Bool) (atoi : String → Option Int)
    (model : ComposeFull) : Outcome (Option Container × Option String) :=
  let service := model.service model.RootService
  match targetPortLoop atoi service.Ports with
  | .error err => .returned (none, some err)
  | .ok targetPort =>
    if model.Services.length < 1 then
      .returned (none, some "no services found in compose model")
    else
      match friendsLoop validQuantity model.Services [] false with
      | .panicked m => .panicked m
      | .returned (.error err) => .returned (none, some err)
      | .returned (.ok (friends, mountUserVolume)) =>
        .returned
          (some { Name := service.Name,
                  CPULimit := service.Deploy.Resources.Limits.CPU,
                  MemoryLimit := service.Deploy.Resources.Limits.Memory,
                  Image := "",
                  PullPolicy := "",
                  Env := [],
                  TargetPort := (match targetPort with | some port => port | none => 0),
                  Args := [], Command := [],
                  PathRewrite := "/lw-workspace/proxy/",
                  ReadyProbe := "",
                  UseTLS := "false",
                  LifecyclePreStop := [], LifecyclePostStart := [],
                  UserUID := 0, GroupUID := 0, FSGID := 0,
                  UseSharedMemory := "",
                  Friends := friends,
                  UserVolumeLocation :=
                    (if mountUserVolume then "/dockstore/paceholder" else "") },
           none)

/-- Library call `strings.ToLower` on ASCII letters; other characters are
kept. -/
def asciiToLower (s : String) : String :=
  ⟨s.data.map Char.toLower⟩

/-- A quantity parser for the compose samples: the three texts of
`sampleQuantities` and the defaults that `Sanitize` writes. -/
def composeQuantities (str : String) : Bool :=
  sampleQuantities str || str = "512Mi" || str = "0.8" || str = "1.6"

/-- Library call `strconv.Atoi` on the two port texts of the samples. -/
def sampleAtoi (str : String) : Option Int :=
  if str = "8888" then some 8888 else if str = "9000" then some 9000 else none

/-- A service with the given image, volumes, environment and ports, and
nothing else set. -/
def plainService (image : String) (volumes environment ports : List String) :
    ComposeService :=
  { zeroComposeService with
    Image := image, Volumes := volumes, Environment := environment, Ports := ports }

/-- A compose model in which two services map the magic port. -/
def twoRootsCompose : ComposeFull :=
  { RootService := "",
    Services := [("web", plainService "quay.io/web:1" [] [] ["$\x7bSERVICE_PORT\x7d:8888"]),
                 ("api", plainService "quay.io/api:1" [] [] ["$\x7bSERVICE_PORT\x7d:9000"])] }

/-- A compose model with a root service that mounts both volumes and a second
service without volumes. -/
def notebookCompose : ComposeFull :=
  { RootService := "",
    Services :=
      [("Web_App", plainService "quay.io/web:1"
          ["$\x7bUSER_VOLUME\x7d/work:/home/work", "$\x7bDATA_VOLUME\x7d:/data"]
          ["MODE=lab=fast", "EMPTY="] ["$\x7bSERVICE_PORT\x7d:8888"]),
       ("db", plainService "quay.io/db:1" [] [] ["5432:5432"])] }

/-- A service whose user-volume entry names a path without a leading slash. -/
def relativePathService : ComposeService :=
  plainService "quay.io/web:1" ["$\x7bUSER_VOLUME\x7ddata:/mnt"] [] []

/-- A container that already carries a `user-data` mount. -/
def mountedContainer : k8sv1.Container :=
  { zeroContainer with
    VolumeMounts := [{ Name := "user-data", MountPath := "/work", SubPath := "",
                       ReadOnly := false, MountPropagation := none }] }

/-- A service without volume entries. -/
def noVolumeService : ComposeService :=
  plainService "quay.io/db:1" [] [] ["5432:5432"]

/-- The application of a `BuildHatchApp` result; `friendsOnlyApp` stands in
when there is none. -/
def hatchAppOf (built : Outcome (Option Container × Option String)) : Container :=
  match built with
  | .returned (some hatchApp, _) => hatchApp
  | _ => friendsOnlyApp

/-! ## Launch and terminate dispatch (handlers `launch` and `terminate`)

The two handlers and the collaborators they call are not among the sources;
`Test_LaunchEndpoint` and `Test_TerminateEndpoint` replace the collaborators
and fix the checks, the responses and the number of calls. -/

/-- Modelled from the spec: the pay model of spec section 3 (declaration not
among the sources), with the fields that the tests set. -/
structure PayModel where
  Id : String
  Name : String
  Status : String
  Local : Bool
  Ecs : Bool
  CurrentPayModel : Bool
  deriving DecidableEq, Repr

/-- Modelled from the spec: the answer of the pay-model store for one user
(declaration not among the sources); `CurrentPayModel` is `none` for nil. -/
structure AllPayModels where
  CurrentPayModel : Option PayModel
  PayModels : List PayModel
  deriving DecidableEq, Repr

/-- Modelled from the spec: the collaborators that `launch`, `terminate` and
the reconciliation loop invoke (spec sections 4.5, 4.6 and 6), with the
arguments of the replacements in the tests. -/
inductive Dispatch where
  | createLocalK8sPod (hash userName accessToken : String)
  | createExternalK8sPod (hash userName accessToken : String) (payModel : PayModel)
  | launchEcsWorkspaceWrapper (userName hash accessToken : String) (payModel : PayModel)
  | deleteK8sPod (userName accessToken : String) (payModel : Option PayModel)
  | terminateEcsWorkspace (userName accessToken : String) (payModel : PayModel)
  | getWorkspaceStatus (userName accessToken : String)
  | resetCurrentPaymodel (userName : String)
  deriving DecidableEq, Repr

/-- Modelled from the spec: an HTTP response, status code and body. -/
structure Response where
  code : Nat
  body : String
  deriving DecidableEq, Repr

/-- Modelled from the spec: what the handlers read of a request: the method,
the query value `id` and the header `REMOTE_USER` (empty when absent), and the
access credential. -/
structure Request where
  Method : String
  id : String
  userName : String
  accessToken : String
  deriving DecidableEq, Repr

/-- Modelled from the spec: the handler `launch` (spec sections 4.5 and 6): the
response and the collaborators invoked, in order. `result` is the error a
synchronous collaborator returns (`none` is nil); the ECS launch is detached
and its outcome is not read. The checks come in the order that
`Test_LaunchEndpoint` fixes: method, id, user. For pay models without a current
one the spec's step (1) dispatches locally whereas `Test_LaunchEndpoint`
expects the rejection; the rejection is what stands here. -/
def launch (result : Dispatch → Option String) (payModels : Option AllPayModels)
    (r : Request) : Response × List Dispatch :=
  if r.Method ≠ "POST" then ({ code := 405, body := "Method Not Allowed" }, [])
  else if r.id = "" then ({ code := 400, body := "Missing ID argument" }, [])
  else if r.userName = "" then
    ({ code := 400, body := "No username found. Launch forbidden" }, [])
  else
    let respond (call : Dispatch) : Response × List Dispatch :=
      match result call with
      | some err => ({ code := 500, body := err }, [call])
      | none => ({ code := 200, body := "Success" }, [call])
    match payModels with
    | none => respond (.createLocalK8sPod r.id r.userName r.accessToken)
    | some allPayModels =>
      match allPayModels.CurrentPayModel with
      | none => ({ code := 500, body := "Current Paymodel is not set. Launch forbidden" }, [])
      | some payModel =>
        if payModel.Local then respond (.createLocalK8sPod r.id r.userName r.accessToken)
        else if payModel.Ecs then
          if payModel.Status ≠ "active" then
            ({ code := 500, body := "Paymodel is not active. Launch forbidden" }, [])
          else
            ({ code := 200, body := "Launch accepted" },
             [.launchEcsWorkspaceWrapper r.userName r.id r.accessToken payModel])
        else respond (.createExternalK8sPod r.id r.userName r.accessToken payModel)

/-- Modelled from the spec: the deletion that `terminate` delegates to (spec
section 4.6): the ECS collaborator for a current ECS pay model, the Kubernetes
delete otherwise. -/
def terminateDispatch (currentPayModel : Option PayModel) (userName accessToken : String) :
    Dispatch :=
  match currentPayModel with
  | some payModel =>
    if payModel.Ecs then .terminateEcsWorkspace userName accessToken payModel
    else .deleteK8sPod userName accessToken (some payModel)
  | none => .deleteK8sPod userName accessToken none

/-- Modelled from the spec: the handler `terminate` (spec sections 4.6 and 6):
the response, the collaborators invoked and whether the reconciliation loop is
started. The texts of the checks are those of `Test_TerminateEndpoint`. -/
def terminate (result : Dispatch → Option String) (currentPayModel : Option PayModel)
    (r : Request) : Response × List Dispatch × Bool :=
  if r.Method ≠ "POST" then ({ code := 405, body := "Method Not Allowed" }, [], false)
  else if r.userName = "" then
    ({ code := 400, body := "No username found. Unable to terminate" }, [], false)
  else
    let call := terminateDispatch currentPayModel r.userName r.accessToken
    match result call with
    | some err => ({ code := 500, body := err }, [call], false)
    | none =>
      ({ code := 200,
         body := (match call with
                  | .terminateEcsWorkspace _ _ _ => "Terminated ECS workspace"
                  | _ => "Terminated workspace") },
       [call], true)

/-- Modelled from the spec: the reconciliation loop of spec section 4.6, which
polls the status until it is `Not Found` and then resets the pay model.
`statuses n` is the status that poll number `n` returns, `polls` bounds the
number of polls observed: the collaborators invoked by then, in order. -/
def reconcile (statuses : Nat → String) (userName accessToken : String) :
    Nat → Nat → List Dispatch
  | 0, _ => []
  | polls + 1, n =>
    .getWorkspaceStatus userName accessToken ::
      (if statuses n = "Not Found" then [.resetCurrentPaymodel userName]
       else reconcile statuses userName accessToken polls (n + 1))

/-- Modelled from the spec: a terminate request together with its detached
loop, observed for at most `polls` polls: the response and every collaborator
invoked, in order. -/
def terminateRun (result : Dispatch → Option String) (currentPayModel : Option PayModel)
    (statuses : Nat → String) (r : Request) (polls : Nat) : Response × List Dispatch :=
  match terminate result currentPayModel r with
  | (response, calls, true) =>
    (response, calls ++ reconcile statuses r.userName r.accessToken polls 0)
  | (response, calls, false) => (response, calls)

/-- The number of pay-model resets in a run. -/
def resetCount (calls : List Dispatch) : Nat :=
  calls.countP (fun call => match call with
                            | .resetCurrentPaymodel _ => true
                            | _ => false)

/-- The number of status polls in a run. -/
def pollCount (calls : List Dispatch) : Nat :=
  calls.countP (fun call => match call with
                            | .getWorkspaceStatus _ _ => true
                            | _ => false)

/-- A collaborator environment in which every call succeeds. -/
def allSucceed : Dispatch → Option String :=
  fun _ => none

/-- A collaborator environment in which every call fails. -/
def allFail : Dispatch → Option String :=
  fun _ => some "backend failure"

/-- The status sequence Terminating, Terminating, Not Found, Not Found, ... -/
def slowTermination (n : Nat) : String :=
  if n < 2 then "Terminating" else "Not Found"

/-- A status sequence that never reports `Not Found`. -/
def neverGone (_ : Nat) : String :=
  "Terminating"

/-- A launch request of user `alice` for application `foo`. -/
def aliceLaunch : Request :=
  { Method := "POST", id := "foo", userName := "alice", accessToken := "token" }

/-- A pay model with the given flags and status. -/
def payModelWith (isLocal isEcs : Bool) (status : String) : PayModel :=
  { Id := "pm-1", Name := "random_pay_model", Status := status, Local := isLocal, Ecs := isEcs,
    CurrentPayModel := true }

/-! ## Hexadecimal formatting -/

theorem hexVal_digitChar : ∀ k < 16, hexVal (Nat.digitChar k) = k := by decide

theorem digitChar_ne_dash : ∀ k < 16, Nat.digitChar k ≠ '-' := by decide

theorem ofHex_append_singleton (l : List Char) (c : Char) :
    ofHex (l ++ [c]) = 16 * ofHex l + hexVal c := by
  simp [ofHex, List.foldl_append]

/-- With enough fuel, `Nat.toDigitsCore 16` prepends to the accumulator a
dash-free numeral whose value is the number converted. -/
theorem toDigitsCore_spec : ∀ (fuel n : Nat) (ds : List Char), n < fuel →
    ∃ l, Nat.toDigitsCore 16 fuel n ds = l ++ ds ∧ ofHex l = n ∧ ∀ c ∈ l, c ≠ '-' := by
  intro fuel
  induction fuel with
  | zero => intro n ds h; omega
  | succ fuel ih =>
    intro n ds h
    have hmod : n % 16 < 16 := Nat.mod_lt _ (by decide)
    by_cases h0 : n / 16 = 0
    · refine ⟨[Nat.digitChar (n % 16)], ?_, ?_, ?_⟩
      · simp [Nat.toDigitsCore, h0]
      · have : n % 16 = n := by omega
        simp only [ofHex, List.foldl_cons, List.foldl_nil]
        rw [hexVal_digitChar _ hmod]
        omega
      · intro c hc
        simp only [List.mem_singleton] at hc
        subst hc
        exact digitChar_ne_dash _ hmod
    · have hlt : n / 16 < fuel := by omega
      obtain ⟨l, hl, hv, hd⟩ := ih (n / 16) (Nat.digitChar (n % 16) :: ds) hlt
      refine ⟨l ++ [Nat.digitChar (n % 16)], ?_, ?_, ?_⟩
      · simp [Nat.toDigitsCore, h0, hl]
      · rw [ofHex_append_singleton, hv, hexVal_digitChar _ hmod]
        omega
      · intro c hc
        rcases List.mem_append.mp hc with hc | hc
        · exact hd c hc
        · simp only [List.mem_singleton] at hc
          subst hc
          exact digitChar_ne_dash _ hmod

theorem ofHex_toDigits (n : Nat) : ofHex (Nat.toDigits 16 n) = n := by
  obtain ⟨l, hl, hv, _⟩ := toDigitsCore_spec (n + 1) n [] (Nat.lt_succ_self n)
  simp only [List.append_nil] at hl
  rw [Nat.toDigits, hl, hv]

theorem toDigits_no_dash (n : Nat) : ∀ c ∈ Nat.toDigits 16 n, c ≠ '-' := by
  obtain ⟨l, hl, _, hd⟩ := toDigitsCore_spec (n + 1) n [] (Nat.lt_succ_self n)
  simp only [List.append_nil] at hl
  rw [Nat.toDigits, hl]
  exact hd

theorem foldl_hex_replicate_blank (m a : Nat) :
    List.foldl (fun a c => 16 * a + hexVal c) a (List.replicate m ' ') = 16 ^ m * a := by
  induction m generalizing a with
  | zero => simp
  | succ m ihm =>
    rw [List.replicate_succ, List.foldl_cons, ihm]
    have : hexVal ' ' = 0 := by decide
    rw [this]; ring

theorem ofHex_replicate_blank (k : Nat) (l : List Char) :
    ofHex (List.replicate k ' ' ++ l) = ofHex l := by
  simp only [ofHex, List.foldl_append, foldl_hex_replicate_blank, Nat.mul_zero]

/-- Reading back the output of `%2x` gives the number formatted. -/
theorem ofHex_sprintf2x (n : Nat) : ofHex (sprintf2x n).data = n := by
  simp only [sprintf2x, ofHex_replicate_blank, ofHex_toDigits]

theorem sprintf2x_no_dash (n : Nat) : ∀ c ∈ (sprintf2x n).data, c ≠ '-' := by
  intro c hc
  simp only [sprintf2x, List.mem_append] at hc
  rcases hc with hc | hc
  · rw [(List.mem_replicate.mp hc).2]; decide
  · exact toDigits_no_dash n c hc

theorem sprintf2x_injective {a b : Nat} (h : sprintf2x a = sprintf2x b) : a = b := by
  rw [← ofHex_sprintf2x a, ← ofHex_sprintf2x b, h]

set_option maxRecDepth 100000 in
theorem sprintf2x_length_of_lt : ∀ n < 256, (sprintf2x n).data.length = 2 := by decide

/-! ## Structure of `escapism` -/

theorem escapism_foldl_data (l : List Char) (acc : String) :
    (l.foldl
      (fun escaped v =>
        if !characterInString v safeBytes then
          escaped ++ ("-" ++ sprintf2x v.toNat)
        else
          escaped ++ String.singleton v)
      acc).data = acc.data ++ l.flatMap escapeRune := by
  induction l generalizing acc with
  | nil => simp
  | cons v rest ih =>
    rw [List.foldl_cons, ih, List.flatMap_cons]
    by_cases hv : characterInString v safeBytes = true
    · simp [escapeRune, hv, String.data_append, String.singleton]
    · simp only [Bool.not_eq_true] at hv
      have hd : ("-" : String).data = ['-'] := rfl
      simp [escapeRune, hv, String.data_append, hd]

/-- The output of `escapism` is the concatenation of the per-rune outputs. -/
theorem escapism_data (s : String) : (escapism s).data = s.data.flatMap escapeRune := by
  have h := escapism_foldl_data s.data ""
  simpa [escapism] using h

theorem safeBytes_ascii : ∀ b ∈ safeBytes.data, b.toNat < 128 ∧ inAZ09 b = true := by decide

set_option maxRecDepth 100000 in
theorem characterInString_ofNat_ascii :
    ∀ n < 128, characterInString (Char.ofNat n) safeBytes = inAZ09 (Char.ofNat n) := by decide

/-- Membership in `safeBytes` is membership in the class `[a-z0-9]`. -/
theorem characterInString_safeBytes (c : Char) :
    characterInString c safeBytes = inAZ09 c := by
  by_cases hc : c.toNat < 128
  · have h := characterInString_ofNat_ascii c.toNat hc
    rwa [Char.ofNat_toNat] at h
  · have h1 : characterInString c safeBytes = false := by
      rw [characterInString, List.any_eq_false]
      intro b hb hbc
      have hb2 := (safeBytes_ascii b hb).1
      have : b = c := by simpa using hbc
      rw [this] at hb2
      exact hc hb2
    have h2 : inAZ09 c = false := by
      have hge : 128 ≤ c.val.toBitVec.toNat := Nat.le_of_not_lt hc
      simp only [inAZ09, Char.isLower, Char.isDigit, Bool.or_eq_false_iff, Bool.and_eq_false_iff,
        decide_eq_false_iff_not, UInt32.le_def, BitVec.le_def, not_le, ge_iff_le]
      constructor
      · right
        show c.val.toBitVec.toNat > 122
        omega
      · right
        show c.val.toBitVec.toNat > 57
        omega
    rw [h1, h2]

theorem dash_not_safe : characterInString '-' safeBytes = false := by decide

theorem safe_ne_dash {a : Char} (h : characterInString a safeBytes = true) : a ≠ '-' := by
  intro ha
  rw [ha, dash_not_safe] at h
  exact Bool.false_ne_true h

theorem escapeRune_kept {a : Char} (h : characterInString a safeBytes = true) :
    escapeRune a = [a] := by
  simp [escapeRune, h]

theorem escapeRune_escaped {a : Char} (h : characterInString a safeBytes = false) :
    escapeRune a = '-' :: (sprintf2x a.toNat).data := by
  simp [escapeRune, h]

theorem char_eq_of_sprintf2x_data_eq {a b : Char}
    (h : (sprintf2x a.toNat).data = (sprintf2x b.toNat).data) : a = b := by
  have hn : a.toNat = b.toNat := sprintf2x_injective (String.ext h)
  rw [← Char.ofNat_toNat a, ← Char.ofNat_toNat b, hn]

/-- One step of the comparison of two escaped strings whose heads are equal or
both escaped: the left output cannot run ahead of the right one by a dash-free
word `w`. -/
theorem escape_step (a b : Char) (u v : List Char) (hab : sameOrBothEscaped a b)
    (ih1 : ∀ w : List Char, (∀ c ∈ w, c ≠ '-') →
      u.flatMap escapeRune = w ++ v.flatMap escapeRune → w = [] ∧ u = v)
    (ih2 : ∀ w : List Char, (∀ c ∈ w, c ≠ '-') →
      v.flatMap escapeRune = w ++ u.flatMap escapeRune → w = [] ∧ u = v)
    (w : List Char) (hw : ∀ c ∈ w, c ≠ '-')
    (h : escapeRune a ++ u.flatMap escapeRune = w ++ (escapeRune b ++ v.flatMap escapeRune)) :
    w = [] ∧ a = b ∧ u = v := by
  cases w with
  | nil =>
    simp only [List.nil_append] at h
    refine ⟨rfl, ?_⟩
    rcases hab with hab | ⟨ha, hb⟩
    · subst hab
      have h2 := List.append_cancel_left h
      exact ⟨rfl, (ih1 [] (by simp) (by simpa using h2)).2⟩
    · rw [escapeRune_escaped ha, escapeRune_escaped hb] at h
      simp only [List.cons_append, List.cons.injEq, true_and] at h
      rcases List.append_eq_append_iff.mp h with ⟨x, hx, hrest⟩ | ⟨x, hx, hrest⟩
      · have hxd : ∀ c ∈ x, c ≠ '-' := fun c hc =>
          sprintf2x_no_dash b.toNat c (by rw [hx]; exact List.mem_append_right _ hc)
        obtain ⟨hx0, huv⟩ := ih1 x hxd hrest
        rw [hx0, List.append_nil] at hx
        exact ⟨char_eq_of_sprintf2x_data_eq hx.symm, huv⟩
      · have hxd : ∀ c ∈ x, c ≠ '-' := fun c hc =>
          sprintf2x_no_dash a.toNat c (by rw [hx]; exact List.mem_append_right _ hc)
        obtain ⟨hx0, huv⟩ := ih2 x hxd hrest
        rw [hx0, List.append_nil] at hx
        exact ⟨char_eq_of_sprintf2x_data_eq hx, huv⟩
  | cons c w =>
    exfalso
    by_cases ha : characterInString a safeBytes = true
    · have hb : a = b := by
        rcases hab with hab | ⟨ha2, _⟩
        · exact hab
        · rw [ha] at ha2; exact absurd ha2 (by decide)
      subst hb
      rw [escapeRune_kept ha] at h
      simp only [List.cons_append, List.nil_append, List.cons.injEq] at h
      obtain ⟨hac, hrest⟩ := h
      have hwd : ∀ x ∈ w ++ [a], x ≠ '-' := by
        intro x hx
        rcases List.mem_append.mp hx with hx | hx
        · exact hw x (List.mem_cons_of_mem _ hx)
        · rw [List.mem_singleton.mp hx]; exact safe_ne_dash ha
      have hrest2 : u.flatMap escapeRune = (w ++ [a]) ++ v.flatMap escapeRune := by
        rw [hrest]; simp
      have := (ih1 (w ++ [a]) hwd hrest2).1
      simp at this
    · simp only [Bool.not_eq_true] at ha
      rw [escapeRune_escaped ha] at h
      simp only [List.cons_append, List.cons.injEq] at h
      exact hw c (List.mem_cons_self _ _) h.1.symm

/-- If two rune lists agree up to replacing escaped runes by escaped runes, the
escaped output of one is never the other's output behind a dash-free word. -/
theorem escape_no_shift {u v : List Char} (huv : List.Forall₂ sameOrBothEscaped u v) :
    (∀ w : List Char, (∀ c ∈ w, c ≠ '-') →
      u.flatMap escapeRune = w ++ v.flatMap escapeRune → w = [] ∧ u = v) ∧
    (∀ w : List Char, (∀ c ∈ w, c ≠ '-') →
      v.flatMap escapeRune = w ++ u.flatMap escapeRune → w = [] ∧ u = v) := by
  induction huv with
  | nil =>
    constructor <;>
    · intro w _ h
      simp only [List.flatMap_nil, List.append_nil] at h
      exact ⟨h.symm, rfl⟩
  | @cons a b u v hab _ ih =>
    obtain ⟨ih1, ih2⟩ := ih
    have hba : sameOrBothEscaped b a := by
      rcases hab with hab | ⟨h1, h2⟩
      · exact Or.inl hab.symm
      · exact Or.inr ⟨h2, h1⟩
    constructor
    · intro w hw h
      simp only [List.flatMap_cons] at h
      obtain ⟨h0, h1, h2⟩ := escape_step a b u v hab ih1 ih2 w hw h
      exact ⟨h0, by rw [h1, h2]⟩
    · intro w hw h
      simp only [List.flatMap_cons] at h
      obtain ⟨h0, h1, h2⟩ := escape_step b a v u hba
        (fun w hw h => (ih2 w hw h).imp id Eq.symm)
        (fun w hw h => (ih1 w hw h).imp id Eq.symm) w hw h
      exact ⟨h0, by rw [h1, h2]⟩

/-- Runes below U+0100 are escaped to words that can be told apart from the
left: the escaped outputs of two such lists are equal only for equal lists. -/
theorem escape_injective_of_lt_256 : ∀ (u v : List Char),
    (∀ c ∈ u, c.toNat < 256) → (∀ c ∈ v, c.toNat < 256) →
    u.flatMap escapeRune = v.flatMap escapeRune → u = v := by
  have hne : ∀ a : Char, escapeRune a ≠ [] := by
    intro a
    by_cases ha : characterInString a safeBytes = true
    · simp [escapeRune_kept ha]
    · simp only [Bool.not_eq_true] at ha
      simp [escapeRune_escaped ha]
  intro u
  induction u with
  | nil =>
    intro v _ _ h
    cases v with
    | nil => rfl
    | cons b v =>
      simp only [List.flatMap_nil, List.flatMap_cons] at h
      have := List.append_eq_nil.mp h.symm
      exact absurd this.1 (hne b)
  | cons a u ih =>
    intro v hu hv h
    cases v with
    | nil =>
      simp only [List.flatMap_nil, List.flatMap_cons] at h
      have := List.append_eq_nil.mp h
      exact absurd this.1 (hne a)
    | cons b v =>
      have hu2 : ∀ c ∈ u, c.toNat < 256 := fun c hc => hu c (List.mem_cons_of_mem _ hc)
      have hv2 : ∀ c ∈ v, c.toNat < 256 := fun c hc => hv c (List.mem_cons_of_mem _ hc)
      simp only [List.flatMap_cons] at h
      by_cases ha : characterInString a safeBytes = true <;>
      by_cases hb : characterInString b safeBytes = true
      · rw [escapeRune_kept ha, escapeRune_kept hb] at h
        simp only [List.cons_append, List.nil_append, List.cons.injEq] at h
        rw [h.1, ih v hu2 hv2 h.2]
      · simp only [Bool.not_eq_true] at hb
        rw [escapeRune_kept ha, escapeRune_escaped hb] at h
        simp only [List.cons_append, List.nil_append, List.cons.injEq] at h
        exact absurd h.1 (safe_ne_dash ha)
      · simp only [Bool.not_eq_true] at ha
        rw [escapeRune_escaped ha, escapeRune_kept hb] at h
        simp only [List.cons_append, List.nil_append, List.cons.injEq] at h
        exact absurd h.1.symm (safe_ne_dash hb)
      · simp only [Bool.not_eq_true] at ha hb
        rw [escapeRune_escaped ha, escapeRune_escaped hb] at h
        simp only [List.cons_append, List.cons.injEq, true_and] at h
        have hla := sprintf2x_length_of_lt a.toNat (hu a (List.mem_cons_self _ _))
        have hlb := sprintf2x_length_of_lt b.toNat (hv b (List.mem_cons_self _ _))
        obtain ⟨h1, h2⟩ := List.append_inj h (by rw [hla, hlb])
        rw [char_eq_of_sprintf2x_data_eq h1, ih v hu2 hv2 h2]

/-! ## Cancellation for the name patterns -/

theorem string_append_left_cancel {p a b : String} (h : p ++ a = p ++ b) : a = b := by
  have hd := congrArg String.data h
  simp only [String.data_append] at hd
  exact String.ext (List.append_cancel_left hd)

theorem string_append_right_cancel {s a b : String} (h : a ++ s = b ++ s) : a = b := by
  have hd := congrArg String.data h
  simp only [String.data_append] at hd
  exact String.ext (List.append_cancel_right hd)

/-- For a fixed resource kind the derived name determines the escaped user. -/
theorem escapism_eq_of_resourceName_eq {u v k : String}
    (h : userToResourceName u k = userToResourceName v k) : escapism u = escapism v := by
  unfold userToResourceName at h
  simp only at h
  split_ifs at h
  · exact string_append_left_cancel h
  · exact string_append_left_cancel (string_append_right_cancel h)
  · exact string_append_right_cancel h
  · exact string_append_left_cancel h

/-! ## Claims on naming -/

/-- C1, counterexample. The usernames `-a` and `˚` (U+02DA) are distinct, yet
`escapism` maps both to `-2da`, and so both get the pod name `hatchery--2da`. -/
theorem escapism_collision :
    "-a" ≠ "˚" ∧ escapism "-a" = escapism "˚" ∧
      userToResourceName "-a" "pod" = userToResourceName "˚" "pod" := by
  decide

/-- C1, amended. On usernames all of whose characters lie below U+0100 (all
ASCII usernames among them) `escapism` is injective, and so is
`userToResourceName` for each fixed resource kind. -/
theorem escapism_injective_below_256 (u v : String)
    (hu : ∀ c ∈ u.data, c.toNat < 256) (hv : ∀ c ∈ v.data, c.toNat < 256) (huv : u ≠ v) :
    escapism u ≠ escapism v ∧ ∀ k : String, userToResourceName u k ≠ userToResourceName v k := by
  have key : escapism u ≠ escapism v := by
    intro h
    have hd := congrArg String.data h
    rw [escapism_data, escapism_data] at hd
    exact huv (String.ext (escape_injective_of_lt_256 u.data v.data hu hv hd))
  exact ⟨key, fun k h => key (escapism_eq_of_resourceName_eq h)⟩

/-- C1, amended, at the usernames `a-b` and `a.b`. -/
theorem escapism_injective_below_256_witness :
    escapism "a-b" ≠ escapism "a.b" ∧
      ∀ k : String, userToResourceName "a-b" k ≠ userToResourceName "a.b" k :=
  escapism_injective_below_256 "a-b" "a.b" (by decide) (by decide) (by decide)

/-! ## Runes of a Go string -/

theorem char_toNat_valid (c : Char) :
    c.toNat < 0xD800 ∨ (0xDFFF < c.toNat ∧ c.toNat < 0x110000) := by
  have h := c.valid
  simp only [UInt32.isValidChar, Nat.isValidChar] at h
  exact h

/-- Decoding the encoding of a rune, whatever follows, gives the rune and the
length of its encoding. -/
theorem decodeRuneInString_utf8EncodeRune (c : Char) (rest : List Nat) :
    decodeRuneInString (utf8EncodeRune c ++ rest) = (c.toNat, (utf8EncodeRune c).length) := by
  have hv := char_toNat_valid c
  unfold utf8EncodeRune
  by_cases h1 : c.toNat < 0x80
  · simp [h1, decodeRuneInString]
  · by_cases h2 : c.toNat < 0x800
    · simp only [h1, h2, if_false, if_true, List.cons_append, List.nil_append,
        decodeRuneInString, List.length_cons, List.length_nil]
      have a1 : ¬ (0xC0 + c.toNat / 64 < 0x80) := by omega
      have a2 : ¬ (0xC0 + c.toNat / 64 < 0xC2) := by omega
      have a3 : 0xC0 + c.toNat / 64 < 0xE0 := by omega
      have a4 : 0x80 ≤ 0x80 + c.toNat % 64 ∧ 0x80 + c.toNat % 64 ≤ 0xBF := by omega
      have a5 : (0xC0 + c.toNat / 64) % 32 * 64 + (0x80 + c.toNat % 64) % 64 = c.toNat := by
        omega
      simp only [a1, a2, a3, a4, a5, if_false, if_true, and_self]
    · by_cases h3 : c.toNat < 0x10000
      · simp only [h1, h2, h3, if_false, if_true, List.cons_append, List.nil_append,
          decodeRuneInString, List.length_cons, List.length_nil]
        have a1 : ¬ (0xE0 + c.toNat / 4096 < 0x80) := by omega
        have a2 : ¬ (0xE0 + c.toNat / 4096 < 0xC2) := by omega
        have a3 : ¬ (0xE0 + c.toNat / 4096 < 0xE0) := by omega
        have a4 : 0xE0 + c.toNat / 4096 < 0xF0 := by omega
        have a5 : (if 0xE0 + c.toNat / 4096 = 0xE0 then 0xA0 else 0x80)
            ≤ 0x80 + c.toNat / 64 % 64 := by
          split_ifs <;> omega
        have a6 : 0x80 + c.toNat / 64 % 64
            ≤ (if 0xE0 + c.toNat / 4096 = 0xED then 0x9F else 0xBF) := by
          split_ifs <;> omega
        have a7 : 0x80 ≤ 0x80 + c.toNat % 64 ∧ 0x80 + c.toNat % 64 ≤ 0xBF := by omega
        have a8 : (0xE0 + c.toNat / 4096) % 16 * 4096 + (0x80 + c.toNat / 64 % 64) % 64 * 64
            + (0x80 + c.toNat % 64) % 64 = c.toNat := by omega
        simp only [a1, a2, a3, a4, a5, a6, a7, a8, if_false, if_true, and_self]
      · simp only [h1, h2, h3, if_false, List.cons_append, List.nil_append,
          decodeRuneInString, List.length_cons, List.length_nil]
        have a1 : ¬ (0xF0 + c.toNat / 262144 < 0x80) := by omega
        have a2 : ¬ (0xF0 + c.toNat / 262144 < 0xC2) := by omega
        have a3 : ¬ (0xF0 + c.toNat / 262144 < 0xE0) := by omega
        have a4 : ¬ (0xF0 + c.toNat / 262144 < 0xF0) := by omega
        have a4' : 0xF0 + c.toNat / 262144 < 0xF5 := by omega
        have a5 : (if 0xF0 + c.toNat / 262144 = 0xF0 then 0x90 else 0x80)
            ≤ 0x80 + c.toNat / 4096 % 64 := by
          split_ifs <;> omega
        have a6 : 0x80 + c.toNat / 4096 % 64
            ≤ (if 0xF0 + c.toNat / 262144 = 0xF4 then 0x8F else 0xBF) := by
          split_ifs <;> omega
        have a7 : 0x80 ≤ 0x80 + c.toNat / 64 % 64 ∧ 0x80 + c.toNat / 64 % 64 ≤ 0xBF := by
          omega
        have a7' : 0x80 ≤ 0x80 + c.toNat % 64 ∧ 0x80 + c.toNat % 64 ≤ 0xBF := by omega
        have a8 : (0xF0 + c.toNat / 262144) % 8 * 262144
            + (0x80 + c.toNat / 4096 % 64) % 64 * 4096
            + (0x80 + c.toNat / 64 % 64) % 64 * 64
            + (0x80 + c.toNat % 64) % 64 = c.toNat := by omega
        simp only [a1, a2, a3, a4, a4', a5, a6, a7, a7', a8, if_false, if_true, and_self]

theorem rangeRunesFrom_skip :
    ∀ (passed rest : List Nat), rangeRunesFrom passed.length (passed ++ rest)
      = rangeRunesFrom 0 rest := by
  intro passed
  induction passed with
  | nil => intro rest; rfl
  | cons b passed ih =>
    intro rest
    simp only [List.length_cons, List.cons_append, rangeRunesFrom]
    exact ih rest

theorem utf8EncodeRune_cons (c : Char) :
    ∃ b tail, utf8EncodeRune c = b :: tail := by
  unfold utf8EncodeRune
  split_ifs <;> exact ⟨_, _, rfl⟩

theorem rangeRunesFrom_encoded (c : Char) (rest : List Nat) :
    rangeRunesFrom 0 (utf8EncodeRune c ++ rest) = c :: rangeRunesFrom 0 rest := by
  obtain ⟨b, tail, hb⟩ := utf8EncodeRune_cons c
  have hdec := decodeRuneInString_utf8EncodeRune c rest
  rw [hb] at hdec ⊢
  simp only [List.cons_append] at hdec ⊢
  simp only [rangeRunesFrom, hdec, List.length_cons, Nat.add_sub_cancel]
  rw [rangeRunesFrom_skip tail rest]
  simp [Char.ofNat_toNat]

/-- On the bytes of a username that is valid UTF-8, `range` visits the runes
of the username. -/
theorem rangeRunes_utf8Bytes (s : String) : rangeRunes (utf8Bytes s) = s.data := by
  unfold rangeRunes utf8Bytes
  induction s.data with
  | nil => rfl
  | cons c rest ih =>
    simp only [List.flatMap_cons]
    rw [rangeRunesFrom_encoded, ih]

theorem escapismOfBytes_utf8Bytes (s : String) : escapismOfBytes (utf8Bytes s) = escapism s := by
  unfold escapismOfBytes
  rw [rangeRunes_utf8Bytes]

/-- Two usernames given by their runes, distinct, of the same length, that at
every index carry either the same rune or two runes outside `[a-z0-9]`, have
distinct images under the loop of `escapism`. -/
theorem escapism_distinct_on_runes (u v : String)
    (hlen : u.length = v.length)
    (hdiff : ∀ (i : Nat) (hu : i < u.data.length) (hv : i < v.data.length),
      u.data[i] = v.data[i] ∨ (inAZ09 u.data[i] = false ∧ inAZ09 v.data[i] = false))
    (huv : u ≠ v) : escapism u ≠ escapism v := by
  intro h
  have hd := congrArg String.data h
  rw [escapism_data, escapism_data] at hd
  have hrel : List.Forall₂ sameOrBothEscaped u.data v.data := by
    refine List.forall₂_iff_get.mpr ⟨hlen, ?_⟩
    intro i h1 h2
    have := hdiff i h1 h2
    simpa [sameOrBothEscaped, characterInString_safeBytes] using this
  have := ((escape_no_shift hrel).1 [] (by simp) (by simpa using hd)).2
  exact huv (String.ext this)

/-- C2, the counterexample. The usernames made of the single byte `0xff` and of
the single byte `0xfe` are distinct, have the same length, and differ only in a
byte that is no lower-case letter and no digit; `range` reads each as the rune
`U+FFFD`, and `escapism` maps both to `-fffd`. -/
theorem escapism_invalid_bytes_collide :
    ([0xFF] : List Nat) ≠ [0xFE] ∧ ([0xFF] : List Nat).length = [0xFE].length ∧
    (∀ b ∈ ([0xFF, 0xFE] : List Nat), ¬ (97 ≤ b ∧ b ≤ 122) ∧ ¬ (48 ≤ b ∧ b ≤ 57)) ∧
    rangeRunes [0xFF] = [Char.ofNat 0xFFFD] ∧ rangeRunes [0xFE] = [Char.ofNat 0xFFFD] ∧
    inAZ09 (Char.ofNat 0xFFFD) = false ∧
    escapismOfBytes [0xFF] = "-fffd" ∧ escapismOfBytes [0xFE] = "-fffd" := by
  decide

/-- C2, amended. Two usernames whose runes, as `range` reads them from their
bytes, form distinct sequences of the same length that at every index carry
either the same rune or two runes outside `[a-z0-9]`, have distinct images
under `escapism`; and so have every two distinct usernames that are valid
UTF-8, of the same length in runes, that differ only in runes outside
`[a-z0-9]`. -/
theorem escapism_distinct_of_differ_in_disallowed :
    (∀ (u v : List Nat), (rangeRunes u).length = (rangeRunes v).length →
      (∀ (i : Nat) (hu : i < (rangeRunes u).length) (hv : i < (rangeRunes v).length),
        (rangeRunes u)[i] = (rangeRunes v)[i] ∨
          (inAZ09 (rangeRunes u)[i] = false ∧ inAZ09 (rangeRunes v)[i] = false)) →
      rangeRunes u ≠ rangeRunes v → escapismOfBytes u ≠ escapismOfBytes v) ∧
    (∀ (s t : String), s.length = t.length →
      (∀ (i : Nat) (hs : i < s.data.length) (ht : i < t.data.length),
        s.data[i] = t.data[i] ∨ (inAZ09 s.data[i] = false ∧ inAZ09 t.data[i] = false)) →
      s ≠ t →
      utf8Bytes s ≠ utf8Bytes t ∧ escapismOfBytes (utf8Bytes s) ≠ escapismOfBytes (utf8Bytes t)) := by
  constructor
  · intro u v hlen hdiff hne
    exact escapism_distinct_on_runes ⟨rangeRunes u⟩ ⟨rangeRunes v⟩ hlen hdiff
      (fun h => hne (congrArg String.data h))
  · intro s t hlen hdiff hne
    constructor
    · intro h
      apply hne
      apply String.ext
      rw [← rangeRunes_utf8Bytes s, ← rangeRunes_utf8Bytes t, h]
    · rw [escapismOfBytes_utf8Bytes, escapismOfBytes_utf8Bytes]
      exact escapism_distinct_on_runes s t hlen hdiff hne

/-- C2, amended, at the bytes of `a b@c` and `a-b.c`, which differ at indices 1
and 3, and at the usernames `a é` and `a-è`, which differ at indices 1 and 2. -/
theorem escapism_distinct_of_differ_in_disallowed_witness :
    escapismOfBytes [97, 32, 98, 64, 99] ≠ escapismOfBytes [97, 45, 98, 46, 99] ∧
    escapismOfBytes (utf8Bytes "a é") ≠ escapismOfBytes (utf8Bytes "a-è") :=
  ⟨escapism_distinct_of_differ_in_disallowed.1 [97, 32, 98, 64, 99] [97, 45, 98, 46, 99]
      (by decide)
      (by
        intro i hu hv
        have hi : i < 5 := hu
        interval_cases i <;> first | exact Or.inl rfl | exact Or.inr ⟨rfl, rfl⟩)
      (by decide),
   (escapism_distinct_of_differ_in_disallowed.2 "a é" "a-è" (by decide)
      (by
        intro i hs ht
        have hi : i < 3 := hs
        interval_cases i <;> first | exact Or.inl rfl | exact Or.inr ⟨rfl, rfl⟩)
      (by decide)).2⟩

/-- C3, the failing input. For the username `a<TAB>b` the code yields `a- 9b`:
the tab (code point 9) becomes a dash, a blank and one hexadecimal digit, so
the escaped name holds a blank, which is neither in `[a-z0-9]` nor a dash. -/
theorem escapism_tab :
    escapism "a\tb" = "a- 9b" ∧ ' ' ∈ (escapism "a\tb").data ∧
      inAZ09 ' ' = false ∧ ' ' ≠ '-' ∧
      userToResourceName "a\tb" "pod" = "hatchery-a- 9b" := by
  decide

/-- C4. `userToResourceName` yields `hatchery-<escaped>` for a pod,
`h-<escaped>-s` for a service, `<escaped>-mapping` for a mapping and
`<kind>-<escaped>` for every other kind; the volume claim is
`claim-<escaped>`. -/
theorem userToResourceName_patterns (u k : String) :
    (k = "pod" → userToResourceName u k = "hatchery-" ++ escapism u) ∧
    (k = "service" → userToResourceName u k = "h-" ++ escapism u ++ "-s") ∧
    (k = "mapping" → userToResourceName u k = escapism u ++ "-mapping") ∧
    (k ≠ "pod" → k ≠ "service" → k ≠ "mapping" →
      userToResourceName u k = k ++ "-" ++ escapism u) ∧
    userToResourceName u "claim" = "claim-" ++ escapism u := by
  refine ⟨?_, ?_, ?_, ?_, ?_⟩
  · intro hk; subst hk; rfl
  · intro hk; subst hk; rfl
  · intro hk; subst hk; rfl
  · intro h1 h2 h3
    simp [userToResourceName, h1, h2, h3]
  · rfl

/-- C4 at the user `Alice` and the kinds `pod`, `service`, `mapping` and
`volume`. -/
theorem userToResourceName_patterns_witness :
    userToResourceName "Alice" "pod" = "hatchery--41lice" ∧
    userToResourceName "Alice" "service" = "h--41lice-s" ∧
    userToResourceName "Alice" "mapping" = "-41lice-mapping" ∧
    userToResourceName "Alice" "volume" = "volume--41lice" ∧
    userToResourceName "Alice" "claim" = "claim--41lice" :=
  ⟨((userToResourceName_patterns "Alice" "pod").1 rfl).trans (by decide),
   ((userToResourceName_patterns "Alice" "service").2.1 rfl).trans (by decide),
   ((userToResourceName_patterns "Alice" "mapping").2.2.1 rfl).trans (by decide),
   ((userToResourceName_patterns "Alice" "volume").2.2.2.1
      (by decide) (by decide) (by decide)).trans (by decide),
   ((userToResourceName_patterns "Alice" "claim").2.2.2.2).trans (by decide)⟩

/-! ## Pod readiness and status -/

theorem conditionsReady_iff (conds : List PodCondition) :
    conditionsReady conds = true ↔
      ∀ c ∈ conds, isReadinessCondition c → c.Status = "True" := by
  induction conds with
  | nil => simp [conditionsReady]
  | cons v rest ih =>
    unfold conditionsReady
    by_cases hv : (v.Type_ = "Ready" ∨ v.Type_ = "PodScheduled") ∧ v.Status ≠ "True"
    · rw [if_pos hv]
      constructor
      · intro h; exact absurd h (by decide)
      · intro h
        exact absurd (h v (List.mem_cons_self _ _) hv.1) hv.2
    · rw [if_neg hv, ih]
      constructor
      · intro h c hc hrel
        rcases List.mem_cons.mp hc with hc | hc
        · subst hc
          by_contra hne
          exact hv ⟨hrel, hne⟩
        · exact h c hc hrel
      · intro h c hc hrel
        exact h c (List.mem_cons_of_mem _ hc) hrel

theorem conditionsReady_filter (conds : List PodCondition) :
    conditionsReady (conds.filter (fun c => decide (isReadinessCondition c))) =
      conditionsReady conds := by
  rw [Bool.eq_iff_iff, conditionsReady_iff, conditionsReady_iff]
  constructor
  · intro h c hc hrel
    exact h c (List.mem_filter.mpr ⟨hc, by simpa using hrel⟩) hrel
  · intro h c hc hrel
    exact h c (List.mem_filter.mp hc).1 hrel

/-- What `statusK8sPod` returns when the lookup fails. -/
theorem statusK8sPod_of_error {σ : Type} (cluster : Cluster σ) (ns user e : String)
    (h : cluster.getPod ns ("hatchery-" ++ escapism user) = .error e) :
    statusK8sPod cluster ns user =
      ({ Status := "Not Found", Conditions := [], ContainerStates := [] }, none) := by
  simp [statusK8sPod, h]

/-- What `statusK8sPod` returns when the lookup yields a pod. -/
theorem statusK8sPod_of_ok {σ : Type} (cluster : Cluster σ) (ns user : String) (pod : Pod σ)
    (h : cluster.getPod ns ("hatchery-" ++ escapism user) = .ok pod) :
    statusK8sPod cluster ns user =
      if pod.DeletionTimestamp.isSome then
        ({ Status := "Terminating", Conditions := [], ContainerStates := [] }, none)
      else if pod.Status.Phase = "Failed" ∨ pod.Status.Phase = "Succeeded"
          ∨ pod.Status.Phase = "Unknown" then
        ({ Status := "Stopped", Conditions := [], ContainerStates := [] }, none)
      else if pod.Status.Phase = "Pending" ∨ pod.Status.Phase = "Running" then
        if checkPodReadiness pod = true then
          ({ Status := "Running", Conditions := [], ContainerStates := [] }, none)
        else
          ({ Status := "Launching",
             Conditions := pod.Status.Conditions.map toPodConditions,
             ContainerStates := pod.Status.ContainerStatuses.map toContainerStates }, none)
      else
        ({ Status := "", Conditions := [], ContainerStates := [] }, none) := by
  simp only [statusK8sPod, h]
  rfl

theorem getPod_cases {σ : Type} (cluster : Cluster σ) (ns name : String) :
    (∃ e, cluster.getPod ns name = .error e) ∨ (∃ pod, cluster.getPod ns name = .ok pod) := by
  cases h : cluster.getPod ns name with
  | error e => exact Or.inl ⟨e, rfl⟩
  | ok pod => exact Or.inr ⟨pod, rfl⟩

/-- C5. The status engine never returns an error and classifies the result of
its lookup of `hatchery-<escaped user>`: a failed lookup is `Not Found`; a pod
with a deletion timestamp is `Terminating` whatever its phase and conditions;
otherwise the phases Failed, Succeeded and Unknown are `Stopped`, Pending is
`Launching`, and Running is `Running` when `checkPodReadiness` holds and
`Launching` when it does not. -/
theorem statusK8sPod_classifies {σ : Type} (cluster : Cluster σ) (ns user : String) :
    (statusK8sPod cluster ns user).2 = none ∧
    (∀ e, cluster.getPod ns ("hatchery-" ++ escapism user) = .error e →
      (statusK8sPod cluster ns user).1.Status = "Not Found") ∧
    (∀ pod, cluster.getPod ns ("hatchery-" ++ escapism user) = .ok pod →
      (pod.DeletionTimestamp ≠ none →
        (statusK8sPod cluster ns user).1.Status = "Terminating") ∧
      (pod.DeletionTimestamp = none →
        ((pod.Status.Phase = "Failed" ∨ pod.Status.Phase = "Succeeded"
            ∨ pod.Status.Phase = "Unknown") →
          (statusK8sPod cluster ns user).1.Status = "Stopped") ∧
        (pod.Status.Phase = "Pending" →
          (statusK8sPod cluster ns user).1.Status = "Launching") ∧
        (pod.Status.Phase = "Running" →
          (checkPodReadiness pod = true →
            (statusK8sPod cluster ns user).1.Status = "Running") ∧
          (checkPodReadiness pod = false →
            (statusK8sPod cluster ns user).1.Status = "Launching")))) := by
  refine ⟨?_, ?_, ?_⟩
  · rcases getPod_cases cluster ns ("hatchery-" ++ escapism user) with ⟨e, h⟩ | ⟨pod, h⟩
    · rw [statusK8sPod_of_error cluster ns user e h]
    · rw [statusK8sPod_of_ok cluster ns user pod h]
      split_ifs <;> rfl
  · intro e h
    rw [statusK8sPod_of_error cluster ns user e h]
  · intro pod h
    rw [statusK8sPod_of_ok cluster ns user pod h]
    refine ⟨?_, ?_⟩
    · intro hd
      have : pod.DeletionTimestamp.isSome = true := by
        cases hdt : pod.DeletionTimestamp with
        | none => exact absurd hdt hd
        | some t => rfl
      rw [if_pos this]
    · intro hd
      have : ¬ pod.DeletionTimestamp.isSome = true := by rw [hd]; decide
      rw [if_neg this]
      refine ⟨?_, ?_, ?_⟩
      · intro hp
        rw [if_pos hp]
      · intro hp
        have h1 : ¬ (pod.Status.Phase = "Failed" ∨ pod.Status.Phase = "Succeeded"
            ∨ pod.Status.Phase = "Unknown") := by rw [hp]; decide
        have h2 : checkPodReadiness pod = false := by simp [checkPodReadiness, hp]
        rw [if_neg h1, if_pos (Or.inl hp), h2]
        rfl
      · intro hp
        have h1 : ¬ (pod.Status.Phase = "Failed" ∨ pod.Status.Phase = "Succeeded"
            ∨ pod.Status.Phase = "Unknown") := by rw [hp]; decide
        rw [if_neg h1, if_pos (Or.inr hp)]
        constructor
        · intro hr
          rw [if_pos hr]
        · intro hr
          rw [hr]
          rfl

/-- C5 on the cluster of user `alice`: a failing call gives `Not Found`, a pod
being deleted gives `Terminating`, a Succeeded pod `Stopped`, a Pending pod
`Launching`, and a Running pod whose Ready condition is False `Launching`. -/
theorem statusK8sPod_classifies_witness :
    (statusK8sPod (aliceCluster none none) "jupyter-pods" "alice").1.Status = "Not Found" ∧
    (statusK8sPod (aliceCluster (some (mkPod (some 7) "Running" [])) none)
      "jupyter-pods" "alice").1.Status = "Terminating" ∧
    (statusK8sPod (aliceCluster (some (mkPod none "Succeeded" [])) none)
      "jupyter-pods" "alice").1.Status = "Stopped" ∧
    (statusK8sPod (aliceCluster (some (mkPod none "Pending" [])) none)
      "jupyter-pods" "alice").1.Status = "Launching" ∧
    (statusK8sPod (aliceCluster (some (mkPod none "Running" [⟨"Ready", "False"⟩])) none)
      "jupyter-pods" "alice").1.Status = "Launching" :=
  ⟨(statusK8sPod_classifies (aliceCluster none none) "jupyter-pods" "alice").2.1
      "pods \"hatchery-alice\" not found" rfl,
   ((statusK8sPod_classifies (aliceCluster (some (mkPod (some 7) "Running" [])) none)
      "jupyter-pods" "alice").2.2 (mkPod (some 7) "Running" []) rfl).1 (by decide),
   (((statusK8sPod_classifies (aliceCluster (some (mkPod none "Succeeded" [])) none)
      "jupyter-pods" "alice").2.2 (mkPod none "Succeeded" []) rfl).2 rfl).1 (by decide),
   (((statusK8sPod_classifies (aliceCluster (some (mkPod none "Pending" [])) none)
      "jupyter-pods" "alice").2.2 (mkPod none "Pending" []) rfl).2 rfl).2.1 rfl,
   ((((statusK8sPod_classifies
      (aliceCluster (some (mkPod none "Running" [⟨"Ready", "False"⟩])) none)
      "jupyter-pods" "alice").2.2 (mkPod none "Running" [⟨"Ready", "False"⟩]) rfl).2
      rfl).2.2 rfl).2 (by decide)⟩

/-- C6. A pod is ready exactly when its phase is not Pending and every
condition of type Ready or PodScheduled has status True; a pod with the same
phase whose conditions of these two types are the same, in the same order, has
the same readiness, so conditions of other types never change the result. -/
theorem checkPodReadiness_iff {σ : Type} (pod : Pod σ) :
    (checkPodReadiness pod = true ↔
      pod.Status.Phase ≠ "Pending" ∧
        ∀ c ∈ pod.Status.Conditions,
          (c.Type_ = "Ready" ∨ c.Type_ = "PodScheduled") → c.Status = "True") ∧
    (∀ other : Pod σ, other.Status.Phase = pod.Status.Phase →
      other.Status.Conditions.filter
          (fun c => decide (c.Type_ = "Ready" ∨ c.Type_ = "PodScheduled")) =
        pod.Status.Conditions.filter
          (fun c => decide (c.Type_ = "Ready" ∨ c.Type_ = "PodScheduled")) →
      checkPodReadiness other = checkPodReadiness pod) := by
  constructor
  · unfold checkPodReadiness
    by_cases hp : pod.Status.Phase = "Pending"
    · simp [hp]
    · rw [if_neg hp, conditionsReady_iff]
      simp [hp, isReadinessCondition]
  · intro other hphase hconds
    unfold checkPodReadiness
    rw [hphase]
    have h1 := conditionsReady_filter other.Status.Conditions
    have h2 := conditionsReady_filter pod.Status.Conditions
    simp only [isReadinessCondition] at h1 h2
    rw [← h1, ← h2, hconds]

/-- C6 on a Running pod with a true Ready condition and a false condition of
another type: it is ready, and so is the pod without the other condition. -/
theorem checkPodReadiness_iff_witness :
    checkPodReadiness (mkPod none "Running" [⟨"Ready", "True"⟩, ⟨"Initialized", "False"⟩])
        = true ∧
    checkPodReadiness (mkPod none "Running" [⟨"Ready", "True"⟩]) =
      checkPodReadiness (mkPod none "Running" [⟨"Ready", "True"⟩, ⟨"Initialized", "False"⟩]) :=
  ⟨(checkPodReadiness_iff
      (mkPod none "Running" [⟨"Ready", "True"⟩, ⟨"Initialized", "False"⟩])).1.mpr
      (by decide),
   (checkPodReadiness_iff
      (mkPod none "Running" [⟨"Ready", "True"⟩, ⟨"Initialized", "False"⟩])).2
      (mkPod none "Running" [⟨"Ready", "True"⟩]) rfl (by decide)⟩

/-- C7, counterexample. A Running pod without deletion timestamp whose only
condition is PodScheduled = True has no Ready condition at all, and its status
is `Running`, not `Launching`. -/
theorem running_with_ready_condition_absent :
    (statusK8sPod (aliceCluster (some (mkPod none "Running" [⟨"PodScheduled", "True"⟩])) none)
      "jupyter-pods" "alice").1.Status = "Running" ∧
    (∀ c ∈ (mkPod none "Running" [⟨"PodScheduled", "True"⟩]).Status.Conditions,
      c.Type_ ≠ "Ready") ∧
    (mkPod none "Running" [⟨"PodScheduled", "True"⟩]).DeletionTimestamp = none ∧
    (aliceCluster (some (mkPod none "Running" [⟨"PodScheduled", "True"⟩])) none).pods
      "jupyter-pods" "hatchery-alice" = some (mkPod none "Running" [⟨"PodScheduled", "True"⟩]) := by
  decide

/-- C7, amended. For a pod that the lookup returns, with no deletion timestamp
and phase Running: if every Ready and PodScheduled condition present in its
list is True (none need be present) the status is `Running`; if some Ready or
PodScheduled condition in its list has a status other than True, the status is
`Launching` and the two lists are the copies of the pod's conditions and
container statuses. -/
theorem statusK8sPod_running_phase {σ : Type} (cluster : Cluster σ) (ns user : String)
    (pod : Pod σ) (hget : cluster.getPod ns ("hatchery-" ++ escapism user) = .ok pod)
    (hdel : pod.DeletionTimestamp = none) (hphase : pod.Status.Phase = "Running") :
    ((∀ c ∈ pod.Status.Conditions,
        (c.Type_ = "Ready" ∨ c.Type_ = "PodScheduled") → c.Status = "True") →
      (statusK8sPod cluster ns user).1.Status = "Running") ∧
    ((∃ c ∈ pod.Status.Conditions,
        (c.Type_ = "Ready" ∨ c.Type_ = "PodScheduled") ∧ c.Status ≠ "True") →
      (statusK8sPod cluster ns user).1 =
        { Status := "Launching",
          Conditions := pod.Status.Conditions.map toPodConditions,
          ContainerStates := pod.Status.ContainerStatuses.map toContainerStates }) := by
  have hready : checkPodReadiness pod = true ↔
      ∀ c ∈ pod.Status.Conditions,
        (c.Type_ = "Ready" ∨ c.Type_ = "PodScheduled") → c.Status = "True" := by
    unfold checkPodReadiness
    have hp : ¬ pod.Status.Phase = "Pending" := by rw [hphase]; decide
    rw [if_neg hp, conditionsReady_iff]
    rfl
  have hd : ¬ pod.DeletionTimestamp.isSome = true := by rw [hdel]; decide
  have h1 : ¬ (pod.Status.Phase = "Failed" ∨ pod.Status.Phase = "Succeeded"
      ∨ pod.Status.Phase = "Unknown") := by rw [hphase]; decide
  rw [statusK8sPod_of_ok cluster ns user pod hget, if_neg hd, if_neg h1,
    if_pos (Or.inr hphase)]
  constructor
  · intro hall
    rw [if_pos (hready.mpr hall)]
  · rintro ⟨c, hc, hrel, hne⟩
    have : ¬ checkPodReadiness pod = true := fun h => hne (hready.mp h c hc hrel)
    rw [if_neg this]

/-- C7, amended, on a Running pod whose Ready condition is False: the status
is `Launching` with the copied lists. -/
theorem statusK8sPod_running_phase_witness :
    (statusK8sPod (aliceCluster (some (mkPod none "Running" [⟨"Ready", "False"⟩])) none)
      "jupyter-pods" "alice").1 =
      { Status := "Launching",
        Conditions := [⟨"Ready", "False"⟩],
        ContainerStates := [⟨"hatchery-container", "waiting: ContainerCreating", false⟩] } :=
  (statusK8sPod_running_phase
    (aliceCluster (some (mkPod none "Running" [⟨"Ready", "False"⟩])) none)
    "jupyter-pods" "alice" (mkPod none "Running" [⟨"Ready", "False"⟩]) rfl rfl rfl).2
    ⟨⟨"Ready", "False"⟩, by decide, by decide, by decide⟩

/-- C8, counterexample. For a pod without deletion timestamp whose phase is
the empty string (none of the five phases) the returned Status is the empty
string, which is not in the closed set. -/
theorem status_outside_closed_set :
    (statusK8sPod (aliceCluster (some (mkPod none "" [])) none)
      "jupyter-pods" "alice").1.Status = "" ∧
    "" ∉ ["Not Found", "Terminating", "Stopped", "Launching", "Running"] := by
  decide

/-- C8, amended. For every backend state the Status field is one of
`Not Found`, `Terminating`, `Stopped`, `Launching`, `Running`, or else the
empty string; it is the empty string exactly when the lookup returns a pod
that has no deletion timestamp and whose phase is none of Failed, Succeeded,
Unknown, Pending and Running. -/
theorem statusK8sPod_status_values {σ : Type} (cluster : Cluster σ) (ns user : String) :
    ((statusK8sPod cluster ns user).1.Status ∈
        ["Not Found", "Terminating", "Stopped", "Launching", "Running"] ∨
      (statusK8sPod cluster ns user).1.Status = "") ∧
    ((statusK8sPod cluster ns user).1.Status = "" ↔
      ∃ pod, cluster.getPod ns ("hatchery-" ++ escapism user) = .ok pod ∧
        pod.DeletionTimestamp = none ∧
        pod.Status.Phase ∉ ["Failed", "Succeeded", "Unknown", "Pending", "Running"]) := by
  rcases getPod_cases cluster ns ("hatchery-" ++ escapism user) with ⟨e, h⟩ | ⟨pod, h⟩
  · rw [statusK8sPod_of_error cluster ns user e h]
    refine ⟨Or.inl (by simp), ?_⟩
    constructor
    · intro h0; exact absurd h0 (by simp)
    · rintro ⟨pod, hp, _⟩
      rw [h] at hp
      cases hp
  · rw [statusK8sPod_of_ok cluster ns user pod h]
    have hex : (∃ p, cluster.getPod ns ("hatchery-" ++ escapism user) = .ok p ∧
        p.DeletionTimestamp = none ∧
        p.Status.Phase ∉ ["Failed", "Succeeded", "Unknown", "Pending", "Running"]) ↔
        (pod.DeletionTimestamp = none ∧
        pod.Status.Phase ∉ ["Failed", "Succeeded", "Unknown", "Pending", "Running"]) := by
      constructor
      · rintro ⟨p, hp, hrest⟩
        rw [h] at hp
        cases hp
        exact hrest
      · intro hrest
        exact ⟨pod, h, hrest⟩
    rw [hex]
    cases hdt : pod.DeletionTimestamp with
    | some t =>
      simp only [Option.isSome_some, if_true]
      exact ⟨Or.inl (by simp), by simp⟩
    | none =>
      simp only [Option.isSome_none, Bool.false_eq_true, if_false, true_and]
      split_ifs with h1 h2 h3
      · exact ⟨Or.inl (by simp), by
          simp only [List.mem_cons, List.mem_singleton, List.not_mem_nil, or_false]
          constructor
          · intro h0; exact absurd h0 (by simp)
          · intro hn; exact absurd (by tauto) hn⟩
      · exact ⟨Or.inl (by simp), by
          simp only [List.mem_cons, List.mem_singleton, List.not_mem_nil, or_false]
          constructor
          · intro h0; exact absurd h0 (by simp)
          · intro hn; exact absurd (by tauto) hn⟩
      · exact ⟨Or.inl (by simp), by
          simp only [List.mem_cons, List.mem_singleton, List.not_mem_nil, or_false]
          constructor
          · intro h0; exact absurd h0 (by simp)
          · intro hn; exact absurd (by tauto) hn⟩
      · refine ⟨Or.inr rfl, ?_⟩
        simp only [List.mem_cons, List.mem_singleton, List.not_mem_nil, or_false, true_iff]
        tauto

/-- C9, counterexample. The pod `hatchery-alice` exists in the user namespace
but the lookup call fails (connection refused): the status is `Not Found`. -/
theorem existing_pod_reported_not_found :
    (aliceCluster (some (mkPod none "Running" [⟨"Ready", "True"⟩]))
        (some "connection refused")).pods "jupyter-pods" ("hatchery-" ++ escapism "alice") =
      some (mkPod none "Running" [⟨"Ready", "True"⟩]) ∧
    (statusK8sPod (aliceCluster (some (mkPod none "Running" [⟨"Ready", "True"⟩]))
        (some "connection refused")) "jupyter-pods" "alice").1.Status = "Not Found" := by
  decide

/-- C9, amended. The status is `Not Found` if and only if the lookup call
returns an error. When no pod named `hatchery-<escaped user>` exists in the
user namespace the result is the status `Not Found` with a nil error; when the
lookup call succeeds, a pod that exists is never reported as `Not Found`. -/
theorem statusK8sPod_not_found_iff {σ : Type} (cluster : Cluster σ) (ns user : String) :
    ((statusK8sPod cluster ns user).1.Status = "Not Found" ↔
      ∃ e, cluster.getPod ns ("hatchery-" ++ escapism user) = .error e) ∧
    (cluster.pods ns ("hatchery-" ++ escapism user) = none →
      statusK8sPod cluster ns user =
        ({ Status := "Not Found", Conditions := [], ContainerStates := [] }, none)) ∧
    (∀ pod, cluster.apiFailure = none →
      cluster.pods ns ("hatchery-" ++ escapism user) = some pod →
      (statusK8sPod cluster ns user).1.Status ≠ "Not Found") := by
  have hok : ∀ pod, cluster.getPod ns ("hatchery-" ++ escapism user) = .ok pod →
      (statusK8sPod cluster ns user).1.Status ≠ "Not Found" := by
    intro pod h
    rw [statusK8sPod_of_ok cluster ns user pod h]
    split_ifs <;> simp
  refine ⟨?_, ?_, ?_⟩
  · rcases getPod_cases cluster ns ("hatchery-" ++ escapism user) with ⟨e, h⟩ | ⟨pod, h⟩
    · rw [statusK8sPod_of_error cluster ns user e h]
      exact ⟨fun _ => ⟨e, h⟩, fun _ => rfl⟩
    · constructor
      · intro h0; exact absurd h0 (hok pod h)
      · rintro ⟨e, he⟩
        rw [h] at he
        cases he
  · intro hnone
    have : ∃ e, cluster.getPod ns ("hatchery-" ++ escapism user) = .error e := by
      unfold Cluster.getPod
      cases cluster.apiFailure with
      | some e => exact ⟨e, rfl⟩
      | none => rw [hnone]; exact ⟨_, rfl⟩
    obtain ⟨e, he⟩ := this
    exact statusK8sPod_of_error cluster ns user e he
  · intro pod hfail hpod
    apply hok pod
    unfold Cluster.getPod
    rw [hfail, hpod]

/-- C9, amended, on the cluster of user `alice`: with no pod stored the result
is `Not Found` and no error, with a Running pod stored and a successful call
the status is not `Not Found`. -/
theorem statusK8sPod_not_found_iff_witness :
    statusK8sPod (aliceCluster none none) "jupyter-pods" "alice" =
      ({ Status := "Not Found", Conditions := [], ContainerStates := [] }, none) ∧
    (statusK8sPod (aliceCluster (some (mkPod none "Running" [⟨"Ready", "True"⟩])) none)
      "jupyter-pods" "alice").1.Status ≠ "Not Found" :=
  ⟨(statusK8sPod_not_found_iff (aliceCluster none none) "jupyter-pods" "alice").2.1 rfl,
   (statusK8sPod_not_found_iff
      (aliceCluster (some (mkPod none "Running" [⟨"Ready", "True"⟩])) none)
      "jupyter-pods" "alice").2.2 (mkPod none "Running" [⟨"Ready", "True"⟩]) rfl rfl⟩

/-- C10. When the status is `Launching`, the Conditions list has the length and
order of the pod's conditions, entry `i` holding the type and status of pod
condition `i`, and the ContainerStates list has the length and order of the
pod's container statuses, entry `i` holding that container's name, state and
ready flag; for every other status both lists are empty. -/
theorem statusK8sPod_lists {σ : Type} (cluster : Cluster σ) (ns user : String) :
    ((statusK8sPod cluster ns user).1.Status = "Launching" →
      ∃ pod, cluster.getPod ns ("hatchery-" ++ escapism user) = .ok pod ∧
        (statusK8sPod cluster ns user).1.Conditions.length = pod.Status.Conditions.length ∧
        (∀ (i : Nat) (h1 : i < (statusK8sPod cluster ns user).1.Conditions.length)
            (h2 : i < pod.Status.Conditions.length),
          (statusK8sPod cluster ns user).1.Conditions[i].Type_ =
              pod.Status.Conditions[i].Type_ ∧
            (statusK8sPod cluster ns user).1.Conditions[i].Status =
              pod.Status.Conditions[i].Status) ∧
        (statusK8sPod cluster ns user).1.ContainerStates.length =
          pod.Status.ContainerStatuses.length ∧
        (∀ (i : Nat) (h1 : i < (statusK8sPod cluster ns user).1.ContainerStates.length)
            (h2 : i < pod.Status.ContainerStatuses.length),
          (statusK8sPod cluster ns user).1.ContainerStates[i].Name =
              pod.Status.ContainerStatuses[i].Name ∧
            (statusK8sPod cluster ns user).1.ContainerStates[i].State =
              pod.Status.ContainerStatuses[i].State ∧
            (statusK8sPod cluster ns user).1.ContainerStates[i].Ready =
              pod.Status.ContainerStatuses[i].Ready)) ∧
    ((statusK8sPod cluster ns user).1.Status ≠ "Launching" →
      (statusK8sPod cluster ns user).1.Conditions = [] ∧
        (statusK8sPod cluster ns user).1.ContainerStates = []) := by
  rcases getPod_cases cluster ns ("hatchery-" ++ escapism user) with ⟨e, h⟩ | ⟨pod, h⟩
  · rw [statusK8sPod_of_error cluster ns user e h]
    exact ⟨fun h0 => absurd h0 (by simp), fun _ => ⟨rfl, rfl⟩⟩
  · have hshape : statusK8sPod cluster ns user =
          ({ Status := "Launching",
             Conditions := pod.Status.Conditions.map toPodConditions,
             ContainerStates := pod.Status.ContainerStatuses.map toContainerStates }, none) ∨
        ((statusK8sPod cluster ns user).1.Status ≠ "Launching" ∧
          (statusK8sPod cluster ns user).1.Conditions = [] ∧
          (statusK8sPod cluster ns user).1.ContainerStates = []) := by
      rw [statusK8sPod_of_ok cluster ns user pod h]
      split_ifs
      · exact Or.inr ⟨by simp, rfl, rfl⟩
      · exact Or.inr ⟨by simp, rfl, rfl⟩
      · exact Or.inr ⟨by simp, rfl, rfl⟩
      · exact Or.inl rfl
      · exact Or.inr ⟨by simp, rfl, rfl⟩
    rcases hshape with hl | ⟨hn, hc, hs⟩
    · rw [hl]
      refine ⟨fun _ => ⟨pod, h, ?_, ?_, ?_, ?_⟩, fun h0 => absurd rfl h0⟩
      · simp
      · intro i h1 h2
        simp [toPodConditions]
      · simp
      · intro i h1 h2
        simp [toContainerStates]
    · exact ⟨fun h0 => absurd h0 hn, fun _ => ⟨hc, hs⟩⟩

/-- C10 on a Pending pod with two conditions and one container: the status is
`Launching` and the two lists are the copies, in order. -/
theorem statusK8sPod_lists_witness :
    statusK8sPod
        (aliceCluster (some (mkPod none "Pending"
          [⟨"PodScheduled", "True"⟩, ⟨"Ready", "False"⟩])) none) "jupyter-pods" "alice" =
      ({ Status := "Launching",
         Conditions := [⟨"PodScheduled", "True"⟩, ⟨"Ready", "False"⟩],
         ContainerStates := [⟨"hatchery-container", "waiting: ContainerCreating", false⟩] },
       none) ∧
    (statusK8sPod (aliceCluster none none) "jupyter-pods" "alice").1.Conditions = [] ∧
    (statusK8sPod (aliceCluster none none) "jupyter-pods" "alice").1.ContainerStates = [] :=
  ⟨by decide,
   ((statusK8sPod_lists (aliceCluster none none) "jupyter-pods" "alice").2 (by decide)).1,
   ((statusK8sPod_lists (aliceCluster none none) "jupyter-pods" "alice").2 (by decide)).2⟩

/-! ## Deleting a workspace (`deleteK8sPod`) -/

/-- C11. The delete operation returns an error exactly when the lookup of the
user's pod fails or the lookup of the user's service fails. When both lookups
succeed it returns nil right after issuing the two deletes: its calls are the
pod lookup, the pod delete, the service lookup and the service delete, and
nothing after them (no wait for the objects to disappear). -/
theorem deleteK8sPod_error_iff (backend : Backend) (ns user : String) :
    ((deleteK8sPod backend ns user).1 ≠ none ↔
      backend (.getPod ns ("hatchery-" ++ escapism user)) ≠ none ∨
        backend (.getService ns ("h-" ++ escapism user ++ "-s")) ≠ none) ∧
    (backend (.getPod ns ("hatchery-" ++ escapism user)) = none →
      backend (.getService ns ("h-" ++ escapism user ++ "-s")) = none →
      deleteK8sPod backend ns user =
        (none,
         [.getPod ns ("hatchery-" ++ escapism user),
          .deletePod ns ("hatchery-" ++ escapism user)
            { PropagationPolicy := some "Background", GracePeriodSeconds := some 20 },
          .getService ns ("h-" ++ escapism user ++ "-s"),
          .deleteService ns ("h-" ++ escapism user ++ "-s")
            { PropagationPolicy := some "Background", GracePeriodSeconds := some 20 }])) := by
  constructor
  · cases hp : backend (.getPod ns ("hatchery-" ++ escapism user)) with
    | some e => simp [deleteK8sPod, hp]
    | none =>
      cases hs : backend (.getService ns ("h-" ++ escapism user ++ "-s")) with
      | some e => simp [deleteK8sPod, hp, hs]
      | none => simp [deleteK8sPod, hp, hs]
  · intro hp hs
    simp [deleteK8sPod, hp, hs]

/-- C11 for user `alice`: with a backend that answers every call without error
the result is nil after the four calls; when the service lookup fails an error
is returned. -/
theorem deleteK8sPod_error_iff_witness :
    deleteK8sPod (failingOn []) "jupyter-pods" "alice" =
      (none,
       [.getPod "jupyter-pods" "hatchery-alice",
        .deletePod "jupyter-pods" "hatchery-alice"
          { PropagationPolicy := some "Background", GracePeriodSeconds := some 20 },
        .getService "jupyter-pods" "h-alice-s",
        .deleteService "jupyter-pods" "h-alice-s"
          { PropagationPolicy := some "Background", GracePeriodSeconds := some 20 }]) ∧
    (deleteK8sPod (failingOn [.getService]) "jupyter-pods" "alice").1 ≠ none :=
  ⟨(deleteK8sPod_error_iff (failingOn []) "jupyter-pods" "alice").2 rfl rfl,
   (deleteK8sPod_error_iff (failingOn [.getService]) "jupyter-pods" "alice").1.mpr
     (Or.inr (by decide))⟩

/-- C12, counterexample. Both lookups succeed and both `Delete` calls fail, yet
the delete operation returns nil. -/
theorem deleteK8sPod_hides_delete_failure :
    failingOn [.deletePod, .deleteService]
        (.deletePod "jupyter-pods" "hatchery-alice"
          { PropagationPolicy := some "Background", GracePeriodSeconds := some 20 }) =
      some "backend failure" ∧
    failingOn [.deletePod, .deleteService]
        (.deleteService "jupyter-pods" "h-alice-s"
          { PropagationPolicy := some "Background", GracePeriodSeconds := some 20 }) =
      some "backend failure" ∧
    (deleteK8sPod (failingOn [.deletePod, .deleteService]) "jupyter-pods" "alice").1 = none ∧
    (deleteK8sPod (failingOn [.deletePod, .deleteService]) "jupyter-pods" "alice").2 =
      [.getPod "jupyter-pods" "hatchery-alice",
       .deletePod "jupyter-pods" "hatchery-alice"
         { PropagationPolicy := some "Background", GracePeriodSeconds := some 20 },
       .getService "jupyter-pods" "h-alice-s",
       .deleteService "jupyter-pods" "h-alice-s"
         { PropagationPolicy := some "Background", GracePeriodSeconds := some 20 }] := by
  decide

/-- C12, amended. The delete operation does not look at the result of its
`Delete` calls: two backends that answer the two lookups alike get the same
result and the same calls, whatever they answer to the deletes; so when both
lookups succeed the result is nil even if a `Delete` call fails. -/
theorem deleteK8sPod_ignores_delete_result (backend other : Backend) (ns user : String)
    (hpod : other (.getPod ns ("hatchery-" ++ escapism user)) =
      backend (.getPod ns ("hatchery-" ++ escapism user)))
    (hservice : other (.getService ns ("h-" ++ escapism user ++ "-s")) =
      backend (.getService ns ("h-" ++ escapism user ++ "-s"))) :
    deleteK8sPod other ns user = deleteK8sPod backend ns user ∧
    (backend (.getPod ns ("hatchery-" ++ escapism user)) = none →
      backend (.getService ns ("h-" ++ escapism user ++ "-s")) = none →
      (deleteK8sPod backend ns user).1 = none) := by
  constructor
  · simp only [deleteK8sPod, hpod, hservice]
  · intro hp hs
    simp [deleteK8sPod, hp, hs]

/-- C12, amended, for user `alice`: a backend whose deletes fail gets the same
result, nil, as a backend that answers every call without error. -/
theorem deleteK8sPod_ignores_delete_result_witness :
    deleteK8sPod (failingOn [.deletePod, .deleteService]) "jupyter-pods" "alice" =
      deleteK8sPod (failingOn []) "jupyter-pods" "alice" ∧
    (deleteK8sPod (failingOn []) "jupyter-pods" "alice").1 = none :=
  ⟨(deleteK8sPod_ignores_delete_result (failingOn []) (failingOn [.deletePod, .deleteService])
      "jupyter-pods" "alice" rfl rfl).1,
   (deleteK8sPod_ignores_delete_result (failingOn []) (failingOn [.deletePod, .deleteService])
      "jupyter-pods" "alice" rfl rfl).2 rfl rfl⟩

/-! ## Creating a workspace (`createK8sPod`) -/

/-- C13. For an application id that is not a key of `ContainersMap` the create
operation returns an error and issues no backend call at all. -/
theorem createK8sPod_unknown_application (validQuantity : String → Bool) (backend : Backend)
    (config : FullHatcheryConfig) (hash accessToken userName : String)
    (hkey : config.ContainersMap hash = none) :
    createK8sPod validQuantity backend config hash accessToken userName =
      (.returned (some ("Container " ++ hash ++ " not found")), []) := by
  simp [createK8sPod, hkey]

/-- C13 for the id `rstudio`, which the sample configuration does not hold. -/
theorem createK8sPod_unknown_application_witness :
    createK8sPod sampleQuantities (failingOn []) (sampleConfig "10Gi" true)
        "rstudio" "token" "alice" =
      (.returned (some "Container rstudio not found"), []) :=
  createK8sPod_unknown_application sampleQuantities (failingOn []) (sampleConfig "10Gi" true)
    "rstudio" "token" "alice" rfl

/-! ## The pod built by `buildPod` -/

/-- The limits that `buildPod` parses: the two sidecar limits, and the two
application limits when the application has an image. -/
theorem buildPod_returns_iff (validQuantity : String → Bool) (config : FullHatcheryConfig)
    (hatchApp : Container) (userName : String) :
    (∃ pod err, buildPod validQuantity config hatchApp userName = .returned (pod, err)) ↔
      (validQuantity config.Config.Sidecar.CPULimit = true ∧
        validQuantity config.Config.Sidecar.MemoryLimit = true ∧
        (hatchApp.Image ≠ "" →
          validQuantity hatchApp.CPULimit = true ∧
            validQuantity hatchApp.MemoryLimit = true)) := by
  unfold buildPod mustParse
  by_cases h1 : validQuantity config.Config.Sidecar.CPULimit = true <;>
  by_cases h2 : validQuantity config.Config.Sidecar.MemoryLimit = true <;>
  by_cases h3 : hatchApp.Image = "" <;>
  by_cases h4 : validQuantity hatchApp.CPULimit = true <;>
  by_cases h5 : validQuantity hatchApp.MemoryLimit = true <;>
  simp [h1, h2, h3, h4, h5]

/-- The shape of every pod that `buildPod` returns. -/
theorem buildPod_shape (validQuantity : String → Bool) (config : FullHatcheryConfig)
    (hatchApp : Container) (userName : String) (pod : k8sv1.Pod) (err : Option String)
    (h : buildPod validQuantity config hatchApp userName = .returned (pod, err)) :
    err = none ∧
    pod.ObjectMeta.Name = userToResourceName userName "pod" ∧
    pod.ObjectMeta.Labels = [("app", userToResourceName userName "pod")] ∧
    pod.Spec.Volumes =
      podVolumes (decide (hatchApp.UseSharedMemory = "true"))
        (decide (hatchApp.UserVolumeLocation ≠ "")) userName ∧
    pod.Spec.Containers =
      fuseContainer config (decide (hatchApp.UseSharedMemory = "true"))
          { text := config.Config.Sidecar.CPULimit }
          { text := config.Config.Sidecar.MemoryLimit }
        :: ((if hatchApp.Image ≠ "" then
              [hatcheryContainer hatchApp { text := hatchApp.CPULimit }
                { text := hatchApp.MemoryLimit }]
            else [])
          ++ hatchApp.Friends) := by
  unfold buildPod mustParse at h
  by_cases h1 : validQuantity config.Config.Sidecar.CPULimit = true <;>
  by_cases h2 : validQuantity config.Config.Sidecar.MemoryLimit = true <;>
  by_cases h3 : hatchApp.Image = "" <;>
  by_cases h4 : validQuantity hatchApp.CPULimit = true <;>
  by_cases h5 : validQuantity hatchApp.MemoryLimit = true <;>
  simp [h1, h2, h3, h4, h5] at h <;>
  (obtain ⟨hp, he⟩ := h; subst hp; subst he; simp [h3])

/-- C17. Whenever the limits parse, `buildPod` returns a pod and a nil error;
the container list of every pod it returns is the privileged `fuse-container`
first, then the `hatchery-container` exactly when the application's image is
not empty, then the application's friends, unchanged and in order, so its
length is 1, plus 1 when the image is not empty, plus the number of friends. -/
theorem buildPod_containers (validQuantity : String → Bool) (config : FullHatcheryConfig)
    (hatchApp : Container) (userName : String) :
    ((validQuantity config.Config.Sidecar.CPULimit = true ∧
        validQuantity config.Config.Sidecar.MemoryLimit = true ∧
        (hatchApp.Image ≠ "" →
          validQuantity hatchApp.CPULimit = true ∧
            validQuantity hatchApp.MemoryLimit = true)) →
      ∃ pod, buildPod validQuantity config hatchApp userName = .returned (pod, none)) ∧
    (∀ pod err, buildPod validQuantity config hatchApp userName = .returned (pod, err) →
      ∃ fuse primary : k8sv1.Container,
        fuse.Name = "fuse-container" ∧
        fuse.SecurityContext =
          some { Privileged := some true, RunAsUser := some 0, RunAsGroup := some 0 } ∧
        primary.Name = "hatchery-container" ∧
        primary.Image = hatchApp.Image ∧
        pod.Spec.Containers =
          fuse :: ((if hatchApp.Image ≠ "" then [primary] else []) ++ hatchApp.Friends) ∧
        pod.Spec.Containers.length =
          1 + (if hatchApp.Image ≠ "" then 1 else 0) + hatchApp.Friends.length) := by
  constructor
  · intro hvalid
    obtain ⟨pod, err, h⟩ :=
      (buildPod_returns_iff validQuantity config hatchApp userName).mpr hvalid
    have herr := (buildPod_shape validQuantity config hatchApp userName pod err h).1
    exact ⟨pod, by rw [h, herr]⟩
  · intro pod err h
    obtain ⟨_, _, _, _, hc⟩ := buildPod_shape validQuantity config hatchApp userName pod err h
    refine ⟨_, hatcheryContainer hatchApp { text := hatchApp.CPULimit }
      { text := hatchApp.MemoryLimit }, ?_, ?_, ?_, ?_, hc, ?_⟩
    · rfl
    · rfl
    · rfl
    · rfl
    · rw [hc]
      by_cases h3 : hatchApp.Image = "" <;> simp [h3] <;> omega

/-- C17 on the sample application, which has an image and one friend: the pod
is returned and its containers are the sidecar, the primary and the friend. -/
theorem buildPod_containers_witness :
    (∃ pod, buildPod sampleQuantities (sampleConfig "10Gi" true) notebookApp "alice" =
      .returned (pod, none)) ∧
    (mountNames (buildPod sampleQuantities (sampleConfig "10Gi" true) notebookApp "alice")).map
      (fun entry => entry.1) = ["fuse-container", "hatchery-container", "helper"] :=
  ⟨(buildPod_containers sampleQuantities (sampleConfig "10Gi" true) notebookApp "alice").1
      (by decide),
   by decide⟩

/-- C18, counterexample. The sample application has a user volume location,
yet in the pod built for it the fuse sidecar mounts only `shared-data`: the
`user-data` volume is mounted in the primary container alone. And for an
application with an empty user volume location, the pod has no `user-data`
volume but the friend container keeps its `user-data` mount. -/
theorem sidecar_without_user_data_mount :
    notebookApp.UserVolumeLocation = "/home/jovyan" ∧
    mountNames (buildPod sampleQuantities (sampleConfig "10Gi" true) notebookApp "alice") =
      [("fuse-container", ["shared-data"]),
       ("hatchery-container", ["shared-data", "user-data"]),
       ("helper", [])] ∧
    friendsOnlyApp.UserVolumeLocation = "" ∧
    volumeNames (buildPod sampleQuantities (sampleConfig "10Gi" true) friendsOnlyApp "alice") =
      ["shared-data"] ∧
    mountNames (buildPod sampleQuantities (sampleConfig "10Gi" true) friendsOnlyApp "alice") =
      [("fuse-container", ["shared-data"]), ("web", ["user-data"])] := by
  decide

/-- C18, amended. In every pod that `buildPod` returns the containers are the
fuse sidecar, the primary container when the image is not empty, and the
friends. The fuse sidecar never has a `user-data` mount. When the user volume
location is not empty, the pod has a `user-data` volume backed by the claim
named `userToResourceName(user, "claim")`, every `user-data` volume is backed
by that claim, and the primary container, when there is one, mounts
`user-data` at the user volume location. When the user volume location is
empty, the pod has no `user-data` volume and neither the sidecar nor the
primary container has a `user-data` mount. -/
theorem buildPod_user_volume (validQuantity : String → Bool) (config : FullHatcheryConfig)
    (hatchApp : Container) (userName : String) (pod : k8sv1.Pod) (err : Option String)
    (h : buildPod validQuantity config hatchApp userName = .returned (pod, err)) :
    ∃ (fuse : k8sv1.Container) (primaries : List k8sv1.Container),
      pod.Spec.Containers = fuse :: (primaries ++ hatchApp.Friends) ∧
      fuse.Name = "fuse-container" ∧
      (primaries = if hatchApp.Image ≠ "" then
          [hatcheryContainer hatchApp { text := hatchApp.CPULimit }
            { text := hatchApp.MemoryLimit }]
        else []) ∧
      (∀ m ∈ fuse.VolumeMounts, m.Name ≠ "user-data") ∧
      (hatchApp.UserVolumeLocation ≠ "" →
        { Name := "user-data", EmptyDir := none,
          PersistentVolumeClaim := some (userToResourceName userName "claim") }
            ∈ pod.Spec.Volumes ∧
        (∀ vol ∈ pod.Spec.Volumes, vol.Name = "user-data" →
          vol.PersistentVolumeClaim = some (userToResourceName userName "claim")) ∧
        (∀ primary ∈ primaries,
          { Name := "user-data", MountPath := hatchApp.UserVolumeLocation, SubPath := "",
            ReadOnly := false, MountPropagation := none } ∈ primary.VolumeMounts)) ∧
      (hatchApp.UserVolumeLocation = "" →
        (∀ vol ∈ pod.Spec.Volumes, vol.Name ≠ "user-data") ∧
        (∀ primary ∈ primaries, ∀ m ∈ primary.VolumeMounts, m.Name ≠ "user-data")) := by
  obtain ⟨_, _, _, hv, hc⟩ := buildPod_shape validQuantity config hatchApp userName pod err h
  refine ⟨_, _, hc, rfl, rfl, ?_, ?_, ?_⟩
  · intro m hm
    simp only [fuseContainer, sidecarVolumeMounts] at hm
    by_cases hs : hatchApp.UseSharedMemory = "true" <;> simp [hs] at hm
    · rcases hm with hm | hm <;> (rw [hm]; decide)
    · rw [hm]; decide
  · intro hloc
    rw [hv]
    refine ⟨?_, ?_, ?_⟩
    · simp [podVolumes, hloc]
    · intro vol hvol hname
      simp only [podVolumes] at hvol
      by_cases hs : hatchApp.UseSharedMemory = "true" <;> simp [hs, hloc] at hvol
      · rcases hvol with hvol | hvol | hvol
        · rw [hvol] at hname; exact absurd hname (by decide)
        · rw [hvol] at hname; exact absurd hname (by decide)
        · rw [hvol]
      · rcases hvol with hvol | hvol
        · rw [hvol] at hname; exact absurd hname (by decide)
        · rw [hvol]
    · intro primary hprimary
      by_cases h3 : hatchApp.Image = "" <;> simp [h3] at hprimary
      rw [hprimary]
      simp [hatcheryContainer, hloc]
  · intro hloc
    rw [hv]
    refine ⟨?_, ?_⟩
    · intro vol hvol
      simp only [podVolumes] at hvol
      by_cases hs : hatchApp.UseSharedMemory = "true" <;> simp [hs, hloc] at hvol
      · rcases hvol with hvol | hvol <;> (rw [hvol]; decide)
      · rw [hvol]; decide
    · intro primary hprimary m hm
      by_cases h3 : hatchApp.Image = "" <;> simp [h3] at hprimary
      rw [hprimary] at hm
      simp [hatcheryContainer, hloc] at hm
      rw [hm]; decide

/-- C18, amended, on the pod built for the sample application. -/
theorem buildPod_user_volume_witness :
    ∃ (fuse : k8sv1.Container) (primaries : List k8sv1.Container),
      (fuseContainer (sampleConfig "10Gi" true) false { text := "1" } { text := "256Mi" }
        :: ([hatcheryContainer notebookApp { text := "1" } { text := "256Mi" }]
          ++ notebookApp.Friends)) = fuse :: (primaries ++ notebookApp.Friends) ∧
      fuse.Name = "fuse-container" ∧
      (∀ m ∈ fuse.VolumeMounts, m.Name ≠ "user-data") ∧
      (∀ primary ∈ primaries,
        { Name := "user-data", MountPath := "/home/jovyan", SubPath := "",
          ReadOnly := false, MountPropagation := none } ∈ primary.VolumeMounts) := by
  obtain ⟨fuse, primaries, h1, h2, _, h4, h5, _⟩ :=
    buildPod_user_volume sampleQuantities (sampleConfig "10Gi" true) notebookApp "alice"
      _ none rfl
  exact ⟨fuse, primaries, h1, h2, h4, (h5 (by decide)).2.2⟩

/-! ## Steps of `createK8sPod` -/

/-- The volume-claim part only looks up and creates the claim named
`userToResourceName(user, "claim")` in the user namespace. -/
theorem createK8sPodClaim_calls (validQuantity : String → Bool) (backend : Backend)
    (config : FullHatcheryConfig) (hatchApp : Container) (pod : k8sv1.Pod) (userName : String) :
    ∀ c ∈ (createK8sPodClaim validQuantity backend config hatchApp pod userName).1,
      c = .getPVC config.Config.UserNamespace (userToResourceName userName "claim") ∨
      ∃ pvc, c = .createPVC config.Config.UserNamespace pvc ∧
        pvc.ObjectMeta.Name = userToResourceName userName "claim" := by
  intro c hc
  unfold createK8sPodClaim mustParse at hc
  by_cases hloc : hatchApp.UserVolumeLocation = ""
  · simp [hloc] at hc
  · cases hget : backend (.getPVC config.Config.UserNamespace
        (userToResourceName userName "claim")) with
    | none =>
      simp [hloc, hget] at hc
      exact Or.inl hc
    | some e =>
      by_cases hsize : validQuantity config.Config.UserVolumeSize = true
      · simp only [hloc, hget, hsize, ne_eq, not_false_eq_true, decide_True, if_true] at hc
        generalize backend (Call.createPVC _ _) = r at hc
        cases r <;> simp at hc <;>
        · rcases hc with hc | hc
          · exact Or.inl hc
          · exact Or.inr ⟨_, hc, rfl⟩
      · simp [hloc, hget, hsize] at hc
        exact Or.inl hc

/-- Whether the volume-claim part issues a claim `Create`. -/
theorem createK8sPodClaim_creates_iff (validQuantity : String → Bool) (backend : Backend)
    (config : FullHatcheryConfig) (hatchApp : Container) (pod : k8sv1.Pod) (userName : String) :
    (∃ c ∈ (createK8sPodClaim validQuantity backend config hatchApp pod userName).1,
        c.kind = .createPVC) ↔
      (hatchApp.UserVolumeLocation ≠ "" ∧
        backend (.getPVC config.Config.UserNamespace (userToResourceName userName "claim"))
          ≠ none ∧
        validQuantity config.Config.UserVolumeSize = true) := by
  unfold createK8sPodClaim mustParse
  by_cases hloc : hatchApp.UserVolumeLocation = ""
  · simp [hloc]
  · cases hget : backend (.getPVC config.Config.UserNamespace
        (userToResourceName userName "claim")) with
    | none => simp [hloc, hget, Call.kind]
    | some e =>
      by_cases hsize : validQuantity config.Config.UserVolumeSize = true
      · simp only [hloc, hget, hsize, ne_eq, not_false_eq_true, decide_True, if_true]
        generalize backend (Call.createPVC _ _) = r
        cases r <;> simp [Call.kind]
      · simp [hloc, hget, hsize, Call.kind]

/-- When the claim lookup succeeds, or no user volume is wanted, the
volume-claim part does not end the function. -/
theorem createK8sPodClaim_goes_on (validQuantity : String → Bool) (backend : Backend)
    (config : FullHatcheryConfig) (hatchApp : Container) (pod : k8sv1.Pod) (userName : String)
    (h : hatchApp.UserVolumeLocation = "" ∨
      backend (.getPVC config.Config.UserNamespace (userToResourceName userName "claim"))
        = none) :
    (createK8sPodClaim validQuantity backend config hatchApp pod userName).2 = none := by
  unfold createK8sPodClaim
  by_cases hloc : hatchApp.UserVolumeLocation = ""
  · simp [hloc]
  · rcases h with h | h
    · exact absurd h hloc
    · simp [hloc, h]

/-- The calls of the service mapping are `Start` calls. -/
theorem setupServiceMapping_calls (backend : Backend) (config : FullHatcheryConfig)
    (userName pathRewrite useTLS : String) (service : k8sv1.Service) :
    ∀ c ∈ (setupServiceMapping backend config userName pathRewrite useTLS service).2,
      c.kind = .startMapping := by
  intro c hc
  unfold setupServiceMapping at hc
  split_ifs at hc <;> simp at hc <;> (rw [hc]; rfl)

/-- The service part, spelled out: the lookup, the delete when the lookup
succeeded, the mapping calls, and the service `Create` when the mapping
returned nil. -/
theorem createK8sPodService_eq (backend : Backend) (config : FullHatcheryConfig)
    (hatchApp : Container) (userName : String) :
    createK8sPodService backend config hatchApp userName =
      ((serviceSubmit backend config hatchApp userName
          (setupServiceMapping backend config userName hatchApp.PathRewrite
            hatchApp.UseTLS (buildService config hatchApp userName)).1).1,
       .getService config.Config.UserNamespace (userToResourceName userName "service")
        :: (orphanCleanup backend config userName
          ++ ((setupServiceMapping backend config userName hatchApp.PathRewrite
                hatchApp.UseTLS (buildService config hatchApp userName)).2
            ++ (serviceSubmit backend config hatchApp userName
                (setupServiceMapping backend config userName hatchApp.PathRewrite
                  hatchApp.UseTLS (buildService config hatchApp userName)).1).2))) := by
  rcases hm : setupServiceMapping backend config userName hatchApp.PathRewrite
      hatchApp.UseTLS (buildService config hatchApp userName) with ⟨merr, mcalls⟩
  cases hg : backend (.getService config.Config.UserNamespace
      (userToResourceName userName "service")) <;>
  cases merr with
  | some e => simp [createK8sPodService, serviceSubmit, orphanCleanup, hm, hg]
  | none =>
    cases hc : backend (.createService config.Config.UserNamespace
        (buildService config hatchApp userName)) with
    | some e => simp [createK8sPodService, serviceSubmit, orphanCleanup, hm, hc, hg]
    | none => simp [createK8sPodService, serviceSubmit, orphanCleanup, hm, hc, hg]

/-- The orphan cleanup issues service deletes only. -/
theorem orphanCleanup_kinds (backend : Backend) (config : FullHatcheryConfig)
    (userName : String) : ∀ c ∈ orphanCleanup backend config userName,
      c.kind = .deleteService := by
  intro c hc
  unfold orphanCleanup at hc
  cases hg : backend (.getService config.Config.UserNamespace
      (userToResourceName userName "service")) with
  | none => simp [hg] at hc; rw [hc]; rfl
  | some _ => simp [hg] at hc

/-- The end of the service part issues at most the service `Create`. -/
theorem serviceSubmit_kinds (backend : Backend) (config : FullHatcheryConfig)
    (hatchApp : Container) (userName : String) (mappingError : Option String) :
    ∀ c ∈ (serviceSubmit backend config hatchApp userName mappingError).2,
      c = .createService config.Config.UserNamespace (buildService config hatchApp userName) ∧
        mappingError = none := by
  intro c hc
  cases mappingError with
  | some e => simp [serviceSubmit] at hc
  | none => simp [serviceSubmit] at hc; exact ⟨hc, rfl⟩

/-- The create operation for a known application whose pod was built. -/
theorem createK8sPod_of_built (validQuantity : String → Bool) (backend : Backend)
    (config : FullHatcheryConfig) (hash accessToken userName : String)
    (hatchApp : Container) (pod : k8sv1.Pod)
    (happ : config.ContainersMap hash = some hatchApp)
    (hbuilt : buildPod validQuantity config hatchApp userName = .returned (pod, none)) :
    createK8sPod validQuantity backend config hash accessToken userName =
      match (createK8sPodClaim validQuantity backend config hatchApp pod userName).2 with
      | some early =>
        (early, (createK8sPodClaim validQuantity backend config hatchApp pod userName).1)
      | none =>
        match backend (.createPod config.Config.UserNamespace pod) with
        | some err =>
          (.returned (some err),
           (createK8sPodClaim validQuantity backend config hatchApp pod userName).1
             ++ [.createPod config.Config.UserNamespace pod])
        | none =>
          (.returned (createK8sPodService backend config hatchApp userName).1,
           (createK8sPodClaim validQuantity backend config hatchApp pod userName).1
             ++ [.createPod config.Config.UserNamespace pod]
             ++ (createK8sPodService backend config hatchApp userName).2) := by
  rcases hclaim : createK8sPodClaim validQuantity backend config hatchApp pod userName
    with ⟨calls, early⟩
  cases early with
  | some e => simp [createK8sPod, happ, hbuilt, hclaim]
  | none =>
    cases hc : backend (.createPod config.Config.UserNamespace pod) with
    | some e => simp [createK8sPod, happ, hbuilt, hclaim, hc]
    | none => simp [createK8sPod, happ, hbuilt, hclaim, hc]

/-- The create operation issues calls only for a known application whose pod
was built. -/
theorem createK8sPod_calls_of_mem (validQuantity : String → Bool) (backend : Backend)
    (config : FullHatcheryConfig) (hash accessToken userName : String) (c : Call)
    (hc : c ∈ (createK8sPod validQuantity backend config hash accessToken userName).2) :
    ∃ hatchApp pod, config.ContainersMap hash = some hatchApp ∧
      buildPod validQuantity config hatchApp userName = .returned (pod, none) := by
  unfold createK8sPod at hc
  cases happ : config.ContainersMap hash with
  | none => simp [happ] at hc
  | some hatchApp =>
    cases hb : buildPod validQuantity config hatchApp userName with
    | panicked m => simp [happ, hb] at hc
    | returned r =>
      obtain ⟨pod, err⟩ := r
      cases err with
      | some e => simp [happ, hb] at hc
      | none => exact ⟨hatchApp, pod, rfl, hb⟩

/-- Every `user-data` volume of a pod is backed by the claim named
`userToResourceName(user, "claim")`. -/
theorem podVolumes_user_data (mountSharedMemory mountUserVolume : Bool) (userName : String) :
    ∀ vol ∈ podVolumes mountSharedMemory mountUserVolume userName, vol.Name = "user-data" →
      vol.PersistentVolumeClaim = some (userToResourceName userName "claim") := by
  intro vol hvol hname
  unfold podVolumes at hvol
  cases mountSharedMemory <;> cases mountUserVolume <;> simp at hvol
  · rw [hvol] at hname; exact absurd hname (by decide)
  · rcases hvol with hvol | hvol
    · rw [hvol] at hname; exact absurd hname (by decide)
    · rw [hvol]
  · rcases hvol with hvol | hvol <;> (rw [hvol] at hname; exact absurd hname (by decide))
  · rcases hvol with hvol | hvol | hvol
    · rw [hvol] at hname; exact absurd hname (by decide)
    · rw [hvol] at hname; exact absurd hname (by decide)
    · rw [hvol]

/-- The calls of the service part are the two service lookups and deletes,
mapping calls and the service `Create`. -/
theorem createK8sPodService_kinds (backend : Backend) (config : FullHatcheryConfig)
    (hatchApp : Container) (userName : String) :
    ∀ c ∈ (createK8sPodService backend config hatchApp userName).2,
      c.kind = .getService ∨ c.kind = .deleteService ∨ c.kind = .startMapping ∨
        c.kind = .createService := by
  intro c hc
  rw [createK8sPodService_eq] at hc
  simp only [List.mem_cons, List.mem_append] at hc
  rcases hc with hc | hc | hc | hc
  · rw [hc]; exact Or.inl rfl
  · exact Or.inr (Or.inl (orphanCleanup_kinds _ _ _ c hc))
  · exact Or.inr (Or.inr (Or.inl (setupServiceMapping_calls _ _ _ _ _ _ c hc)))
  · rw [(serviceSubmit_kinds _ _ _ _ _ c hc).1]
    exact Or.inr (Or.inr (Or.inr rfl))

/-- The calls of the create operation, for a known application whose pod was
built: the calls of the volume-claim part, then, unless that part ended the
function, the pod `Create`, then, when it succeeded, the calls of the service
part. -/
theorem createK8sPod_trace (validQuantity : String → Bool) (backend : Backend)
    (config : FullHatcheryConfig) (hash accessToken userName : String)
    (hatchApp : Container) (pod : k8sv1.Pod)
    (happ : config.ContainersMap hash = some hatchApp)
    (hbuilt : buildPod validQuantity config hatchApp userName = .returned (pod, none)) :
    (createK8sPod validQuantity backend config hash accessToken userName).2 =
      (createK8sPodClaim validQuantity backend config hatchApp pod userName).1 ++
        (if (createK8sPodClaim validQuantity backend config hatchApp pod userName).2.isSome
          then []
          else .createPod config.Config.UserNamespace pod ::
            (if (backend (.createPod config.Config.UserNamespace pod)).isSome then []
              else (createK8sPodService backend config hatchApp userName).2)) := by
  rw [createK8sPod_of_built validQuantity backend config hash accessToken userName hatchApp pod
    happ hbuilt]
  cases hclaim : (createK8sPodClaim validQuantity backend config hatchApp pod userName).2 with
  | some early => simp
  | none =>
    cases hc : backend (.createPod config.Config.UserNamespace pod) with
    | some e => simp
    | none => simp

/-- C14, counterexample. The sample application wants a user volume and the
claim lookup fails, but the configured volume size is the empty text: the
create operation panics after the lookup and issues no claim `Create`. -/
theorem claim_not_created_when_size_unparsable :
    notebookApp.UserVolumeLocation = "/home/jovyan" ∧
    failingOn [.getPVC] (.getPVC "jupyter-pods" "claim-alice") = some "backend failure" ∧
    createK8sPod sampleQuantities (failingOn [.getPVC]) (sampleConfig "" true)
        "notebook" "token" "alice" =
      (.panicked "cannot parse quantity: ", [.getPVC "jupyter-pods" "claim-alice"]) := by
  decide

/-- C14, amended. For a known application whose pod `buildPod` returns, the
create operation issues a claim `Create` if and only if the application's
user volume location is not empty, the lookup of the claim fails and the
configured volume size parses as a quantity. When the claim lookup succeeds
no claim is created or deleted and the pod `Create` is issued. The claim is
looked up and created under the name `userToResourceName(user, "claim")`,
which is the claim that every `user-data` volume of the built pod references. -/
theorem createK8sPod_claim (validQuantity : String → Bool) (backend : Backend)
    (config : FullHatcheryConfig) (hash accessToken userName : String)
    (hatchApp : Container) (pod : k8sv1.Pod)
    (happ : config.ContainersMap hash = some hatchApp)
    (hbuilt : buildPod validQuantity config hatchApp userName = .returned (pod, none)) :
    ((∃ c ∈ (createK8sPod validQuantity backend config hash accessToken userName).2,
        c.kind = .createPVC) ↔
      (hatchApp.UserVolumeLocation ≠ "" ∧
        backend (.getPVC config.Config.UserNamespace (userToResourceName userName "claim"))
          ≠ none ∧
        validQuantity config.Config.UserVolumeSize = true)) ∧
    (backend (.getPVC config.Config.UserNamespace (userToResourceName userName "claim"))
        = none →
      (∀ c ∈ (createK8sPod validQuantity backend config hash accessToken userName).2,
        c.kind ≠ .createPVC ∧ c.kind ≠ .deletePVC) ∧
      .createPod config.Config.UserNamespace pod ∈
        (createK8sPod validQuantity backend config hash accessToken userName).2) ∧
    (∀ c ∈ (createK8sPod validQuantity backend config hash accessToken userName).2,
      (c.kind = .getPVC →
        c = .getPVC config.Config.UserNamespace (userToResourceName userName "claim")) ∧
      (c.kind = .createPVC →
        ∃ pvc, c = .createPVC config.Config.UserNamespace pvc ∧
          pvc.ObjectMeta.Name = userToResourceName userName "claim")) ∧
    (∀ vol ∈ pod.Spec.Volumes, vol.Name = "user-data" →
      vol.PersistentVolumeClaim = some (userToResourceName userName "claim")) := by
  have htrace := createK8sPod_trace validQuantity backend config hash accessToken userName
    hatchApp pod happ hbuilt
  have hclaimcalls := createK8sPodClaim_calls validQuantity backend config hatchApp pod userName
  have hsvc := createK8sPodService_kinds backend config hatchApp userName
  -- every call after the volume-claim part is a pod create or a service call
  have htail : ∀ c ∈ (if (createK8sPodClaim validQuantity backend config hatchApp pod
        userName).2.isSome then []
      else .createPod config.Config.UserNamespace pod ::
        (if (backend (.createPod config.Config.UserNamespace pod)).isSome then []
          else (createK8sPodService backend config hatchApp userName).2)),
      c.kind = .createPod ∨ c.kind = .getService ∨ c.kind = .deleteService ∨
        c.kind = .startMapping ∨ c.kind = .createService := by
    intro c hc
    split_ifs at hc
    · simp at hc
    · simp only [List.mem_cons, List.not_mem_nil, or_false] at hc
      rw [hc]; exact Or.inl rfl
    · rcases List.mem_cons.mp hc with hc | hc
      · rw [hc]; exact Or.inl rfl
      · exact Or.inr (hsvc c hc)
  have hclaimkind : ∀ c ∈ (createK8sPodClaim validQuantity backend config hatchApp pod
      userName).1, c.kind = .getPVC ∨ c.kind = .createPVC := by
    intro c hc
    rcases hclaimcalls c hc with h | ⟨pvc, h, _⟩
    · rw [h]; exact Or.inl rfl
    · rw [h]; exact Or.inr rfl
  refine ⟨?_, ?_, ?_, ?_⟩
  · rw [← createK8sPodClaim_creates_iff validQuantity backend config hatchApp pod userName,
      htrace]
    constructor
    · rintro ⟨c, hc, hk⟩
      rcases List.mem_append.mp hc with hc | hc
      · exact ⟨c, hc, hk⟩
      · have := htail c hc
        rw [hk] at this
        simp at this
    · rintro ⟨c, hc, hk⟩
      exact ⟨c, List.mem_append_left _ hc, hk⟩
  · intro hget
    have hgo := createK8sPodClaim_goes_on validQuantity backend config hatchApp pod userName
      (Or.inr hget)
    constructor
    · intro c hc
      rw [htrace] at hc
      rcases List.mem_append.mp hc with hc | hc
      · have hnot : ¬ ∃ c ∈ (createK8sPodClaim validQuantity backend config hatchApp pod
            userName).1, c.kind = .createPVC := by
          rw [createK8sPodClaim_creates_iff]
          rintro ⟨_, h2, _⟩
          exact h2 hget
        constructor
        · intro hk; exact hnot ⟨c, hc, hk⟩
        · intro hk
          rcases hclaimkind c hc with h | h <;> (rw [hk] at h; simp at h)
      · have := htail c hc
        constructor <;> (intro hk; rw [hk] at this; simp at this)
    · rw [htrace, hgo]
      simp
  · intro c hc
    rw [htrace] at hc
    rcases List.mem_append.mp hc with hc | hc
    · rcases hclaimcalls c hc with h | ⟨pvc, h, hn⟩
      · subst h
        exact ⟨fun _ => rfl, fun hk => by simp [Call.kind] at hk⟩
      · subst h
        exact ⟨fun hk => by simp [Call.kind] at hk, fun _ => ⟨pvc, rfl, hn⟩⟩
    · have := htail c hc
      constructor <;> (intro hk; rw [hk] at this; simp at this)
  · intro vol hvol hname
    rw [(buildPod_shape validQuantity config hatchApp userName pod none hbuilt).2.2.2.1]
      at hvol
    exact podVolumes_user_data _ _ userName vol hvol hname

/-- C14, amended, on the sample configuration with a volume size that parses:
the claim lookup fails and the claim `Create` is issued. -/
theorem createK8sPod_claim_witness :
    ∃ c ∈ (createK8sPod sampleQuantities (failingOn [.getPVC]) (sampleConfig "10Gi" true)
        "notebook" "token" "alice").2, c.kind = .createPVC :=
  (createK8sPod_claim sampleQuantities (failingOn [.getPVC]) (sampleConfig "10Gi" true)
    "notebook" "token" "alice" notebookApp _ rfl rfl).1.mpr ⟨by decide, by decide, by decide⟩

/-- C15. In the create operation no service call is issued unless the pod
`Create` has succeeded. After a successful pod `Create` the next call is the
lookup of the user's service; before the pod `Create` there are only
volume-claim calls. When that lookup succeeds, the call after it is the
`Delete` of that service, and the mapping and the service `Create` come only
after the `Delete`; when the lookup fails, no service `Delete` is issued. -/
theorem createK8sPod_orphan_service (validQuantity : String → Bool) (backend : Backend)
    (config : FullHatcheryConfig) (hash accessToken userName : String) :
    ((∀ pod, .createPod config.Config.UserNamespace pod ∈
          (createK8sPod validQuantity backend config hash accessToken userName).2 →
        backend (.createPod config.Config.UserNamespace pod) ≠ none) →
      ∀ c ∈ (createK8sPod validQuantity backend config hash accessToken userName).2,
        c.kind ≠ .getService ∧ c.kind ≠ .deleteService ∧ c.kind ≠ .createService) ∧
    (∀ pod, .createPod config.Config.UserNamespace pod ∈
          (createK8sPod validQuantity backend config hash accessToken userName).2 →
      backend (.createPod config.Config.UserNamespace pod) = none →
      ∃ before after,
        (createK8sPod validQuantity backend config hash accessToken userName).2 =
          before ++ .createPod config.Config.UserNamespace pod ::
            .getService config.Config.UserNamespace (userToResourceName userName "service") ::
              after ∧
        (∀ c ∈ before, c.kind = .getPVC ∨ c.kind = .createPVC) ∧
        (backend (.getService config.Config.UserNamespace
            (userToResourceName userName "service")) = none →
          ∃ rest, after =
            .deleteService config.Config.UserNamespace (userToResourceName userName "service")
              { PropagationPolicy := some "Background", GracePeriodSeconds := none } :: rest ∧
            ∀ c ∈ rest, c.kind = .startMapping ∨ c.kind = .createService) ∧
        (backend (.getService config.Config.UserNamespace
            (userToResourceName userName "service")) ≠ none →
          ∀ c ∈ after, c.kind = .startMapping ∨ c.kind = .createService)) := by
  cases happ : config.ContainersMap hash with
  | none => simp [createK8sPod, happ]
  | some hatchApp =>
  cases hb : buildPod validQuantity config hatchApp userName with
  | panicked m => simp [createK8sPod, happ, hb]
  | returned r =>
  obtain ⟨built, err⟩ := r
  have herr := (buildPod_shape validQuantity config hatchApp userName built err hb).1
  subst herr
  have htrace := createK8sPod_trace validQuantity backend config hash accessToken userName
    hatchApp built happ hb
  have hclaimkind : ∀ c ∈ (createK8sPodClaim validQuantity backend config hatchApp built
      userName).1, c.kind = .getPVC ∨ c.kind = .createPVC := by
    intro c hc
    rcases createK8sPodClaim_calls validQuantity backend config hatchApp built userName c hc
      with h | ⟨pvc, h, _⟩
    · rw [h]; exact Or.inl rfl
    · rw [h]; exact Or.inr rfl
  have hsvc := createK8sPodService_kinds backend config hatchApp userName
  have hrest : ∀ c ∈ (setupServiceMapping backend config userName hatchApp.PathRewrite
        hatchApp.UseTLS (buildService config hatchApp userName)).2
      ++ (serviceSubmit backend config hatchApp userName
          (setupServiceMapping backend config userName hatchApp.PathRewrite
            hatchApp.UseTLS (buildService config hatchApp userName)).1).2,
      c.kind = .startMapping ∨ c.kind = .createService := by
    intro c hc
    rcases List.mem_append.mp hc with hc | hc
    · exact Or.inl (setupServiceMapping_calls _ _ _ _ _ _ c hc)
    · rw [(serviceSubmit_kinds _ _ _ _ _ c hc).1]
      exact Or.inr rfl
  rw [htrace]
  cases hclaim : (createK8sPodClaim validQuantity backend config hatchApp built userName).2 with
  | some early =>
    simp only [Option.isSome_some, if_true, List.append_nil]
    constructor
    · intro _ c hc
      rcases hclaimkind c hc with h | h <;> simp [h]
    · intro pod hpod
      rcases hclaimkind _ hpod with h | h <;> simp [Call.kind] at h
  | none =>
    simp only [Option.isSome_none, Bool.false_eq_true, if_false]
    have hpodeq : ∀ pod, .createPod config.Config.UserNamespace pod ∈
        (createK8sPodClaim validQuantity backend config hatchApp built userName).1 ++
          .createPod config.Config.UserNamespace built ::
            (if (backend (.createPod config.Config.UserNamespace built)).isSome then []
              else (createK8sPodService backend config hatchApp userName).2) →
        pod = built := by
      intro pod hpod
      rcases List.mem_append.mp hpod with h | h
      · rcases hclaimkind _ h with h | h <;> simp [Call.kind] at h
      · rcases List.mem_cons.mp h with h | h
        · simpa using h
        · split_ifs at h
          · simp at h
          · rcases hsvc _ h with h | h | h | h <;> simp [Call.kind] at h
    cases hc : backend (.createPod config.Config.UserNamespace built) with
    | some e =>
      simp only [Option.isSome_some, if_true]
      constructor
      · intro _ c hc'
        rcases List.mem_append.mp hc' with h | h
        · rcases hclaimkind c h with h | h <;> simp [h]
        · simp only [List.mem_singleton] at h
          simp [h, Call.kind]
      · intro pod hpod hok
        have := hpodeq pod (by simpa [hc] using hpod)
        subst this
        rw [hc] at hok
        exact absurd hok (by simp)
    | none =>
      simp only [Option.isSome_none, Bool.false_eq_true, if_false]
      constructor
      · intro hall
        exact absurd hc (hall built (by simp))
      · intro pod hpod _
        have := hpodeq pod (by simpa [hc] using hpod)
        subst this
        rw [createK8sPodService_eq]
        refine ⟨_, _, rfl, hclaimkind, ?_, ?_⟩
        · intro hg
          simp only [orphanCleanup, hg]
          exact ⟨_, rfl, hrest⟩
        · intro hg
          cases hg' : backend (.getService config.Config.UserNamespace
              (userToResourceName userName "service")) with
          | none => exact absurd hg' hg
          | some e =>
            simp only [orphanCleanup, hg', List.nil_append]
            exact hrest

/-- C15 on the sample configuration: with a stale service present the calls
are, in order, the claim lookup, the pod `Create`, the service lookup, the
service `Delete`, the mapping and the service `Create`; with no stale service
there is no `Delete`. -/
theorem createK8sPod_orphan_service_witness :
    (createK8sPod sampleQuantities (failingOn []) (sampleConfig "10Gi" true)
        "notebook" "token" "alice").2.map Call.kind =
      [.getPVC, .createPod, .getService, .deleteService, .startMapping, .createService] ∧
    (∀ c ∈ (createK8sPod sampleQuantities (failingOn [.getService]) (sampleConfig "10Gi" true)
        "notebook" "token" "alice").2, c.kind ≠ .deleteService) := by
  refine ⟨by decide, ?_⟩
  obtain ⟨before, after, htrace, hbefore, _, hafter⟩ :=
    (createK8sPod_orphan_service sampleQuantities (failingOn [.getService])
      (sampleConfig "10Gi" true) "notebook" "token" "alice").2
      (match buildPod sampleQuantities (sampleConfig "10Gi" true) notebookApp "alice" with
        | .returned (pod, _) => pod
        | .panicked _ => { ObjectMeta := ⟨"", "", [], []⟩,
                           Spec := ⟨none, [], [], "", [], [], [], []⟩ })
      (by decide) (by decide)
  intro c hc
  rw [htrace] at hc
  simp only [List.mem_append, List.mem_cons] at hc
  rcases hc with h | h | h | h
  · rcases hbefore c h with h | h <;> simp [h]
  · simp [h, Call.kind]
  · simp [h, Call.kind]
  · rcases hafter (by decide) c h with h | h <;> simp [h]

/-- The two ways `setupServiceMapping` goes: one `Start` call whose answer is
the result, or no mapper and the error `Service mapper not found`. -/
theorem setupServiceMapping_cases (backend : Backend) (config : FullHatcheryConfig)
    (userName pathRewrite useTLS : String) (service : k8sv1.Service) :
    (∃ c, c.kind = .startMapping ∧
      setupServiceMapping backend config userName pathRewrite useTLS service =
        (backend c, [c])) ∨
    (config.Config.ServiceMapper.AmbassadorV2Mapper = false ∧
      config.Config.ServiceMapper.AmbassadorV1Mapper = false ∧
      setupServiceMapping backend config userName pathRewrite useTLS service =
        (some "Service mapper not found", [])) := by
  unfold setupServiceMapping
  cases h2 : config.Config.ServiceMapper.AmbassadorV2Mapper
  · cases h1 : config.Config.ServiceMapper.AmbassadorV1Mapper
    · exact Or.inr ⟨rfl, rfl, by simp⟩
    · exact Or.inl ⟨.startMapping 1 userName pathRewrite useTLS service, rfl, by simp⟩
  · exact Or.inl ⟨.startMapping 2 userName pathRewrite useTLS service, rfl, by simp⟩

/-- A failing claim `Create` ends the volume-claim part with that error, and
it is the last call of that part. -/
theorem createK8sPodClaim_failure (validQuantity : String → Bool) (backend : Backend)
    (config : FullHatcheryConfig) (hatchApp : Container) (pod : k8sv1.Pod) (userName : String)
    (c : Call) (e : String)
    (hc : c ∈ (createK8sPodClaim validQuantity backend config hatchApp pod userName).1)
    (hk : c.kind = .createPVC) (he : backend c = some e) :
    (createK8sPodClaim validQuantity backend config hatchApp pod userName).2 =
        some (.returned (some e)) ∧
      ∃ before, (createK8sPodClaim validQuantity backend config hatchApp pod userName).1 =
        before ++ [c] := by
  unfold createK8sPodClaim mustParse at hc ⊢
  by_cases hloc : hatchApp.UserVolumeLocation = ""
  · simp [hloc] at hc
  · cases hget : backend (.getPVC config.Config.UserNamespace
        (userToResourceName userName "claim")) with
    | none =>
      simp [hloc, hget] at hc
      rw [hc] at hk
      simp [Call.kind] at hk
    | some e' =>
      by_cases hsize : validQuantity config.Config.UserVolumeSize = true
      · simp only [hloc, hget, hsize, ne_eq, not_false_eq_true, decide_True, if_true] at hc ⊢
        cases hcp : backend (.createPVC config.Config.UserNamespace
            (buildClaim pod userName { text := config.Config.UserVolumeSize })) with
        | none =>
          simp only [hcp, List.mem_cons, List.mem_singleton, List.not_mem_nil, or_false] at hc
          rcases hc with hc | hc
          · rw [hc] at hk; simp [Call.kind] at hk
          · rw [hc, hcp] at he; simp at he
        | some e'' =>
          simp only [hcp, List.mem_cons, List.mem_singleton, List.not_mem_nil, or_false] at hc
          rcases hc with hc | hc
          · rw [hc] at hk; simp [Call.kind] at hk
          · rw [hc, hcp] at he
            simp only [Option.some.injEq] at he
            subst he
            subst hc
            exact ⟨rfl, [_], rfl⟩
      · simp [hloc, hget, hsize] at hc
        rw [hc] at hk
        simp [Call.kind] at hk

/-- A failing mapping or service `Create` is the error of the service part and
its last call; after a failing mapping no service `Create` is issued. -/
theorem createK8sPodService_failure (backend : Backend) (config : FullHatcheryConfig)
    (hatchApp : Container) (userName : String) (c : Call) (e : String)
    (hc : c ∈ (createK8sPodService backend config hatchApp userName).2)
    (hk : c.kind = .startMapping ∨ c.kind = .createService) (he : backend c = some e) :
    (createK8sPodService backend config hatchApp userName).1 = some e ∧
      (∃ before, (createK8sPodService backend config hatchApp userName).2 = before ++ [c]) ∧
      (c.kind = .startMapping →
        ∀ c' ∈ (createK8sPodService backend config hatchApp userName).2,
          c'.kind ≠ .createService) := by
  rw [createK8sPodService_eq] at hc ⊢
  have hdel := orphanCleanup_kinds backend config userName
  generalize orphanCleanup backend config userName = cleanup at hc hdel ⊢
  rcases setupServiceMapping_cases backend config userName hatchApp.PathRewrite
      hatchApp.UseTLS (buildService config hatchApp userName) with ⟨m, hmk, hm⟩ | ⟨_, _, hm⟩
  · rw [hm] at hc ⊢
    cases hbm : backend m with
    | some em =>
      simp only [hbm, serviceSubmit, List.mem_cons, List.mem_append, List.mem_singleton,
        List.not_mem_nil, or_false, List.append_nil] at hc ⊢
      rcases hc with hc | hc | hc
      · rw [hc] at hk; simp [Call.kind] at hk
      · have := hdel c hc
        rw [this] at hk; simp at hk
      · subst hc
        rw [hbm] at he
        simp only [Option.some.injEq] at he
        subst he
        refine ⟨rfl, ⟨.getService config.Config.UserNamespace
          (userToResourceName userName "service") :: cleanup, by simp⟩, ?_⟩
        intro _ c' hc'
        rcases hc' with h | h | h
        · simp [h, Call.kind]
        · simp [hdel c' h]
        · simp [h, hmk]
    | none =>
      simp only [hbm, serviceSubmit, List.mem_cons, List.mem_append, List.mem_singleton,
        List.not_mem_nil, or_false] at hc ⊢
      rcases hc with hc | hc | hc | hc
      · rw [hc] at hk; simp [Call.kind] at hk
      · have := hdel c hc
        rw [this] at hk; simp at hk
      · rw [hc, hbm] at he; simp at he
      · subst hc
        refine ⟨he, ⟨.getService config.Config.UserNamespace
          (userToResourceName userName "service") :: (cleanup ++ [m]), by simp⟩, ?_⟩
        intro hk'
        simp [Call.kind] at hk'
  · rw [hm] at hc ⊢
    simp only [serviceSubmit, List.mem_cons, List.mem_append, List.not_mem_nil, or_false,
      false_or, List.append_nil] at hc
    rcases hc with hc | hc
    · rw [hc] at hk; simp [Call.kind] at hk
    · have := hdel c hc
      rw [this] at hk; simp at hk

/-- Without a mapper the service part returns `Service mapper not found` and
issues neither a mapping call nor a service `Create`. -/
theorem createK8sPodService_no_mapper (backend : Backend) (config : FullHatcheryConfig)
    (hatchApp : Container) (userName : String)
    (h2 : config.Config.ServiceMapper.AmbassadorV2Mapper = false)
    (h1 : config.Config.ServiceMapper.AmbassadorV1Mapper = false) :
    (createK8sPodService backend config hatchApp userName).1 =
        some "Service mapper not found" ∧
      ∀ c ∈ (createK8sPodService backend config hatchApp userName).2,
        c.kind ≠ .createService ∧ c.kind ≠ .startMapping := by
  rw [createK8sPodService_eq]
  have hm : setupServiceMapping backend config userName hatchApp.PathRewrite
      hatchApp.UseTLS (buildService config hatchApp userName) =
      (some "Service mapper not found", []) := by
    simp [setupServiceMapping, h1, h2]
  rw [hm]
  refine ⟨rfl, ?_⟩
  intro c hc
  simp only [serviceSubmit, List.mem_cons, List.mem_append, List.not_mem_nil, or_false,
    List.append_nil] at hc
  rcases hc with hc | hc
  · simp [hc, Call.kind]
  · simp [orphanCleanup_kinds _ _ _ c hc]

/-- C16. The create operation never issues a `Delete` of a pod or of a volume
claim. When the claim `Create`, the pod `Create`, the mapping or the service
`Create` fails, that error is returned and the failing call is the last call
issued. After a failing mapping the pod stays created and no service `Create`
is issued; without any mapper, once the pod is created the error
`Service mapper not found` is returned and neither a mapping call nor a
service `Create` is issued. -/
theorem createK8sPod_failure_no_rollback (validQuantity : String → Bool) (backend : Backend)
    (config : FullHatcheryConfig) (hash accessToken userName : String) :
    (∀ c ∈ (createK8sPod validQuantity backend config hash accessToken userName).2,
      c.kind ≠ .deletePod ∧ c.kind ≠ .deletePVC) ∧
    (∀ c ∈ (createK8sPod validQuantity backend config hash accessToken userName).2,
      ∀ e, (c.kind = .createPVC ∨ c.kind = .createPod ∨ c.kind = .startMapping ∨
          c.kind = .createService) →
        backend c = some e →
        (createK8sPod validQuantity backend config hash accessToken userName).1 =
            .returned (some e) ∧
          ∃ before, (createK8sPod validQuantity backend config hash accessToken userName).2 =
            before ++ [c]) ∧
    (∀ c ∈ (createK8sPod validQuantity backend config hash accessToken userName).2,
      c.kind = .startMapping → backend c ≠ none →
        (∃ pod, .createPod config.Config.UserNamespace pod ∈
            (createK8sPod validQuantity backend config hash accessToken userName).2 ∧
          backend (.createPod config.Config.UserNamespace pod) = none) ∧
        ∀ c' ∈ (createK8sPod validQuantity backend config hash accessToken userName).2,
          c'.kind ≠ .createService) ∧
    (config.Config.ServiceMapper.AmbassadorV2Mapper = false →
      config.Config.ServiceMapper.AmbassadorV1Mapper = false →
      ∀ pod, .createPod config.Config.UserNamespace pod ∈
          (createK8sPod validQuantity backend config hash accessToken userName).2 →
        backend (.createPod config.Config.UserNamespace pod) = none →
        (createK8sPod validQuantity backend config hash accessToken userName).1 =
            .returned (some "Service mapper not found") ∧
          ∀ c' ∈ (createK8sPod validQuantity backend config hash accessToken userName).2,
            c'.kind ≠ .createService ∧ c'.kind ≠ .startMapping) := by
  cases happ : config.ContainersMap hash with
  | none => simp [createK8sPod, happ]
  | some hatchApp =>
  cases hb : buildPod validQuantity config hatchApp userName with
  | panicked m => simp [createK8sPod, happ, hb]
  | returned r =>
  obtain ⟨built, err⟩ := r
  have herr := (buildPod_shape validQuantity config hatchApp userName built err hb).1
  subst herr
  have hclaimkind : ∀ c ∈ (createK8sPodClaim validQuantity backend config hatchApp built
      userName).1, c.kind = .getPVC ∨ c.kind = .createPVC := by
    intro c hc
    rcases createK8sPodClaim_calls validQuantity backend config hatchApp built userName c hc
      with h | ⟨pvc, h, _⟩
    · rw [h]; exact Or.inl rfl
    · rw [h]; exact Or.inr rfl
  have hsvc := createK8sPodService_kinds backend config hatchApp userName
  have hclaimfail := createK8sPodClaim_failure validQuantity backend config hatchApp built
    userName
  rw [createK8sPod_of_built validQuantity backend config hash accessToken userName hatchApp
    built happ hb]
  generalize hA : (createK8sPodClaim validQuantity backend config hatchApp built userName).1
    = claimCalls at hclaimkind hclaimfail ⊢
  cases hclaim : (createK8sPodClaim validQuantity backend config hatchApp built userName).2 with
  | some early =>
    rw [hclaim] at hclaimfail
    simp only
    refine ⟨?_, ?_, ?_, ?_⟩
    · intro c hc
      rcases hclaimkind c hc with h | h <;> simp [h]
    · intro c hc e hk he
      have hk' : c.kind = .createPVC := by
        rcases hclaimkind c hc with h | h
        · rw [h] at hk; simp at hk
        · exact h
      obtain ⟨h1, h2⟩ := hclaimfail c e hc hk' he
      simp only [Option.some.injEq] at h1
      exact ⟨h1, h2⟩
    · intro c hc hk
      rcases hclaimkind c hc with h | h <;> (rw [h] at hk; simp at hk)
    · intro _ _ pod hpod
      rcases hclaimkind _ hpod with h | h <;> simp [Call.kind] at h
  | none =>
    rw [hclaim] at hclaimfail
    have hnofail : ∀ c ∈ claimCalls, ∀ e, backend c = some e → c.kind ≠ .createPVC := by
      intro c hc e he hk
      have := (hclaimfail c e hc hk he).1
      simp at this
    cases hpod : backend (.createPod config.Config.UserNamespace built) with
    | some e0 =>
      simp only
      refine ⟨?_, ?_, ?_, ?_⟩
      · intro c hc
        rcases List.mem_append.mp hc with h | h
        · rcases hclaimkind c h with h | h <;> simp [h]
        · simp only [List.mem_singleton] at h
          simp [h, Call.kind]
      · intro c hc e hk he
        rcases List.mem_append.mp hc with h | h
        · exfalso
          rcases hclaimkind c h with h' | h'
          · rw [h'] at hk; simp at hk
          · exact hnofail c h e he h'
        · simp only [List.mem_singleton] at h
          subst h
          rw [hpod] at he
          simp only [Option.some.injEq] at he
          subst he
          exact ⟨rfl, _, rfl⟩
      · intro c hc hk
        rcases List.mem_append.mp hc with h | h
        · rcases hclaimkind c h with h | h <;> (rw [h] at hk; simp at hk)
        · simp only [List.mem_singleton] at h
          rw [h] at hk; simp [Call.kind] at hk
      · intro _ _ pod hmem hok
        rcases List.mem_append.mp hmem with h | h
        · rcases hclaimkind _ h with h | h <;> simp [Call.kind] at h
        · simp only [List.mem_singleton, Call.createPod.injEq, true_and] at h
          rw [h, hpod] at hok
          simp at hok
    | none =>
      simp only
      have hmem : ∀ c, c ∈ claimCalls ++ [Call.createPod config.Config.UserNamespace built]
          ++ (createK8sPodService backend config hatchApp userName).2 ↔
          c ∈ claimCalls ∨ c = Call.createPod config.Config.UserNamespace built ∨
            c ∈ (createK8sPodService backend config hatchApp userName).2 := by
        intro c
        simp [or_assoc]
      refine ⟨?_, ?_, ?_, ?_⟩
      · intro c hc
        rcases (hmem c).mp hc with h | h | h
        · rcases hclaimkind c h with h | h <;> simp [h]
        · simp [h, Call.kind]
        · rcases hsvc c h with h | h | h | h <;> simp [h]
      · intro c hc e hk he
        rcases (hmem c).mp hc with h | h | h
        · exfalso
          rcases hclaimkind c h with h' | h'
          · rw [h'] at hk; simp at hk
          · exact hnofail c h e he h'
        · rw [h, hpod] at he; simp at he
        · have hk' : c.kind = .startMapping ∨ c.kind = .createService := by
            rcases hsvc c h with h' | h' | h' | h'
            · rw [h'] at hk; simp at hk
            · rw [h'] at hk; simp at hk
            · exact Or.inl h'
            · exact Or.inr h'
          obtain ⟨h1, ⟨before, h2⟩, _⟩ :=
            createK8sPodService_failure backend config hatchApp userName c e h hk' he
          refine ⟨by rw [h1], claimCalls ++ [.createPod config.Config.UserNamespace built]
            ++ before, ?_⟩
          rw [h2]
          simp
      · intro c hc hk hfail
        rcases (hmem c).mp hc with h | h | h
        · rcases hclaimkind c h with h | h <;> (rw [h] at hk; simp at hk)
        · rw [h] at hk; simp [Call.kind] at hk
        · obtain ⟨e, he⟩ := Option.ne_none_iff_exists'.mp hfail
          obtain ⟨_, _, h3⟩ :=
            createK8sPodService_failure backend config hatchApp userName c e h (Or.inl hk) he
          refine ⟨⟨built, (hmem _).mpr (Or.inr (Or.inl rfl)), hpod⟩, ?_⟩
          intro c' hc'
          rcases (hmem c').mp hc' with h' | h' | h'
          · rcases hclaimkind c' h' with h' | h' <;> simp [h']
          · simp [h', Call.kind]
          · exact h3 hk c' h'
      · intro h2 h1 pod _ _
        obtain ⟨hres, hcalls⟩ :=
          createK8sPodService_no_mapper backend config hatchApp userName h2 h1
        refine ⟨by rw [hres], ?_⟩
        intro c' hc'
        rcases (hmem c').mp hc' with h' | h' | h'
        · rcases hclaimkind c' h' with h' | h' <;> simp [h']
        · simp [h', Call.kind]
        · exact hcalls c' h'

/-- C16 on the sample configuration: a failing mapping returns its error after
the pod `Create`, with no service `Create`; without a mapper the error is
`Service mapper not found`. -/
theorem createK8sPod_failure_no_rollback_witness :
    createK8sPod sampleQuantities (failingOn [.startMapping]) (sampleConfig "10Gi" true)
        "notebook" "token" "alice" =
      (.returned (some "backend failure"),
       (createK8sPod sampleQuantities (failingOn [.startMapping]) (sampleConfig "10Gi" true)
          "notebook" "token" "alice").2) ∧
    (createK8sPod sampleQuantities (failingOn [.startMapping]) (sampleConfig "10Gi" true)
        "notebook" "token" "alice").2.map Call.kind =
      [.getPVC, .createPod, .getService, .deleteService, .startMapping] ∧
    (createK8sPod sampleQuantities (failingOn []) (sampleConfig "10Gi" false)
        "notebook" "token" "alice").1 = .returned (some "Service mapper not found") ∧
    (∀ c ∈ (createK8sPod sampleQuantities (failingOn []) (sampleConfig "10Gi" false)
        "notebook" "token" "alice").2, c.kind ≠ .deletePod ∧ c.kind ≠ .deletePVC) :=
  ⟨by decide, by decide, by decide,
   (createK8sPod_failure_no_rollback sampleQuantities (failingOn [])
      (sampleConfig "10Gi" false) "notebook" "token" "alice").1⟩

/-- Every service `Create` of the create operation submits the service built by
`buildService`, in the user namespace, after a successful pod `Create` of the
pod built by `buildPod`. -/
theorem createK8sPod_createService_mem (validQuantity : String → Bool) (backend : Backend)
    (config : FullHatcheryConfig) (hash accessToken userName : String)
    (ns : String) (service : k8sv1.Service)
    (hmem : .createService ns service ∈
      (createK8sPod validQuantity backend config hash accessToken userName).2) :
    ∃ hatchApp pod, config.ContainersMap hash = some hatchApp ∧
      buildPod validQuantity config hatchApp userName = .returned (pod, none) ∧
      ns = config.Config.UserNamespace ∧
      service = buildService config hatchApp userName ∧
      .createPod config.Config.UserNamespace pod ∈
        (createK8sPod validQuantity backend config hash accessToken userName).2 ∧
      backend (.createPod config.Config.UserNamespace pod) = none := by
  obtain ⟨hatchApp, pod, happ, hb⟩ :=
    createK8sPod_calls_of_mem validQuantity backend config hash accessToken userName _ hmem
  refine ⟨hatchApp, pod, happ, hb, ?_⟩
  rw [createK8sPod_trace validQuantity backend config hash accessToken userName hatchApp pod
    happ hb] at hmem ⊢
  rcases List.mem_append.mp hmem with h | h
  · rcases createK8sPodClaim_calls validQuantity backend config hatchApp pod userName _ h
      with h | ⟨_, h, _⟩ <;> simp at h
  · cases hclaim : (createK8sPodClaim validQuantity backend config hatchApp pod userName).2
      with
    | some early => simp [hclaim] at h
    | none =>
      cases hpod : backend (.createPod config.Config.UserNamespace pod) with
      | some e => simp [hclaim, hpod] at h
      | none =>
        simp only [hclaim, hpod, Option.isSome_none, Bool.false_eq_true, if_false,
          List.mem_cons] at h ⊢
        rcases h with h | h
        · simp at h
        · rw [createK8sPodService_eq] at h
          simp only [List.mem_cons, List.mem_append] at h
          rcases h with h | h | h | h
          · simp at h
          · have := orphanCleanup_kinds _ _ _ _ h
            simp [Call.kind] at this
          · have := setupServiceMapping_calls _ _ _ _ _ _ _ h
            simp [Call.kind] at this
          · have := (serviceSubmit_kinds _ _ _ _ _ _ h).1
            simp only [Call.createService.injEq] at this
            exact ⟨this.1, this.2, by simp, trivial⟩

/-- C19. Every service that the create operation submits is of type ClusterIP,
is named `userToResourceName(user, "service")`, has exactly one port, which
forwards port 80 to the application's target port, and its selector is the
label set `app: <pod name>` that `buildPod` puts on the user's pod; that pod
was created just before. -/
theorem createK8sPod_service (validQuantity : String → Bool) (backend : Backend)
    (config : FullHatcheryConfig) (hash accessToken userName : String)
    (ns : String) (service : k8sv1.Service)
    (hmem : .createService ns service ∈
      (createK8sPod validQuantity backend config hash accessToken userName).2) :
    ∃ hatchApp pod, config.ContainersMap hash = some hatchApp ∧
      buildPod validQuantity config hatchApp userName = .returned (pod, none) ∧
      .createPod config.Config.UserNamespace pod ∈
        (createK8sPod validQuantity backend config hash accessToken userName).2 ∧
      ns = config.Config.UserNamespace ∧
      service.Spec.Type_ = "ClusterIP" ∧
      service.ObjectMeta.Name = userToResourceName userName "service" ∧
      (∃ port, service.Spec.Ports = [port] ∧ port.Port = 80 ∧
        port.TargetPort = hatchApp.TargetPort) ∧
      service.Spec.Selector = [("app", pod.ObjectMeta.Name)] ∧
      pod.ObjectMeta.Labels = service.Spec.Selector := by
  obtain ⟨hatchApp, pod, happ, hb, hns, hsvc, hpod, _⟩ :=
    createK8sPod_createService_mem validQuantity backend config hash accessToken userName
      ns service hmem
  obtain ⟨_, hname, hlabels, _, _⟩ :=
    buildPod_shape validQuantity config hatchApp userName pod none hb
  refine ⟨hatchApp, pod, happ, hb, hpod, hns, ?_, ?_, ?_, ?_, ?_⟩
  · rw [hsvc]; rfl
  · rw [hsvc]; rfl
  · rw [hsvc]; exact ⟨_, rfl, rfl, rfl⟩
  · rw [hsvc, hname]; rfl
  · rw [hsvc, hlabels]; rfl

/-- C19 on the sample configuration, where every call succeeds: the service
`h-alice-s` is submitted, with port 80 forwarded to 8888 and the selector
`app: hatchery-alice`. -/
theorem createK8sPod_service_witness :
    ∃ hatchApp pod, (sampleConfig "10Gi" true).ContainersMap "notebook" = some hatchApp ∧
      buildPod sampleQuantities (sampleConfig "10Gi" true) hatchApp "alice"
        = .returned (pod, none) ∧
      .createPod "jupyter-pods" pod ∈
        (createK8sPod sampleQuantities (failingOn []) (sampleConfig "10Gi" true)
          "notebook" "token" "alice").2 ∧
      "jupyter-pods" = "jupyter-pods" ∧
      "ClusterIP" = "ClusterIP" ∧
      "h-alice-s" = userToResourceName "alice" "service" ∧
      (∃ port : k8sv1.ServicePort,
        [{ Name := "hatchery-alice", Protocol := "TCP", Port := 80, TargetPort := 8888 }]
          = [port] ∧ port.Port = 80 ∧ port.TargetPort = hatchApp.TargetPort) ∧
      [("app", "hatchery-alice")] = [("app", pod.ObjectMeta.Name)] ∧
      pod.ObjectMeta.Labels = [("app", "hatchery-alice")] :=
  createK8sPod_service sampleQuantities (failingOn []) (sampleConfig "10Gi" true)
    "notebook" "token" "alice" "jupyter-pods"
    { ObjectMeta := { Name := "h-alice-s", Namespace := "jupyter-pods",
                      Labels := [("app", "hatchery-alice")], Annotations := [] },
      Spec := { Type_ := "ClusterIP", Selector := [("app", "hatchery-alice")],
                Ports := [{ Name := "hatchery-alice", Protocol := "TCP", Port := 80,
                            TargetPort := 8888 }] } }
    (by decide)

/-- C20. The pod that `buildPod` returns is named
`userToResourceName(user, "pod")`. The status engine looks the pod up under
that name: its result is the classification of that lookup, `Not Found` when
the lookup fails and the status of the pod found otherwise, so it is `Not
Found` exactly when that lookup fails, and clusters with the same answer to
that lookup have the same status. The delete operation starts with the lookup
of that pod and its calls are the lookup and the delete of that pod and the
lookup and the delete of the service named
`userToResourceName(user, "service")`; and every service that the create
operation submits has that service name. -/
theorem resource_names_agree (validQuantity : String → Bool) (config : FullHatcheryConfig)
    (hatchApp : Container) (userName : String) :
    (∀ pod err, buildPod validQuantity config hatchApp userName = .returned (pod, err) →
      pod.ObjectMeta.Name = userToResourceName userName "pod") ∧
    (∀ (σ : Type) (cluster : Cluster σ) (ns : String),
      (∀ e, cluster.getPod ns (userToResourceName userName "pod") = .error e →
        statusK8sPod cluster ns userName =
          ({ Status := "Not Found", Conditions := [], ContainerStates := [] }, none)) ∧
      (∀ pod, cluster.getPod ns (userToResourceName userName "pod") = .ok pod →
        statusK8sPod cluster ns userName =
          if pod.DeletionTimestamp.isSome then
            ({ Status := "Terminating", Conditions := [], ContainerStates := [] }, none)
          else if pod.Status.Phase = "Failed" ∨ pod.Status.Phase = "Succeeded"
              ∨ pod.Status.Phase = "Unknown" then
            ({ Status := "Stopped", Conditions := [], ContainerStates := [] }, none)
          else if pod.Status.Phase = "Pending" ∨ pod.Status.Phase = "Running" then
            if checkPodReadiness pod = true then
              ({ Status := "Running", Conditions := [], ContainerStates := [] }, none)
            else
              ({ Status := "Launching",
                 Conditions := pod.Status.Conditions.map toPodConditions,
                 ContainerStates := pod.Status.ContainerStatuses.map toContainerStates },
               none)
          else
            ({ Status := "", Conditions := [], ContainerStates := [] }, none)) ∧
      ((statusK8sPod cluster ns userName).1.Status = "Not Found" ↔
        ∃ e, cluster.getPod ns (userToResourceName userName "pod") = .error e)) ∧
    (∀ (σ : Type) (cluster other : Cluster σ) (ns : String),
      other.getPod ns (userToResourceName userName "pod") =
        cluster.getPod ns (userToResourceName userName "pod") →
      statusK8sPod other ns userName = statusK8sPod cluster ns userName) ∧
    (∀ (backend : Backend) (ns : String),
      (deleteK8sPod backend ns userName).2.head? =
        some (.getPod ns (userToResourceName userName "pod")) ∧
      ∀ c ∈ (deleteK8sPod backend ns userName).2,
        c = .getPod ns (userToResourceName userName "pod") ∨
        c = .deletePod ns (userToResourceName userName "pod")
          { PropagationPolicy := some "Background", GracePeriodSeconds := some 20 } ∨
        c = .getService ns (userToResourceName userName "service") ∨
        c = .deleteService ns (userToResourceName userName "service")
          { PropagationPolicy := some "Background", GracePeriodSeconds := some 20 }) ∧
    (∀ (backend : Backend) (hash accessToken ns : String) (service : k8sv1.Service),
      .createService ns service ∈
          (createK8sPod validQuantity backend config hash accessToken userName).2 →
        service.ObjectMeta.Name = userToResourceName userName "service") := by
  have hpodname : userToResourceName userName "pod" = "hatchery-" ++ escapism userName := rfl
  have hsvcname : userToResourceName userName "service" = "h-" ++ escapism userName ++ "-s" :=
    rfl
  refine ⟨?_, ?_, ?_, ?_, ?_⟩
  · intro pod err h
    exact (buildPod_shape validQuantity config hatchApp userName pod err h).2.1
  · intro σ cluster ns
    rw [hpodname]
    refine ⟨fun e he => statusK8sPod_of_error cluster ns userName e he,
      fun pod hp => statusK8sPod_of_ok cluster ns userName pod hp, ?_⟩
    rcases getPod_cases cluster ns ("hatchery-" ++ escapism userName) with ⟨e, he⟩ | ⟨p, hp⟩
    · rw [statusK8sPod_of_error cluster ns userName e he]
      exact ⟨fun _ => ⟨e, he⟩, fun _ => rfl⟩
    · rw [statusK8sPod_of_ok cluster ns userName p hp]
      constructor
      · intro h
        exfalso
        split_ifs at h <;> simp at h
      · rintro ⟨e, he⟩
        rw [hp] at he
        cases he
  · intro σ cluster other ns h
    rw [hpodname] at h
    rcases getPod_cases cluster ns ("hatchery-" ++ escapism userName) with ⟨e, he⟩ | ⟨p, hp⟩
    · rw [statusK8sPod_of_error cluster ns userName e he,
        statusK8sPod_of_error other ns userName e (h.trans he)]
    · rw [statusK8sPod_of_ok cluster ns userName p hp,
        statusK8sPod_of_ok other ns userName p (h.trans hp)]
  · intro backend ns
    rw [hpodname, hsvcname]
    cases hp : backend (.getPod ns ("hatchery-" ++ escapism userName)) with
    | some e => simp [deleteK8sPod, hp]
    | none =>
      cases hs : backend (.getService ns ("h-" ++ escapism userName ++ "-s")) with
      | some e => simp [deleteK8sPod, hp, hs]
      | none => simp [deleteK8sPod, hp, hs]
  · intro backend hash accessToken ns service hmem
    obtain ⟨app, pod, _, _, _, hsvc, _⟩ :=
      createK8sPod_createService_mem validQuantity backend config hash accessToken userName
        ns service hmem
    rw [hsvc]
    rfl

/-- C20 for user `alice`: the built pod and the pod that the delete operation
looks up are both `hatchery-alice`; with a pod stored under `hatchery-alice`
only, the status of `alice` is that of the pod and the status of `bob` is `Not
Found`; and the service that is created and the service that is deleted are
both `h-alice-s`. -/
theorem resource_names_agree_witness :
    (∀ pod err, buildPod sampleQuantities (sampleConfig "10Gi" true) notebookApp "alice"
        = .returned (pod, err) → pod.ObjectMeta.Name = "hatchery-alice") ∧
    statusK8sPod (aliceCluster (some (mkPod (some 7) "Running" [])) none) "jupyter-pods" "alice"
      = ({ Status := "Terminating", Conditions := [], ContainerStates := [] }, none) ∧
    statusK8sPod (aliceCluster (some (mkPod (some 7) "Running" [])) none) "jupyter-pods" "bob"
      = ({ Status := "Not Found", Conditions := [], ContainerStates := [] }, none) ∧
    (deleteK8sPod (failingOn []) "jupyter-pods" "alice").2.head? =
      some (.getPod "jupyter-pods" "hatchery-alice") ∧
    (createK8sPod sampleQuantities (failingOn []) (sampleConfig "10Gi" true)
        "notebook" "token" "alice").2.getLast? =
      some (.createService "jupyter-pods"
        (buildService (sampleConfig "10Gi" true) notebookApp "alice")) ∧
    (buildService (sampleConfig "10Gi" true) notebookApp "alice").ObjectMeta.Name
      = "h-alice-s" :=
  ⟨(resource_names_agree sampleQuantities (sampleConfig "10Gi" true) notebookApp "alice").1,
   ((resource_names_agree sampleQuantities (sampleConfig "10Gi" true) notebookApp
      "alice").2.1 String (aliceCluster (some (mkPod (some 7) "Running" [])) none)
      "jupyter-pods").2.1 (mkPod (some 7) "Running" []) rfl,
   ((resource_names_agree sampleQuantities (sampleConfig "10Gi" true) notebookApp
      "bob").2.1 String (aliceCluster (some (mkPod (some 7) "Running" [])) none)
      "jupyter-pods").1 "pods \"hatchery-bob\" not found" rfl,
   ((resource_names_agree sampleQuantities (sampleConfig "10Gi" true) notebookApp
      "alice").2.2.2.1 (failingOn []) "jupyter-pods").1,
   by decide, by decide⟩

/-! ## Claims on `deleteK8sPod` partial failure and on license ids -/

/-- C28. The delete operation is not atomic on failure: when the pod lookup
fails it returns an error and issues no `Delete` at all; when the pod lookup
succeeds and the service lookup fails it returns an error after the calls pod
lookup, pod `Delete` (background propagation, grace period 20 seconds) and
service lookup, so the pod `Delete` is already issued and no service `Delete`
is. -/
theorem deleteK8sPod_not_atomic (backend : Backend) (ns user : String) :
    (backend (.getPod ns ("hatchery-" ++ escapism user)) ≠ none →
      (deleteK8sPod backend ns user).1 ≠ none ∧
      ∀ c ∈ (deleteK8sPod backend ns user).2,
        c.kind ≠ .deletePod ∧ c.kind ≠ .deleteService) ∧
    (backend (.getPod ns ("hatchery-" ++ escapism user)) = none →
      backend (.getService ns ("h-" ++ escapism user ++ "-s")) ≠ none →
      (deleteK8sPod backend ns user).1 ≠ none ∧
      (deleteK8sPod backend ns user).2 =
        [.getPod ns ("hatchery-" ++ escapism user),
         .deletePod ns ("hatchery-" ++ escapism user)
           { PropagationPolicy := some "Background", GracePeriodSeconds := some 20 },
         .getService ns ("h-" ++ escapism user ++ "-s")]) := by
  constructor
  · intro hp
    cases hp' : backend (.getPod ns ("hatchery-" ++ escapism user)) with
    | none => exact absurd hp' hp
    | some e => simp [deleteK8sPod, hp', Call.kind]
  · intro hp hs
    cases hs' : backend (.getService ns ("h-" ++ escapism user ++ "-s")) with
    | none => exact absurd hs' hs
    | some e => simp [deleteK8sPod, hp, hs']

/-- C28 for user `alice`: with the service lookup failing, the pod `Delete` is
issued and the service `Delete` is not. -/
theorem deleteK8sPod_not_atomic_witness :
    (deleteK8sPod (failingOn [.getService]) "jupyter-pods" "alice").1 ≠ none ∧
    (deleteK8sPod (failingOn [.getService]) "jupyter-pods" "alice").2 =
      [.getPod "jupyter-pods" "hatchery-alice",
       .deletePod "jupyter-pods" "hatchery-alice"
         { PropagationPolicy := some "Background", GracePeriodSeconds := some 20 },
       .getService "jupyter-pods" "h-alice-s"] :=
  (deleteK8sPod_not_atomic (failingOn [.getService]) "jupyter-pods" "alice").2
    (by decide) (by decide)

theorem idInUsedIds_iff (active : List Gen3UserLicense) (i : Int) :
    idInUsedIds active i = true ↔ ∃ v ∈ active, v.LicenseId = i := by
  simp only [idInUsedIds, List.any_eq_true, beq_iff_eq]
  constructor
  · rintro ⟨v, hv, h⟩; exact ⟨v, hv, h.symm⟩
  · rintro ⟨v, hv, h⟩; exact ⟨v, hv, h.symm⟩

/-- The outer loop started at `i ≥ 1` with `remaining` iterations: it returns 0
when every id from `i` to `i + remaining - 1` is in use, and otherwise the
least id in that range that is not in use. -/
theorem nextLicenseLoop_spec (active : List Gen3UserLicense) :
    ∀ (remaining : Nat) (i : Int), 1 ≤ i →
      (nextLicenseLoop active remaining i = 0 ∧
        ∀ j, i ≤ j → j < i + remaining → idInUsedIds active j = true) ∨
      (i ≤ nextLicenseLoop active remaining i ∧
        nextLicenseLoop active remaining i < i + remaining ∧
        idInUsedIds active (nextLicenseLoop active remaining i) = false ∧
        ∀ j, i ≤ j → j < nextLicenseLoop active remaining i →
          idInUsedIds active j = true) := by
  intro remaining
  induction remaining with
  | zero =>
    intro i _
    left
    refine ⟨rfl, ?_⟩
    intro j h1 h2
    simp at h2
    omega
  | succ n ih =>
    intro i hi
    unfold nextLicenseLoop
    cases hu : idInUsedIds active i with
    | false =>
      right
      simp only [Bool.not_false, if_true]
      refine ⟨le_refl _, by push_cast; omega, hu, ?_⟩
      intro j h1 h2
      omega
    | true =>
      simp only [Bool.not_true, Bool.false_eq_true, if_false]
      rcases ih (i + 1) (by omega) with ⟨h0, hall⟩ | ⟨h1, h2, h3, h4⟩
      · left
        refine ⟨h0, ?_⟩
        intro j hj1 hj2
        by_cases hji : j = i
        · rw [hji]; exact hu
        · exact hall j (by omega) (by push_cast at hj2 ⊢; omega)
      · right
        refine ⟨by omega, by push_cast at h2 ⊢; omega, h3, ?_⟩
        intro j hj1 hj2
        by_cases hji : j = i
        · rw [hji]; exact hu
        · exact h4 j (by omega) hj2

/-- C26, the failing input. With no active license and `maxLicenseIds` equal to
0 (or negative) the range 1..maxLicenseIds is empty, so no id is available,
yet the code returns 1, which is neither 0 nor an id of the range. -/
theorem getNextLicenseId_empty_nonpositive :
    getNextLicenseId [] 0 = 1 ∧ getNextLicenseId [] (-3) = 1 ∧
    (∀ i : Int, 1 ≤ i → i ≤ 0 → ∃ v ∈ ([] : List Gen3UserLicense), v.LicenseId = i) := by
  refine ⟨by decide, by decide, ?_⟩
  intro i h1 h0
  omega

/-- C30. For `maxLicenseIds ≥ 1`, a non-zero result `n` of `getNextLicenseId` is
in 1..maxLicenseIds, is not the `LicenseId` of any active license, and every id
in 1..n-1 is the `LicenseId` of some active license. -/
theorem getNextLicenseId_smallest_free (active : List Gen3UserLicense) (maxLicenseIds : Int)
    (hmax : 1 ≤ maxLicenseIds) (hne : getNextLicenseId active maxLicenseIds ≠ 0) :
    1 ≤ getNextLicenseId active maxLicenseIds ∧
    getNextLicenseId active maxLicenseIds ≤ maxLicenseIds ∧
    (∀ v ∈ active, v.LicenseId ≠ getNextLicenseId active maxLicenseIds) ∧
    (∀ i : Int, 1 ≤ i → i < getNextLicenseId active maxLicenseIds →
      ∃ v ∈ active, v.LicenseId = i) := by
  unfold getNextLicenseId at hne ⊢
  by_cases hlen : active.length = 0
  · have hnil : active = [] := List.length_eq_zero.mp hlen
    subst hnil
    simp only [List.length_nil, if_true]
    refine ⟨le_refl _, hmax, by simp, ?_⟩
    intro i h1 h2
    omega
  · rw [if_neg hlen] at hne ⊢
    have hnat : ((maxLicenseIds.toNat : Nat) : Int) = maxLicenseIds :=
      Int.toNat_of_nonneg (by omega)
    rcases nextLicenseLoop_spec active maxLicenseIds.toNat 1 (le_refl _) with
      ⟨h0, _⟩ | ⟨h1, h2, h3, h4⟩
    · exact absurd h0 hne
    · refine ⟨h1, by omega, ?_, ?_⟩
      · intro v hv heq
        have : idInUsedIds active (nextLicenseLoop active maxLicenseIds.toNat 1) = true :=
          (idInUsedIds_iff _ _).mpr ⟨v, hv, heq⟩
        rw [h3] at this
        exact Bool.false_ne_true this
      · intro i hi1 hi2
        exact (idInUsedIds_iff _ _).mp (h4 i hi1 hi2)

/-- C30 with licenses 1, 2 and 4 active and six ids: the next id is 3. -/
theorem getNextLicenseId_smallest_free_witness :
    getNextLicenseId [licenseWithId 2, licenseWithId 1, licenseWithId 4] 6 = 3 ∧
    (∀ v ∈ [licenseWithId 2, licenseWithId 1, licenseWithId 4],
      v.LicenseId ≠ getNextLicenseId [licenseWithId 2, licenseWithId 1, licenseWithId 4] 6) :=
  ⟨by decide,
   (getNextLicenseId_smallest_free [licenseWithId 2, licenseWithId 1, licenseWithId 4] 6
      (by decide) (by decide)).2.2.1⟩

/-! ## Claims on compose models: root service and sub-paths -/

/-- C23, the failing input. In `twoRootsCompose` both services map the magic
port, yet `Sanitize` returns no error: it keeps the first such service that the
loop visits as root service and never counts them. -/
theorem Sanitize_accepts_two_magic_ports :
    (twoRootsCompose.Services.filter (fun entry =>
        entry.2.Ports.any (fun portMap => stringsHasPrefix portMap (magicPort ++ ":")))).length
      = 2 ∧
    (ComposeFull.Sanitize asciiToLower twoRootsCompose).2 = none ∧
    (ComposeFull.Sanitize asciiToLower twoRootsCompose).1.RootService = "web" := by
  decide

/-- C25, the failing input. For the volume entry made of the user-volume
prefix, the path `data` and the destination `/mnt`, the mount that
`ToK8sContainer` produces has sub-path `ata`: the slice drops the character
after the prefix whether or not it is a slash. -/
theorem ToK8sContainer_drops_first_path_character :
    relativePathService.Volumes = [userVolumePrefix ++ "data" ++ ":" ++ "/mnt"] ∧
    ∃ friend, relativePathService.ToK8sContainer composeQuantities zeroContainer
        = .returned (friend, true, none) ∧
      friend.VolumeMounts = [{ Name := "user-data", MountPath := "/mnt", SubPath := "ata",
                               ReadOnly := false, MountPropagation := none }] := by
  refine ⟨by decide, _, rfl, rfl⟩

/-! ## Claims on launch and terminate dispatch -/

/-- The response of `launch` after a synchronous create. -/
theorem launch_respond_cases (result : Dispatch → Option String) (call : Dispatch) :
    (match result call with
      | some err => (({ code := 500, body := err } : Response), [call])
      | none => ({ code := 200, body := "Success" }, [call])).2 = [call] := by
  cases result call <;> rfl

/-- C21, the counterexample. For a current pay model that is both `Local` and
`Ecs` the Local step comes first: with status `active` the local create is the
collaborator invoked and the response is `Success`, not `Launch accepted`; with
another status the request is not rejected, the local create is invoked as
well. -/
theorem launch_local_before_ecs :
    launch allSucceed
        (some { CurrentPayModel := some (payModelWith true true "active"), PayModels := [] })
        aliceLaunch
      = ({ code := 200, body := "Success" }, [.createLocalK8sPod "foo" "alice" "token"]) ∧
    launch allSucceed
        (some { CurrentPayModel := some (payModelWith true true "pending"), PayModels := [] })
        aliceLaunch
      = ({ code := 200, body := "Success" }, [.createLocalK8sPod "foo" "alice" "token"]) := by
  decide

/-- C21, amended. Launch dispatch for a POST request with an id and a user.
Without pay models the local create is the only collaborator invoked; with a
current pay model that is `Local`, likewise; with a current pay model that is
not `Local` and is `Ecs`, status `active` gives the response `Launch accepted`
and the ECS launch as only collaborator, any other status gives the rejection
and no collaborator at all; with a current pay model that is neither, the
external create is the only collaborator invoked. -/
theorem launch_dispatch (result : Dispatch → Option String) (r : Request)
    (hpost : r.Method = "POST") (hid : r.id ≠ "") (huser : r.userName ≠ "") :
    (launch result none r).2 = [.createLocalK8sPod r.id r.userName r.accessToken] ∧
    (∀ allPayModels payModel, allPayModels.CurrentPayModel = some payModel →
      payModel.Local = true →
      (launch result (some allPayModels) r).2
        = [.createLocalK8sPod r.id r.userName r.accessToken]) ∧
    (∀ allPayModels payModel, allPayModels.CurrentPayModel = some payModel →
      payModel.Local = false → payModel.Ecs = true → payModel.Status = "active" →
      launch result (some allPayModels) r
        = ({ code := 200, body := "Launch accepted" },
           [.launchEcsWorkspaceWrapper r.userName r.id r.accessToken payModel])) ∧
    (∀ allPayModels payModel, allPayModels.CurrentPayModel = some payModel →
      payModel.Local = false → payModel.Ecs = true → payModel.Status ≠ "active" →
      launch result (some allPayModels) r
        = ({ code := 500, body := "Paymodel is not active. Launch forbidden" }, [])) ∧
    (∀ allPayModels payModel, allPayModels.CurrentPayModel = some payModel →
      payModel.Local = false → payModel.Ecs = false →
      (launch result (some allPayModels) r).2
        = [.createExternalK8sPod r.id r.userName r.accessToken payModel]) := by
  refine ⟨?_, ?_, ?_, ?_, ?_⟩
  · simp only [launch, hpost, hid, huser, ne_eq, not_true_eq_false, if_false]
    exact launch_respond_cases result _
  · intro allPayModels payModel hcur hlocal
    simp only [launch, hpost, hid, huser, hcur, hlocal, ne_eq, not_true_eq_false, if_false,
      if_true]
    exact launch_respond_cases result _
  · intro allPayModels payModel hcur hlocal hecs hstatus
    simp [launch, hpost, hid, huser, hcur, hlocal, hecs, hstatus]
  · intro allPayModels payModel hcur hlocal hecs hstatus
    simp [launch, hpost, hid, huser, hcur, hlocal, hecs, hstatus]
  · intro allPayModels payModel hcur hlocal hecs
    simp only [launch, hpost, hid, huser, hcur, hlocal, hecs, ne_eq, not_true_eq_false,
      if_false, Bool.false_eq_true]
    exact launch_respond_cases result _

/-- C21, amended, for user `alice` and application `foo`: an inactive ECS pay model is
rejected with no collaborator invoked, an active one launches on ECS. -/
theorem launch_dispatch_witness :
    launch allSucceed
        (some { CurrentPayModel := some (payModelWith false true "pending"), PayModels := [] })
        aliceLaunch
      = ({ code := 500, body := "Paymodel is not active. Launch forbidden" }, []) ∧
    launch allSucceed
        (some { CurrentPayModel := some (payModelWith false true "active"), PayModels := [] })
        aliceLaunch
      = ({ code := 200, body := "Launch accepted" },
         [.launchEcsWorkspaceWrapper "alice" "foo" "token" (payModelWith false true "active")]) :=
  ⟨(launch_dispatch allSucceed aliceLaunch (by decide) (by decide) (by decide)).2.2.2.1
      { CurrentPayModel := some (payModelWith false true "pending"), PayModels := [] }
      (payModelWith false true "pending") rfl rfl rfl (by decide),
   (launch_dispatch allSucceed aliceLaunch (by decide) (by decide) (by decide)).2.2.1
      { CurrentPayModel := some (payModelWith false true "active"), PayModels := [] }
      (payModelWith false true "active") rfl rfl rfl rfl⟩

/-- The loop observed while no poll returns `Not Found`: polls only. -/
theorem reconcile_pending (statuses : Nat → String) (userName accessToken : String) :
    ∀ (polls start : Nat),
      (∀ n, start ≤ n → n < start + polls → statuses n ≠ "Not Found") →
      reconcile statuses userName accessToken polls start
        = List.replicate polls (.getWorkspaceStatus userName accessToken) := by
  intro polls
  induction polls with
  | zero => intro start _; rfl
  | succ polls ih =>
    intro start hall
    have h0 : statuses start ≠ "Not Found" := hall start (le_refl _) (by omega)
    simp only [reconcile, h0, if_false, List.replicate_succ]
    rw [ih (start + 1) (fun n h1 h2 => hall n (by omega) (by omega))]

/-- The loop observed up to a first `Not Found` at poll `k`: the polls up to
and including poll `k`, then one reset, then nothing. -/
theorem reconcile_gone (statuses : Nat → String) (userName accessToken : String) :
    ∀ (polls start k : Nat), start ≤ k → k < start + polls →
      statuses k = "Not Found" →
      (∀ n, start ≤ n → n < k → statuses n ≠ "Not Found") →
      reconcile statuses userName accessToken polls start
        = List.replicate (k - start + 1) (.getWorkspaceStatus userName accessToken)
            ++ [.resetCurrentPaymodel userName] := by
  intro polls
  induction polls with
  | zero => intro start k h1 h2; omega
  | succ polls ih =>
    intro start k h1 h2 hk hbefore
    by_cases hstart : statuses start = "Not Found"
    · have hks : k = start := by
        by_contra hne
        exact hbefore start (le_refl _) (by omega) hstart
      subst hks
      simp [reconcile, hstart]
    · have hlt : start < k := by
        rcases Nat.lt_or_ge start k with h | h
        · exact h
        · have : k = start := by omega
          rw [this] at hk
          exact absurd hk hstart
      simp only [reconcile, hstart, if_false]
      rw [ih (start + 1) k (by omega) (by omega) hk
        (fun n hn1 hn2 => hbefore n (by omega) hn2)]
      have : k - start + 1 = (k - (start + 1) + 1) + 1 := by omega
      rw [this, List.replicate_succ]
      rfl

/-- The loop resets at most once. -/
theorem reconcile_resetCount (statuses : Nat → String) (userName accessToken : String) :
    ∀ (polls start : Nat),
      resetCount (reconcile statuses userName accessToken polls start) ≤ 1 := by
  intro polls
  induction polls with
  | zero => intro start; simp [reconcile, resetCount]
  | succ polls ih =>
    intro start
    by_cases hstart : statuses start = "Not Found"
    · simp [reconcile, hstart, resetCount]
    · have := ih (start + 1)
      simp only [reconcile, hstart, if_false, resetCount] at this ⊢
      rw [List.countP_cons_of_neg]
      · exact this
      · simp

/-- C22, the counterexample. With a status sequence that never reports
`Not Found`, a terminate whose deletion succeeds is followed by polls only:
however long the run is observed, the pay model is reset zero times, not once. -/
theorem terminate_never_gone_no_reset :
    (terminate allSucceed none aliceLaunch).2.2 = true ∧
    ∀ polls, resetCount (terminateRun allSucceed none neverGone aliceLaunch polls).2 = 0 ∧
      pollCount (terminateRun allSucceed none neverGone aliceLaunch polls).2 = polls := by
  refine ⟨rfl, ?_⟩
  intro polls
  have h := reconcile_pending neverGone "alice" "token" polls 0
    (fun n _ _ => by simp [neverGone])
  have hrun : (terminateRun allSucceed none neverGone aliceLaunch polls).2
      = .deleteK8sPod "alice" "token" none
          :: List.replicate polls (.getWorkspaceStatus "alice" "token") := by
    rw [← h]; rfl
  rw [hrun]
  constructor
  · simp [resetCount, List.countP_replicate]
  · simp [pollCount, List.countP_replicate]

/-- C22, amended. For a POST terminate with a user, on either path: when the
deletion call fails it is the only collaborator invoked (no poll, no reset);
when it succeeds the run is the deletion call followed by the loop, which
resets at most once; while no poll so far has returned `Not Found` the loop has
polled only; and once poll `k` is the first to return `Not Found` the loop is
the polls up to `k` followed by exactly one reset. -/
theorem terminate_reset_after_not_found (result : Dispatch → Option String)
    (currentPayModel : Option PayModel) (statuses : Nat → String) (r : Request)
    (polls : Nat) (hpost : r.Method = "POST") (huser : r.userName ≠ "") :
    (result (terminateDispatch currentPayModel r.userName r.accessToken) ≠ none →
      (terminateRun result currentPayModel statuses r polls).1.code = 500 ∧
      (terminateRun result currentPayModel statuses r polls).2
        = [terminateDispatch currentPayModel r.userName r.accessToken]) ∧
    (result (terminateDispatch currentPayModel r.userName r.accessToken) = none →
      (terminateRun result currentPayModel statuses r polls).1.code = 200 ∧
      (terminateRun result currentPayModel statuses r polls).2
        = terminateDispatch currentPayModel r.userName r.accessToken
            :: reconcile statuses r.userName r.accessToken polls 0 ∧
      resetCount (reconcile statuses r.userName r.accessToken polls 0) ≤ 1 ∧
      ((∀ n, n < polls → statuses n ≠ "Not Found") →
        reconcile statuses r.userName r.accessToken polls 0
          = List.replicate polls (.getWorkspaceStatus r.userName r.accessToken)) ∧
      (∀ k, k < polls → statuses k = "Not Found" →
        (∀ n, n < k → statuses n ≠ "Not Found") →
        reconcile statuses r.userName r.accessToken polls 0
          = List.replicate (k + 1) (.getWorkspaceStatus r.userName r.accessToken)
              ++ [.resetCurrentPaymodel r.userName])) := by
  constructor
  · intro hfail
    cases hres : result (terminateDispatch currentPayModel r.userName r.accessToken) with
    | none => exact absurd hres hfail
    | some err => simp [terminateRun, terminate, hpost, huser, hres]
  · intro hok
    refine ⟨?_, ?_, reconcile_resetCount _ _ _ _ _, ?_, ?_⟩
    · simp [terminateRun, terminate, hpost, huser, hok]
    · simp [terminateRun, terminate, hpost, huser, hok]
    · intro hall
      exact reconcile_pending _ _ _ _ _ (fun n _ h2 => hall n (by omega))
    · intro k hk hgone hbefore
      have := reconcile_gone statuses r.userName r.accessToken polls 0 k (Nat.zero_le _)
        (by omega) hgone (fun n _ h2 => hbefore n h2)
      simpa using this

/-- C22 for the status sequence Terminating, Terminating, Not Found: the run of
a Kubernetes terminate is the delete, three polls and one reset. -/
theorem terminate_reset_after_not_found_witness :
    (terminateRun allSucceed none slowTermination aliceLaunch 5).2
      = [.deleteK8sPod "alice" "token" none,
         .getWorkspaceStatus "alice" "token", .getWorkspaceStatus "alice" "token",
         .getWorkspaceStatus "alice" "token", .resetCurrentPaymodel "alice"] ∧
    reconcile slowTermination "alice" "token" 5 0
      = List.replicate 3 (.getWorkspaceStatus "alice" "token")
          ++ [.resetCurrentPaymodel "alice"] :=
  ⟨by decide,
   (terminate_reset_after_not_found allSucceed none slowTermination aliceLaunch 5
      (by decide) (by decide)).2 rfl |>.2.2.2.2 2 (by decide) (by decide)
        (by decide)⟩

/-! ## Splitting and prefixes -/

theorem cutAtFirst_some (sep : Char) :
    ∀ (l before after : List Char), cutAtFirst sep l = some (before, after) →
      l = before ++ sep :: after ∧ sep ∉ before := by
  intro l
  induction l with
  | nil => intro before after h; simp [cutAtFirst] at h
  | cons c rest ih =>
    intro before after h
    unfold cutAtFirst at h
    by_cases hc : c = sep
    · simp only [hc, if_true, Option.some.injEq, Prod.mk.injEq] at h
      obtain ⟨h1, h2⟩ := h
      subst h1; subst h2
      simp [hc]
    · simp only [hc, if_false] at h
      cases hrest : cutAtFirst sep rest with
      | none => simp [hrest] at h
      | some pair =>
        obtain ⟨b, a⟩ := pair
        simp only [hrest, Option.some.injEq, Prod.mk.injEq] at h
        obtain ⟨h1, h2⟩ := h
        subst h1; subst h2
        obtain ⟨hl, hnot⟩ := ih b a hrest
        refine ⟨by rw [hl]; rfl, ?_⟩
        intro hmem
        rcases List.mem_cons.mp hmem with h | h
        · exact hc h.symm
        · exact hnot h

/-- The split has two parts exactly when the separator occurs; the parts are
then the text before and the text after its first occurrence. -/
theorem stringsSplitN2_two (s : String) (sep : Char)
    (h : (stringsSplitN2 s sep).length = 2) :
    ∃ before after : List Char, stringsSplitN2 s sep = [⟨before⟩, ⟨after⟩] ∧
      s.data = before ++ sep :: after ∧ sep ∉ before := by
  unfold stringsSplitN2 at h ⊢
  cases hcut : cutAtFirst sep s.data with
  | none => simp [hcut] at h
  | some pair =>
    obtain ⟨before, after⟩ := pair
    obtain ⟨h1, h2⟩ := cutAtFirst_some sep s.data before after hcut
    exact ⟨before, after, rfl, h1, h2⟩

theorem stringsSplitN2_length (s : String) (sep : Char) :
    (stringsSplitN2 s sep).length = 1 ∨ (stringsSplitN2 s sep).length = 2 := by
  unfold stringsSplitN2
  cases cutAtFirst sep s.data with
  | none => left; rfl
  | some pair => right; rfl

/-- A prefix without the separator, of a text cut at the first separator, is
a prefix of the part before the separator. -/
theorem leading_of_cut (sep : Char) :
    ∀ (p before after : List Char), sep ∉ p → p <+: before ++ sep :: after →
      p <+: before := by
  intro p
  induction p with
  | nil => intro before after _ _; exact List.nil_prefix
  | cons c p ih =>
    intro before after hsep hpre
    cases before with
    | nil =>
      simp only [List.nil_append] at hpre
      have := List.cons_prefix_cons.mp hpre
      exact absurd (by rw [this.1]; exact List.mem_cons_self _ _) hsep
    | cons b before =>
      simp only [List.cons_append] at hpre
      obtain ⟨hcb, hrest⟩ := List.cons_prefix_cons.mp hpre
      rw [hcb]
      exact List.cons_prefix_cons.mpr
        ⟨rfl, ih before after (fun hm => hsep (List.mem_cons_of_mem _ hm)) hrest⟩

theorem stringsHasPrefix_iff (s start : String) :
    stringsHasPrefix s start = true ↔ start.data <+: s.data := by
  unfold stringsHasPrefix
  exact List.isPrefixOf_iff_prefix

theorem sourceDrive_of_two (s : String) (before after : List Char)
    (h : stringsSplitN2 s ':' = [⟨before⟩, ⟨after⟩]) : sourceDrive s = ⟨before⟩ := by
  simp [sourceDrive, h]

theorem indexOf_zero (s : String) :
    indexOf (stringsSplitN2 s ':') 0 = .returned (sourceDrive s) := by
  unfold indexOf sourceDrive stringsSplitN2
  cases cutAtFirst ':' s.data with
  | none => rfl
  | some pair => rfl

theorem colon_not_mem_user : ':' ∉ userVolumePrefix.data := by decide

theorem colon_not_mem_data : ':' ∉ dataVolumePrefix.data := by decide

/-- An entry that `Sanitize` accepts has the prefix on its `sourceDrive` too:
the prefixes hold no colon. -/
theorem sourceDrive_hasPrefix (entry start : String) (hcolon : ':' ∉ start.data)
    (hsplit : (stringsSplitN2 entry ':').length = 2)
    (hpre : stringsHasPrefix entry start = true) :
    stringsHasPrefix (sourceDrive entry) start = true := by
  obtain ⟨before, after, hparts, hdata, _⟩ := stringsSplitN2_two entry ':' hsplit
  rw [sourceDrive_of_two entry before after hparts]
  rw [stringsHasPrefix_iff] at hpre ⊢
  rw [hdata] at hpre
  exact leading_of_cut ':' _ before after hcolon hpre

/-- A text that has the prefix and differs from it is longer than the prefix:
the slice after the prefix and one more character is within bounds. -/
theorem sliceFrom_within_bounds (s start : String)
    (hpre : stringsHasPrefix s start = true) (hne : s ≠ start) :
    ∃ sub, sliceFrom s (start.length + 1) = .returned sub := by
  rw [stringsHasPrefix_iff] at hpre
  obtain ⟨rest, hrest⟩ := hpre
  have hlen : start.length + 1 ≤ s.length := by
    cases rest with
    | nil =>
      exfalso
      apply hne
      simp only [List.append_nil] at hrest
      exact String.ext hrest.symm
    | cons c rest =>
      show start.data.length + 1 ≤ s.data.length
      rw [← hrest]
      simp
  exact ⟨⟨s.data.drop (start.length + 1)⟩, by simp [sliceFrom, hlen]⟩

/-! ## The loops of `ToK8sContainer` -/

/-- A mount that the volume loop fills is a `user-data` mount, with the flag
set, exactly when the entry's `sourceDrive` has the user-volume prefix; it is a
`shared-data` mount otherwise. -/
theorem volumeMountOf_ok (source : String) (mount : k8sv1.VolumeMount) (user : Bool)
    (h : volumeMountOf source = .returned (.ok (mount, user))) :
    (user = true ∧ mount.Name = "user-data" ∧
      stringsHasPrefix (sourceDrive source) userVolumePrefix = true) ∨
    (user = false ∧ mount.Name = "shared-data" ∧
      stringsHasPrefix (sourceDrive source) userVolumePrefix = false) := by
  simp only [volumeMountOf, indexOf_zero] at h
  by_cases hu : stringsHasPrefix (sourceDrive source) userVolumePrefix = true
  · simp only [hu, if_true] at h
    left
    cases h1 : indexOf (stringsSplitN2 source ':') 1 with
    | panicked msg => simp [h1] at h
    | returned mountPath =>
      cases h2 : (if sourceDrive source ≠ userVolumePrefix then
          sliceFrom (sourceDrive source) (userVolumePrefix.length + 1)
        else Outcome.returned "") with
      | panicked msg => simp [h1, h2] at h
      | returned subPath =>
        simp only [h1, h2, Outcome.returned.injEq, Except.ok.injEq, Prod.mk.injEq] at h
        obtain ⟨hm, hflag⟩ := h
        subst hm
        exact ⟨hflag.symm, rfl, hu⟩
  · simp only [hu, if_false, Bool.false_eq_true] at h
    right
    by_cases hd : stringsHasPrefix (sourceDrive source) dataVolumePrefix = true
    · simp only [hd, if_true] at h
      cases h1 : indexOf (stringsSplitN2 source ':') 1 with
      | panicked msg => simp [h1] at h
      | returned mountPath =>
        cases h2 : (if sourceDrive source ≠ dataVolumePrefix then
            sliceFrom (sourceDrive source) (dataVolumePrefix.length + 1)
          else Outcome.returned "") with
        | panicked msg => simp [h1, h2] at h
        | returned subPath =>
          simp only [h1, h2, Outcome.returned.injEq, Except.ok.injEq, Prod.mk.injEq] at h
          obtain ⟨hm, hflag⟩ := h
          subst hm
          exact ⟨hflag.symm, rfl, by simpa using hu⟩
    · simp only [hd, if_false, Bool.false_eq_true] at h
      cases h

/-- An entry with an accepted prefix and two parts gives a mount: no panic and
no error. -/
theorem volumeMountOf_total (source : String)
    (hpre : stringsHasPrefix source userVolumePrefix = true ∨
      stringsHasPrefix source dataVolumePrefix = true)
    (hsplit : (stringsSplitN2 source ':').length = 2) :
    ∃ mount user, volumeMountOf source = .returned (.ok (mount, user)) := by
  obtain ⟨before, after, hparts, _, _⟩ := stringsSplitN2_two source ':' hsplit
  have hone : indexOf (stringsSplitN2 source ':') 1 = .returned ⟨after⟩ := by
    rw [hparts]; rfl
  simp only [volumeMountOf, indexOf_zero, hone]
  by_cases hu : stringsHasPrefix (sourceDrive source) userVolumePrefix = true
  · simp only [hu, if_true]
    by_cases hne : sourceDrive source = userVolumePrefix
    · simp [hne]
    · obtain ⟨sub, hsub⟩ := sliceFrom_within_bounds _ _ hu hne
      simp [hne, hsub]
  · have hd : stringsHasPrefix (sourceDrive source) dataVolumePrefix = true := by
      rcases hpre with h | h
      · exact absurd (sourceDrive_hasPrefix source _ colon_not_mem_user hsplit h) hu
      · exact sourceDrive_hasPrefix source _ colon_not_mem_data hsplit h
    simp only [hu, if_false, hd, if_true, Bool.false_eq_true]
    by_cases hne : sourceDrive source = dataVolumePrefix
    · simp [hne]
    · obtain ⟨sub, hsub⟩ := sliceFrom_within_bounds _ _ hd hne
      simp [hne, hsub]

/-- The volume loop, when it ends without error: one mount per entry, each
named `user-data` or `shared-data`, and the flag is set exactly when it was set
before or some entry has the user-volume prefix, which is exactly when it was
set before or some mount added is named `user-data`. -/
theorem volumeLoop_returned :
    ∀ (sources : List String) (filled : List k8sv1.VolumeMount) (flag : Bool)
      (mounts : List k8sv1.VolumeMount) (user : Bool),
      volumeLoop sources filled flag = .returned (mounts, user, none) →
      ∃ added, mounts = filled ++ added ∧ added.length = sources.length ∧
        (∀ m ∈ added, m.Name = "user-data" ∨ m.Name = "shared-data") ∧
        (user = true ↔ flag = true ∨
          ∃ s ∈ sources, stringsHasPrefix (sourceDrive s) userVolumePrefix = true) ∧
        (user = true ↔ flag = true ∨ ∃ m ∈ added, m.Name = "user-data") := by
  intro sources
  induction sources with
  | nil =>
    intro filled flag mounts user h
    simp only [volumeLoop, Outcome.returned.injEq, Prod.mk.injEq, and_true] at h
    obtain ⟨h1, h2⟩ := h
    exact ⟨[], by simp [h1], rfl, by simp, by simp [h2], by simp [h2]⟩
  | cons source rest ih =>
    intro filled flag mounts user h
    unfold volumeLoop at h
    cases hm : volumeMountOf source with
    | panicked msg => simp [hm] at h
    | returned res =>
      cases res with
      | error err => simp [hm] at h
      | ok pair =>
        obtain ⟨mount, isUser⟩ := pair
        simp only [hm] at h
        obtain ⟨added, hmounts, hlen, hnames, hflag1, hflag2⟩ := ih _ _ _ _ h
        refine ⟨mount :: added, by simp [hmounts], by simp [hlen], ?_, ?_, ?_⟩
        · intro m hmem
          rcases List.mem_cons.mp hmem with h1 | h1
          · rw [h1]
            rcases volumeMountOf_ok source mount isUser hm with ⟨_, hn, _⟩ | ⟨_, hn, _⟩
            · exact Or.inl hn
            · exact Or.inr hn
          · exact hnames m h1
        · rw [hflag1]
          rcases volumeMountOf_ok source mount isUser hm with ⟨hu, _, hp⟩ | ⟨hu, _, hp⟩
          · subst hu
            simp [hp]
          · subst hu
            simp [hp]
        · rw [hflag2]
          rcases volumeMountOf_ok source mount isUser hm with ⟨hu, hn, _⟩ | ⟨hu, hn, _⟩
          · subst hu
            simp [hn]
          · subst hu
            simp [hn]

/-- The volume loop over entries that all have an accepted prefix and two
parts ends without panic and without error. -/
theorem volumeLoop_total :
    ∀ (sources : List String) (filled : List k8sv1.VolumeMount) (flag : Bool),
      (∀ s ∈ sources, (stringsHasPrefix s userVolumePrefix = true ∨
          stringsHasPrefix s dataVolumePrefix = true) ∧
        (stringsSplitN2 s ':').length = 2) →
      ∃ mounts user, volumeLoop sources filled flag = .returned (mounts, user, none) := by
  intro sources
  induction sources with
  | nil => intro filled flag _; exact ⟨filled, flag, rfl⟩
  | cons source rest ih =>
    intro filled flag hall
    obtain ⟨hpre, hsplit⟩ := hall source (List.mem_cons_self _ _)
    obtain ⟨mount, isUser, hm⟩ := volumeMountOf_total source hpre hsplit
    unfold volumeLoop
    simp only [hm]
    exact ih _ _ (fun s hs => hall s (List.mem_cons_of_mem _ hs))

/-- The environment loop over entries that all hold an equals sign fills one
variable per entry, the name being the text before the first equals sign and
the value the text after it, and returns no error. -/
theorem envLoop_total :
    ∀ (entries : List String) (filled : List k8sv1.EnvVar),
      (∀ e ∈ entries, (stringsSplitN2 e '=').length = 2) →
      ∃ added, envLoop entries filled = (filled ++ added, none) ∧
        added.map (fun v => v.Name ++ "=" ++ v.Value) = entries ∧
        ∀ v ∈ added, '=' ∉ v.Name.data := by
  intro entries
  induction entries with
  | nil => intro filled _; exact ⟨[], by simp [envLoop], rfl, by simp⟩
  | cons entry rest ih =>
    intro filled hall
    obtain ⟨before, after, hparts, hdata, hnot⟩ :=
      stringsSplitN2_two entry '=' (hall entry (List.mem_cons_self _ _))
    obtain ⟨added, hloop, hmap, hnames⟩ :=
      ih (filled ++ [{ Name := ⟨before⟩, Value := ⟨after⟩ }])
        (fun e he => hall e (List.mem_cons_of_mem _ he))
    refine ⟨{ Name := ⟨before⟩, Value := ⟨after⟩ } :: added, ?_, ?_, ?_⟩
    · unfold envLoop
      simp only [hparts]
      rw [hloop]
      simp
    · simp only [List.map_cons, hmap, List.cons.injEq, and_true]
      apply String.ext
      simp [hdata]
    · intro v hv
      rcases List.mem_cons.mp hv with h | h
      · rw [h]; exact hnot
      · exact hnames v h

/-- The two loops behind a run of `ToK8sContainer` that returns no error: the
volume loop gave the mounts and the flag of the result, the environment loop
its variables; with no volume entry (no environment entry) the container keeps
the mounts (the variables) it came with. -/
theorem ToK8sContainer_parts (validQuantity : String → Bool) (service : ComposeService)
    (friend c : k8sv1.Container) (user : Bool)
    (h : service.ToK8sContainer validQuantity friend = .returned (c, user, none)) :
    (if 0 < service.Volumes.length then volumeLoop service.Volumes [] false
      else .returned (friend.VolumeMounts, false, none))
      = .returned (c.VolumeMounts, user, none) ∧
    (if service.Environment ≠ [] then envLoop service.Environment []
      else (friend.Env, none)) = (c.Env, none) := by
  cases hv : (if 0 < service.Volumes.length then volumeLoop service.Volumes [] false
      else Outcome.returned (friend.VolumeMounts, false, none)) with
  | panicked msg => simp [ComposeService.ToK8sContainer, hv] at h
  | returned res =>
    obtain ⟨mounts, flag, verr⟩ := res
    cases verr with
    | some e => simp [ComposeService.ToK8sContainer, hv] at h
    | none =>
      cases he : (if service.Environment ≠ [] then envLoop service.Environment []
          else (friend.Env, none)) with
      | mk env eerr =>
        cases eerr with
        | some e => simp [ComposeService.ToK8sContainer, hv, he] at h
        | none =>
          cases hl : ComposeResourceSpec.BuildK8sResource validQuantity
              service.Deploy.Resources.Limits with
          | panicked msg => simp [ComposeService.ToK8sContainer, hv, he, hl] at h
          | returned limits =>
            cases hr : ComposeResourceSpec.BuildK8sResource validQuantity
                service.Deploy.Resources.Requests with
            | panicked msg => simp [ComposeService.ToK8sContainer, hv, he, hl, hr] at h
            | returned requests =>
              simp only [ComposeService.ToK8sContainer, hv, he, hl, hr, Outcome.returned.injEq,
                Prod.mk.injEq, and_true] at h
              obtain ⟨hc, hu⟩ := h
              subst hc
              subst hu
              constructor <;> (split_ifs <;> rfl)

/-! ## Claims on `ToK8sContainer` -/

/-- C24, the counterexample. For a service without volume entries and a
container that already carries a `user-data` mount, `ToK8sContainer` returns no
error and the flag false, no entry has the user-volume prefix, and yet the
resulting container has a mount named `user-data`: the mounts are only replaced
when the service has at least one volume entry. -/
theorem ToK8sContainer_keeps_existing_mounts :
    noVolumeService.Volumes = [] ∧
    ∃ friend, noVolumeService.ToK8sContainer composeQuantities mountedContainer
        = .returned (friend, false, none) ∧
      ∃ m ∈ friend.VolumeMounts, m.Name = "user-data" := by
  refine ⟨rfl, _, rfl, ?_⟩
  exact ⟨_, List.mem_singleton.mpr rfl, rfl⟩

/-- C24, amended. Whenever `ToK8sContainer` returns without error, its flag is
true exactly when some volume entry of the service has a `sourceDrive` that
begins with the user-volume prefix; and, provided the service has a volume
entry or the container passed in carries no `user-data` mount, that is exactly
when the resulting container has a mount named `user-data`. -/
theorem ToK8sContainer_user_volume_flag (validQuantity : String → Bool)
    (service : ComposeService) (friend c : k8sv1.Container) (user : Bool)
    (h : service.ToK8sContainer validQuantity friend = .returned (c, user, none)) :
    (user = true ↔
      ∃ entry ∈ service.Volumes,
        stringsHasPrefix (sourceDrive entry) userVolumePrefix = true) ∧
    ((service.Volumes ≠ [] ∨ ∀ m ∈ friend.VolumeMounts, m.Name ≠ "user-data") →
      ((∃ entry ∈ service.Volumes,
          stringsHasPrefix (sourceDrive entry) userVolumePrefix = true) ↔
        ∃ m ∈ c.VolumeMounts, m.Name = "user-data")) := by
  obtain ⟨hv, _⟩ := ToK8sContainer_parts validQuantity service friend c user h
  by_cases hlen : 0 < service.Volumes.length
  · rw [if_pos hlen] at hv
    obtain ⟨added, hmounts, _, _, hflag1, hflag2⟩ := volumeLoop_returned _ _ _ _ _ hv
    simp only [Bool.false_eq_true, false_or] at hflag1 hflag2
    simp only [List.nil_append] at hmounts
    rw [hmounts]
    exact ⟨hflag1, fun _ => hflag1.symm.trans hflag2⟩
  · rw [if_neg hlen] at hv
    have hnil : service.Volumes = [] := List.length_eq_zero.mp (by omega)
    simp only [Outcome.returned.injEq, Prod.mk.injEq, and_true] at hv
    obtain ⟨hm, hu⟩ := hv
    subst hu
    rw [hnil]
    refine ⟨by simp, ?_⟩
    intro hfresh
    rcases hfresh with hne | hnone
    · exact absurd rfl hne
    · rw [← hm]
      constructor
      · rintro ⟨entry, hmem, _⟩
        simp at hmem
      · rintro ⟨m, hmem, hname⟩
        exact absurd hname (hnone m hmem)

/-- C24 for the first service of `notebookCompose`, which mounts the user
volume: the flag is true and the container has a `user-data` mount. -/
theorem ToK8sContainer_user_volume_flag_witness :
    ∃ friend, (notebookCompose.service "Web_App").ToK8sContainer composeQuantities
        zeroContainer = .returned (friend, true, none) ∧
      ∃ m ∈ friend.VolumeMounts, m.Name = "user-data" :=
  ⟨_, rfl,
   ((ToK8sContainer_user_volume_flag composeQuantities (notebookCompose.service "Web_App")
      zeroContainer _ true rfl).2 (Or.inl (by decide))).mp
     ⟨"$\x7bUSER_VOLUME\x7d/work:/home/work", by decide, by decide⟩⟩

/-! ## What `Sanitize` has checked -/

theorem checkVolumes_none :
    ∀ (volumes : List String), checkVolumes volumes = none →
      ∀ s ∈ volumes, (stringsHasPrefix s userVolumePrefix = true ∨
          stringsHasPrefix s dataVolumePrefix = true) ∧
        (stringsSplitN2 s ':').length = 2 := by
  intro volumes
  induction volumes with
  | nil => intro _ s hs; simp at hs
  | cons mount rest ih =>
    intro h s hs
    unfold checkVolumes at h
    by_cases hpre : (!stringsHasPrefix mount userVolumePrefix &&
        !stringsHasPrefix mount dataVolumePrefix) = true
    · simp [hpre] at h
    · rw [if_neg hpre] at h
      by_cases hsplit : (stringsSplitN2 mount ':').length ≠ 2
      · simp [hsplit] at h
      · rw [if_neg hsplit] at h
        rcases List.mem_cons.mp hs with heq | hmem
        · subst heq
          refine ⟨?_, by simpa using hsplit⟩
          cases hu : stringsHasPrefix s userVolumePrefix
          · cases hd : stringsHasPrefix s dataVolumePrefix
            · simp [hu, hd] at hpre
            · exact Or.inr rfl
          · exact Or.inl rfl
        · exact ih h s hmem

theorem checkSplits_none (sep : Char) (message : String) :
    ∀ (entries : List String), checkSplits sep message entries = none →
      ∀ e ∈ entries, (stringsSplitN2 e sep).length = 2 := by
  intro entries
  induction entries with
  | nil => intro _ e he; simp at he
  | cons entry rest ih =>
    intro h e he
    unfold checkSplits at h
    by_cases hsplit : (stringsSplitN2 entry sep).length ≠ 2
    · simp [hsplit] at h
    · rw [if_neg hsplit] at h
      rcases List.mem_cons.mp he with heq | hmem
      · subst heq; simpa using hsplit
      · exact ih h e hmem

/-- A service that passes one iteration of `Sanitize` keeps its volume and
environment entries, and these have passed the checks. -/
theorem sanitizeService_ok (toLower : String → String) (key : String)
    (service clean : ComposeService)
    (h : sanitizeService toLower key service = .ok clean) :
    checkVolumes clean.Volumes = none ∧
    checkSplits '=' "Could not parse environment entry: " clean.Environment = none := by
  unfold sanitizeService at h
  simp only [] at h
  by_cases himg : service.Image.length = 0
  · simp [himg] at h
  · rw [if_neg himg] at h
    cases hv : checkVolumes service.Volumes with
    | some err => simp [hv] at h
    | none =>
      simp only [hv] at h
      cases he : checkSplits '=' "Could not parse environment entry: "
          service.Environment with
      | some err => simp [he] at h
      | none =>
        simp only [he] at h
        cases hp : checkSplits ':' "Could not parse port entry: " service.Ports with
        | some err => simp [hp] at h
        | none =>
          simp only [hp, Except.ok.injEq] at h
          subst h
          exact ⟨hv, he⟩

/-- The services that the loop of `Sanitize` collects, when it ends without
error, are the ones collected before and one clean service per entry. -/
theorem sanitizeLoop_ok (toLower : String → String) :
    ∀ (services : List (String × ComposeService)) (root : String)
      (acc : List (String × ComposeService)) (root' : String)
      (out : List (String × ComposeService)),
      sanitizeLoop toLower services root acc = (root', .ok out) →
      ∃ added, out = acc ++ added ∧ added.length = services.length ∧
        ∀ entry ∈ added, checkVolumes entry.2.Volumes = none ∧
          checkSplits '=' "Could not parse environment entry: " entry.2.Environment
            = none := by
  intro services
  induction services with
  | nil =>
    intro root acc root' out h
    simp only [sanitizeLoop, Prod.mk.injEq, Except.ok.injEq] at h
    exact ⟨[], by simp [h.2], rfl, by simp⟩
  | cons first rest ih =>
    intro root acc root' out h
    obtain ⟨key, service⟩ := first
    unfold sanitizeLoop at h
    cases hs : sanitizeService toLower key service with
    | error err => simp [hs] at h
    | ok clean =>
      simp only [hs] at h
      obtain ⟨added, hout, hlen, hall⟩ := ih _ _ _ _ h
      refine ⟨(key, clean) :: added, by simp [hout], by simp [hlen], ?_⟩
      intro entry hmem
      rcases List.mem_cons.mp hmem with heq | hmem
      · rw [heq]; exact sanitizeService_ok toLower key service clean hs
      · exact hall entry hmem

/-- After a `Sanitize` without error the model holds one clean service per
service it had, and every volume and environment entry has passed the checks. -/
theorem Sanitize_ok (toLower : String → String) (model clean : ComposeFull)
    (h : model.Sanitize toLower = (clean, none)) :
    clean.Services.length = model.Services.length ∧
    ∀ entry ∈ clean.Services, checkVolumes entry.2.Volumes = none ∧
      checkSplits '=' "Could not parse environment entry: " entry.2.Environment = none := by
  unfold ComposeFull.Sanitize at h
  cases hl : sanitizeLoop toLower model.Services model.RootService [] with
  | mk root res =>
    cases res with
    | error err => simp [hl] at h
    | ok out =>
      simp only [hl] at h
      by_cases hroot : root.length = 0
      · simp [hroot] at h
      · rw [if_neg hroot] at h
        simp only [Prod.mk.injEq, and_true] at h
        subst h
        obtain ⟨added, hout, hlen, hall⟩ := sanitizeLoop_ok toLower _ _ _ _ _ hl
        simp only [List.nil_append] at hout
        subst hout
        exact ⟨hlen, hall⟩

/-- A resource spec whose two non-empty texts parse is built without panic. -/
theorem BuildK8sResource_returns (validQuantity : String → Bool) (rspec : ComposeResourceSpec)
    (hcpu : rspec.CPU ≠ "" → validQuantity rspec.CPU = true)
    (hmem : rspec.Memory ≠ "" → validQuantity rspec.Memory = true) :
    ∃ resources, rspec.BuildK8sResource validQuantity = .returned resources := by
  unfold ComposeResourceSpec.BuildK8sResource mustParse
  by_cases h1 : rspec.CPU = "" <;> by_cases h2 : rspec.Memory = "" <;>
    simp [h1, h2, hcpu, hmem]

/-- With loops that end without error and quantities that parse,
`ToK8sContainer` returns no error, the mounts and the flag of the volume loop
and the variables of the environment loop. -/
theorem ToK8sContainer_returns (validQuantity : String → Bool) (service : ComposeService)
    (friend : k8sv1.Container) (mounts : List k8sv1.VolumeMount) (user : Bool)
    (env : List k8sv1.EnvVar)
    (hv : (if 0 < service.Volumes.length then volumeLoop service.Volumes [] false
      else .returned (friend.VolumeMounts, false, none)) = .returned (mounts, user, none))
    (he : (if service.Environment ≠ [] then envLoop service.Environment []
      else (friend.Env, none)) = (env, none))
    (hl : ∃ limits, service.Deploy.Resources.Limits.BuildK8sResource validQuantity
      = .returned limits)
    (hr : ∃ requests, service.Deploy.Resources.Requests.BuildK8sResource validQuantity
      = .returned requests) :
    ∃ c, service.ToK8sContainer validQuantity friend = .returned (c, user, none) ∧
      c.VolumeMounts = mounts ∧ c.Env = env := by
  obtain ⟨limits, hl⟩ := hl
  obtain ⟨requests, hr⟩ := hr
  simp only [ComposeService.ToK8sContainer, hv, he, hl, hr, Outcome.returned.injEq,
    Prod.mk.injEq, and_true, exists_eq_left']
  constructor <;> (split_ifs <;> rfl)

/-- C29. For every service of a model on which `Sanitize` has succeeded, with
resource quantities that parse: every volume entry splits into a source and a
destination, the source has one of the two prefixes and the sub-path slice on
it is within bounds; `ToK8sContainer` returns, without panic and without error;
and when the service has environment entries the container's variables are
these entries split at their first equals sign, so that name, equals sign and
value give back the entry. -/
theorem ToK8sContainer_after_Sanitize (toLower : String → String)
    (validQuantity : String → Bool) (model clean : ComposeFull)
    (hs : model.Sanitize toLower = (clean, none))
    (key : String) (service : ComposeService) (hmem : (key, service) ∈ clean.Services)
    (hq : validQuantity service.Deploy.Resources.Limits.CPU = true ∧
      validQuantity service.Deploy.Resources.Limits.Memory = true ∧
      validQuantity service.Deploy.Resources.Requests.CPU = true ∧
      validQuantity service.Deploy.Resources.Requests.Memory = true)
    (friend : k8sv1.Container) :
    (∀ entry ∈ service.Volumes, ∃ source dest,
      stringsSplitN2 entry ':' = [source, dest] ∧
      ((stringsHasPrefix source userVolumePrefix = true ∧
          (source ≠ userVolumePrefix →
            ∃ sub, sliceFrom source (userVolumePrefix.length + 1) = .returned sub)) ∨
        (stringsHasPrefix source dataVolumePrefix = true ∧
          (source ≠ dataVolumePrefix →
            ∃ sub, sliceFrom source (dataVolumePrefix.length + 1) = .returned sub)))) ∧
    ∃ c user, service.ToK8sContainer validQuantity friend = .returned (c, user, none) ∧
      (service.Environment ≠ [] →
        c.Env.map (fun v => v.Name ++ "=" ++ v.Value) = service.Environment ∧
        ∀ v ∈ c.Env, '=' ∉ v.Name.data) := by
  obtain ⟨_, hall⟩ := Sanitize_ok toLower model clean hs
  obtain ⟨hvol, henv⟩ := hall (key, service) hmem
  have hvols := checkVolumes_none service.Volumes hvol
  have henvs := checkSplits_none '=' _ service.Environment henv
  constructor
  · intro entry hentry
    obtain ⟨hpre, hsplit⟩ := hvols entry hentry
    obtain ⟨before, after, hparts, _, _⟩ := stringsSplitN2_two entry ':' hsplit
    have hsrc : sourceDrive entry = ⟨before⟩ := sourceDrive_of_two entry before after hparts
    refine ⟨⟨before⟩, ⟨after⟩, hparts, ?_⟩
    rcases hpre with hu | hd
    · have := sourceDrive_hasPrefix entry _ colon_not_mem_user hsplit hu
      rw [hsrc] at this
      exact Or.inl ⟨this, fun hne => sliceFrom_within_bounds _ _ this hne⟩
    · have := sourceDrive_hasPrefix entry _ colon_not_mem_data hsplit hd
      rw [hsrc] at this
      exact Or.inr ⟨this, fun hne => sliceFrom_within_bounds _ _ this hne⟩
  · have hv : ∃ mounts user,
        (if 0 < service.Volumes.length then volumeLoop service.Volumes [] false
          else Outcome.returned (friend.VolumeMounts, false, none))
          = .returned (mounts, user, none) := by
      by_cases hlen : 0 < service.Volumes.length
      · rw [if_pos hlen]; exact volumeLoop_total _ _ _ hvols
      · rw [if_neg hlen]; exact ⟨_, _, rfl⟩
    obtain ⟨mounts, user, hv⟩ := hv
    obtain ⟨added, hloop, hmap, hnames⟩ := envLoop_total service.Environment [] henvs
    have he : (if service.Environment ≠ [] then envLoop service.Environment []
        else (friend.Env, none))
        = ((if service.Environment ≠ [] then added else friend.Env), none) := by
      by_cases hne : service.Environment ≠ []
      · rw [if_pos hne, if_pos hne, hloop]; rfl
      · rw [if_neg hne, if_neg hne]
    obtain ⟨c, hc, _, hcenv⟩ := ToK8sContainer_returns validQuantity service friend mounts
      user _ hv he
      (BuildK8sResource_returns _ _ (fun _ => hq.1) (fun _ => hq.2.1))
      (BuildK8sResource_returns _ _ (fun _ => hq.2.2.1) (fun _ => hq.2.2.2))
    refine ⟨c, user, hc, ?_⟩
    intro hne
    rw [hcenv, if_pos hne]
    exact ⟨hmap, hnames⟩

/-- C29 for the first service of `notebookCompose` after `Sanitize`: the
container is returned and its variables give back the two entries. -/
theorem ToK8sContainer_after_Sanitize_witness :
    ∃ c user,
      ((notebookCompose.Sanitize asciiToLower).1.service "Web_App").ToK8sContainer
          composeQuantities zeroContainer = .returned (c, user, none) ∧
        (((notebookCompose.Sanitize asciiToLower).1.service "Web_App").Environment ≠ [] →
          c.Env.map (fun v => v.Name ++ "=" ++ v.Value)
            = ((notebookCompose.Sanitize asciiToLower).1.service "Web_App").Environment ∧
          ∀ v ∈ c.Env, '=' ∉ v.Name.data) :=
  (ToK8sContainer_after_Sanitize asciiToLower composeQuantities notebookCompose
    (notebookCompose.Sanitize asciiToLower).1 (by decide) "Web_App"
    ((notebookCompose.Sanitize asciiToLower).1.service "Web_App") (by decide) (by decide)
    zeroContainer).2

/-! ## The pod of a compose application -/

/-- The name and the image of the container come from the service. -/
theorem ToK8sContainer_name (validQuantity : String → Bool) (service : ComposeService)
    (friend c : k8sv1.Container) (user : Bool)
    (h : service.ToK8sContainer validQuantity friend = .returned (c, user, none)) :
    c.Name = service.Name ∧ c.Image = service.Image := by
  cases hv : (if 0 < service.Volumes.length then volumeLoop service.Volumes [] false
      else Outcome.returned (friend.VolumeMounts, false, none)) with
  | panicked msg => simp [ComposeService.ToK8sContainer, hv] at h
  | returned res =>
    obtain ⟨mounts, flag, verr⟩ := res
    cases verr with
    | some e => simp [ComposeService.ToK8sContainer, hv] at h
    | none =>
      cases he : (if service.Environment ≠ [] then envLoop service.Environment []
          else (friend.Env, none)) with
      | mk env eerr =>
        cases eerr with
        | some e => simp [ComposeService.ToK8sContainer, hv, he] at h
        | none =>
          cases hl : ComposeResourceSpec.BuildK8sResource validQuantity
              service.Deploy.Resources.Limits with
          | panicked msg => simp [ComposeService.ToK8sContainer, hv, he, hl] at h
          | returned limits =>
            cases hr : ComposeResourceSpec.BuildK8sResource validQuantity
                service.Deploy.Resources.Requests with
            | panicked msg => simp [ComposeService.ToK8sContainer, hv, he, hl, hr] at h
            | returned requests =>
              simp only [ComposeService.ToK8sContainer, hv, he, hl, hr, Outcome.returned.injEq,
                Prod.mk.injEq, and_true] at h
              obtain ⟨hc, hu⟩ := h
              subst hc
              subst hu
              constructor <;> (split_ifs <;> rfl)

/-- A fresh container filled by `ToK8sContainer` has only mounts named
`user-data` or `shared-data`, and one named `user-data` exactly when the flag is
set, which is exactly when some volume entry has the user-volume prefix. -/
theorem ToK8sContainer_fresh (validQuantity : String → Bool) (service : ComposeService)
    (c : k8sv1.Container) (user : Bool)
    (h : service.ToK8sContainer validQuantity zeroContainer = .returned (c, user, none)) :
    (∀ m ∈ c.VolumeMounts, m.Name = "user-data" ∨ m.Name = "shared-data") ∧
    (user = true ↔ ∃ m ∈ c.VolumeMounts, m.Name = "user-data") ∧
    (user = true ↔
      ∃ v ∈ service.Volumes, stringsHasPrefix (sourceDrive v) userVolumePrefix = true) := by
  obtain ⟨hv, _⟩ := ToK8sContainer_parts validQuantity service zeroContainer c user h
  by_cases hlen : 0 < service.Volumes.length
  · rw [if_pos hlen] at hv
    obtain ⟨added, hmounts, _, hnames, hflag1, hflag2⟩ := volumeLoop_returned _ _ _ _ _ hv
    simp only [Bool.false_eq_true, false_or] at hflag1 hflag2
    simp only [List.nil_append] at hmounts
    rw [hmounts]
    exact ⟨hnames, hflag2, hflag1⟩
  · rw [if_neg hlen] at hv
    have hnil : service.Volumes = [] := List.length_eq_zero.mp (by omega)
    simp only [Outcome.returned.injEq, Prod.mk.injEq, and_true] at hv
    obtain ⟨hm, hu⟩ := hv
    subst hu
    rw [hnil, ← hm]
    simp [zeroContainer]

/-- The friends loop, when it ends without error: one container per service,
carrying the service's name and image, with mounts named `user-data` or
`shared-data` only; the flag is set whenever some container added has a
`user-data` mount, and exactly when it was set before or some volume entry of
some service has the user-volume prefix. -/
theorem friendsLoop_ok (validQuantity : String → Bool) :
    ∀ (services : List (String × ComposeService)) (friends : List k8sv1.Container)
      (flag : Bool) (out : List k8sv1.Container) (user : Bool),
      friendsLoop validQuantity services friends flag = .returned (.ok (out, user)) →
      ∃ added, out = friends ++ added ∧
        added.map (fun c => (c.Name, c.Image))
          = services.map (fun entry => (entry.2.Name, entry.2.Image)) ∧
        (∀ c ∈ added, ∀ m ∈ c.VolumeMounts,
          m.Name = "user-data" ∨ m.Name = "shared-data") ∧
        ((∃ c ∈ added, ∃ m ∈ c.VolumeMounts, m.Name = "user-data") → user = true) ∧
        (user = true ↔ flag = true ∨
          ∃ entry ∈ services, ∃ v ∈ entry.2.Volumes,
            stringsHasPrefix (sourceDrive v) userVolumePrefix = true) := by
  intro services
  induction services with
  | nil =>
    intro friends flag out user h
    simp only [friendsLoop, Outcome.returned.injEq, Except.ok.injEq, Prod.mk.injEq] at h
    exact ⟨[], by simp [h.1], rfl, by simp, by simp, by simp [h.2]⟩
  | cons first rest ih =>
    intro friends flag out user h
    obtain ⟨key, service⟩ := first
    unfold friendsLoop at h
    cases hc : service.ToK8sContainer validQuantity zeroContainer with
    | panicked msg => simp [hc] at h
    | returned res =>
      obtain ⟨friend, uses, cerr⟩ := res
      cases cerr with
      | some e => simp [hc] at h
      | none =>
        simp only [hc] at h
        obtain ⟨added, hout, hmap, hnames, hsome, hflag⟩ := ih _ _ _ _ h
        obtain ⟨fnames, fflag1, fflag2⟩ := ToK8sContainer_fresh validQuantity service friend uses hc
        obtain ⟨fname, fimage⟩ := ToK8sContainer_name validQuantity service zeroContainer friend
          uses hc
        refine ⟨friend :: added, by simp [hout], by simp [hmap, fname, fimage], ?_, ?_, ?_⟩
        · intro c hmem
          rcases List.mem_cons.mp hmem with heq | hmem
          · rw [heq]; exact fnames
          · exact hnames c hmem
        · rintro ⟨c, hmem, hm⟩
          rcases List.mem_cons.mp hmem with heq | hmem
          · rw [heq] at hm
            have huses : uses = true := fflag1.mpr hm
            rw [hflag]
            left
            simp [huses]
          · exact hsome ⟨c, hmem, hm⟩
        · rw [hflag]
          constructor
          · rintro (hf | ⟨entry, hmem, hv⟩)
            · rcases Bool.or_eq_true _ _ ▸ hf with hf | hf
              · exact Or.inl hf
              · exact Or.inr ⟨(key, service), List.mem_cons_self _ _, fflag2.mp hf⟩
            · exact Or.inr ⟨entry, List.mem_cons_of_mem _ hmem, hv⟩
          · rintro (hf | ⟨entry, hmem, hv⟩)
            · left; simp [hf]
            · rcases List.mem_cons.mp hmem with heq | hmem
              · left
                rw [heq] at hv
                simp [fflag2.mpr hv]
              · exact Or.inr ⟨entry, hmem, hv⟩

/-- An application that `BuildHatchApp` returns has no image and no shared
memory, the friends of the friends loop, and a user volume location exactly
when the loop's flag is set. -/
theorem BuildHatchApp_ok (validQuantity : String → Bool) (atoi : String → Option Int)
    (model : ComposeFull) (hatchApp : Container)
    (h : model.BuildHatchApp validQuantity atoi = .returned (some hatchApp, none)) :
    hatchApp.Image = "" ∧ hatchApp.UseSharedMemory = "" ∧
    ∃ user, friendsLoop validQuantity model.Services [] false
        = .returned (.ok (hatchApp.Friends, user)) ∧
      hatchApp.UserVolumeLocation = (if user then "/dockstore/paceholder" else "") := by
  unfold ComposeFull.BuildHatchApp at h
  simp only [] at h
  cases hp : targetPortLoop atoi (model.service model.RootService).Ports with
  | error err => simp [hp] at h
  | ok port =>
    simp only [hp] at h
    by_cases hlen : model.Services.length < 1
    · simp [hlen] at h
    · rw [if_neg hlen] at h
      cases hf : friendsLoop validQuantity model.Services [] false with
      | panicked msg => simp [hf] at h
      | returned res =>
        cases res with
        | error err => simp [hf] at h
        | ok pair =>
          obtain ⟨friends, user⟩ := pair
          simp only [hf, Outcome.returned.injEq, Prod.mk.injEq, Option.some.injEq,
            and_true] at h
          subst h
          exact ⟨rfl, rfl, user, rfl, rfl⟩

/-- C27. For a model on which `Sanitize` and then `BuildHatchApp` succeed, each
pod that `buildPod` returns for the application holds the fuse sidecar followed
by one container per compose service, in order and with the service's name and
image, and no primary container; every mount name of every container is the
name of a volume of the pod; and the volume `user-data` is declared whenever
some service has a volume entry with the user-volume prefix. -/
theorem compose_pod_mounts_declared (toLower : String → String)
    (validQuantity : String → Bool) (atoi : String → Option Int)
    (config : FullHatcheryConfig) (model clean : ComposeFull) (hatchApp : Container)
    (userName : String) (pod : k8sv1.Pod) (err : Option String)
    (hs : model.Sanitize toLower = (clean, none))
    (hb : clean.BuildHatchApp validQuantity atoi = .returned (some hatchApp, none))
    (hp : buildPod validQuantity config hatchApp userName = .returned (pod, err)) :
    clean.Services.length = model.Services.length ∧
    pod.Spec.Containers.length = clean.Services.length + 1 ∧
    (∃ fuse rest, pod.Spec.Containers = fuse :: rest ∧ fuse.Name = "fuse-container" ∧
      rest.map (fun c => (c.Name, c.Image))
        = clean.Services.map (fun entry => (entry.2.Name, entry.2.Image))) ∧
    (∀ c ∈ pod.Spec.Containers, ∀ m ∈ c.VolumeMounts,
      ∃ v ∈ pod.Spec.Volumes, v.Name = m.Name) ∧
    ((∃ entry ∈ clean.Services, ∃ v ∈ entry.2.Volumes,
        stringsHasPrefix (sourceDrive v) userVolumePrefix = true) →
      ∃ v ∈ pod.Spec.Volumes, v.Name = "user-data") := by
  obtain ⟨hcount, _⟩ := Sanitize_ok toLower model clean hs
  obtain ⟨himage, hshm, user, hloop, hloc⟩ := BuildHatchApp_ok validQuantity atoi clean hatchApp hb
  obtain ⟨added, hout, hmap, hnames, hsome, hflag⟩ := friendsLoop_ok validQuantity _ _ _ _ _ hloop
  simp only [List.nil_append] at hout
  simp only [Bool.false_eq_true, false_or] at hflag
  obtain ⟨_, _, _, hvols, hconts⟩ := buildPod_shape validQuantity config hatchApp userName pod
    err hp
  have hshared : decide (hatchApp.UseSharedMemory = "true") = false := by
    rw [hshm]; decide
  have hmount : decide (hatchApp.UserVolumeLocation ≠ "") = user := by
    rw [hloc]; cases user <;> decide
  rw [hshared, hmount] at hvols
  rw [hshared, himage] at hconts
  simp only [ne_eq, not_true_eq_false, if_false, List.nil_append] at hconts
  rw [hout] at hconts
  have hlen : added.length = clean.Services.length := by
    have := congrArg List.length hmap
    simpa using this
  refine ⟨hcount, by rw [hconts]; simp [hlen], ⟨_, added, hconts, rfl, hmap⟩, ?_, ?_⟩
  · intro c hc m hm
    rw [hconts] at hc
    rw [hvols]
    rcases List.mem_cons.mp hc with heq | hmem
    · rw [heq] at hm
      simp only [fuseContainer, sidecarVolumeMounts, Bool.false_eq_true, if_false,
        List.append_nil, List.mem_singleton] at hm
      rw [hm]
      exact ⟨{ Name := "shared-data", EmptyDir := none, PersistentVolumeClaim := none },
             by simp [podVolumes], rfl⟩
    · rcases hnames c hmem m hm with hname | hname
      · have huser : user = true := hsome ⟨c, hmem, m, hm, hname⟩
        rw [huser, hname]
        exact ⟨{ Name := "user-data", EmptyDir := none,
                 PersistentVolumeClaim := some (userToResourceName userName "claim") },
               by simp [podVolumes], rfl⟩
      · rw [hname]
        exact ⟨{ Name := "shared-data", EmptyDir := none, PersistentVolumeClaim := none },
               by simp [podVolumes], rfl⟩
  · intro hex
    have huser : user = true := hflag.mpr hex
    rw [hvols, huser]
    exact ⟨{ Name := "user-data", EmptyDir := none,
             PersistentVolumeClaim := some (userToResourceName userName "claim") },
           by simp [podVolumes], rfl⟩

/-- C27 for `notebookCompose` and user `alice`: the pod has the sidecar and two
more containers, and each mount name is a declared volume. -/
theorem compose_pod_mounts_declared_witness :
    ∃ pod, buildPod composeQuantities (sampleConfig "10Gi" true)
        (hatchAppOf ((notebookCompose.Sanitize asciiToLower).1.BuildHatchApp
          composeQuantities sampleAtoi)) "alice" = .returned (pod, none) ∧
      pod.Spec.Containers.length = 3 ∧
      ∀ c ∈ pod.Spec.Containers, ∀ m ∈ c.VolumeMounts,
        ∃ v ∈ pod.Spec.Volumes, v.Name = m.Name :=
  ⟨_, rfl,
   (compose_pod_mounts_declared asciiToLower composeQuantities sampleAtoi
      (sampleConfig "10Gi" true) notebookCompose (notebookCompose.Sanitize asciiToLower).1
      (hatchAppOf ((notebookCompose.Sanitize asciiToLower).1.BuildHatchApp
        composeQuantities sampleAtoi)) "alice" _ none (by decide) (by decide) rfl).2.1,
   (compose_pod_mounts_declared asciiToLower composeQuantities sampleAtoi
      (sampleConfig "10Gi" true) notebookCompose (notebookCompose.Sanitize asciiToLower).1
      (hatchAppOf ((notebookCompose.Sanitize asciiToLower).1.BuildHatchApp
        composeQuantities sampleAtoi)) "alice" _ none (by decide) (by decide) rfl).2.2.2.1⟩

end Hatchery
